import Mathlib

/-! # Open-claude: streaming ingestion, aggregation and artifact extraction

A shallow embedding of `src/lib/llm/clients.js` (the factory and the provider
adapters), `src/lib/llm/ModelService.js` (model discovery and its cache),
`src/lib/tavily.js` (the search client), `src/context/ChatContext.jsx`
(messages, artifacts and the chat history) and of `handleSendMessage` in
`src/App.jsx` with its streaming callback and artifact extraction.

Conventions of the embedding.

* A JavaScript string is the `List Char` of its code points.  Where the code
  counts or cuts UTF-16 code units (`length`, `substring`), the model does so
  on `toUtf16`, the code units of the text.
* A JavaScript value that can come out of `JSON.parse` is a `Json`; the value
  `undefined` is `none : Option Json`.  Numbers are integers (the only numeric
  field the code reads is a token count).
* A `try { ... } catch` whose body may throw is an `Option`: `none` is the
  caught exception.
* `JSON.parse` is a platform function.  The adapters take it as the parameter
  `parse`; general theorems hold for every `parse`.  `JSON.parse` below is an
  executable reader of JSON text used to evaluate the adapters on concrete
  streams.
* The response body is the finite list of text chunks the reader delivers, in
  order, optionally ended by a transport error.
-/

namespace OpenClaude

/-! ## JavaScript values -/

/-- Values produced by `JSON.parse`. -/
inductive Json where
  | null
  | bool (b : Bool)
  | num (n : Int)
  | str (s : List Char)
  | arr (xs : List Json)
  | obj (kvs : List (List Char × Json))

/-- A JavaScript value: `none` is `undefined`. -/
abbrev JsVal := Option Json

namespace Json

/-- JavaScript truthiness (`if (v)`, `v || w`, `!v`) of a non-undefined value. -/
def truthy : Json → Bool
  | null => false
  | bool b => b
  | num n => n != 0
  | str s => !s.isEmpty
  | arr _ => true
  | obj _ => true

/-- Own property `key` of an object literal; of duplicate keys the last one
wins, as in `JSON.parse`. -/
def lookup (key : List Char) : List (List Char × Json) → JsVal
  | [] => none
  | (k, v) :: rest =>
    match lookup key rest with
    | some w => some w
    | none => if k = key then some v else none

/-- Read of a named property `v.key` on a value that is neither `null` nor
`undefined` (none of the names the adapters read exists on a prototype). -/
def member (key : List Char) : Json → JsVal
  | obj kvs => lookup key kvs
  | _ => none

/-- Read of the element `v[0]` on a value that is neither `null` nor `undefined`. -/
def index0 : Json → JsVal
  | arr xs => xs.head?
  | str (c :: _) => some (str [c])
  | obj kvs => lookup ['0'] kvs
  | _ => none

end Json

/-- Truthiness of a JavaScript value; `undefined` is falsy. -/
def truthy : JsVal → Bool
  | none => false
  | some v => v.truthy

/-- Plain property read `v.key`: throws (`none`) on `null` and `undefined`. -/
def dot (v : JsVal) (key : List Char) : Option JsVal :=
  match v with
  | none => none
  | some Json.null => none
  | some w => some (w.member key)

/-- Plain element read `v[0]`: throws (`none`) on `null` and `undefined`. -/
def at0 (v : JsVal) : Option JsVal :=
  match v with
  | none => none
  | some Json.null => none
  | some w => some w.index0

/-- Optional chaining `v?.key`. -/
def optDot (v : JsVal) (key : List Char) : JsVal :=
  match v with
  | none => none
  | some Json.null => none
  | some w => w.member key

/-- Optional chaining `v?.[0]`. -/
def optAt0 (v : JsVal) : JsVal :=
  match v with
  | none => none
  | some Json.null => none
  | some w => w.index0

/-- The expression `v || ''`. -/
def orEmpty (v : JsVal) : Json :=
  match v with
  | none => Json.str []
  | some w => if w.truthy then w else Json.str []

/-- The UTF-16 code units of a character: one unit in the Basic Multilingual
Plane, a surrogate pair above it. -/
def utf16Units (c : Char) : List Nat :=
  if c.toNat < 0x10000 then [c.toNat]
  else [0xD800 + (c.toNat - 0x10000) / 0x400, 0xDC00 + (c.toNat - 0x10000) % 0x400]

/-- The UTF-16 code units of a text, the elements a JavaScript string is
made of. -/
def toUtf16 (s : List Char) : List Nat := s.flatMap utf16Units

/-- The property `s.length` of a string: its number of UTF-16 code units. -/
def jsLength (s : List Char) : Nat := (toUtf16 s).length

/-- Decimal digits of a natural number, most significant first. -/
def natDigits (n : Nat) : List Char := (Nat.repr n).toList

/-- String conversion of an integer. -/
def intToString (n : Int) : List Char :=
  match n with
  | Int.ofNat m => natDigits m
  | Int.negSucc m => '-' :: natDigits (m + 1)

/-- Elements of an array joined by commas. -/
def joinComma : List (List Char) → List Char
  | [] => []
  | [s] => s
  | s :: rest => s ++ ',' :: joinComma rest

mutual
/-- String conversion `String(v)`, as performed by `s += v`. -/
def Json.toJsString : Json → List Char
  | Json.null => "null".toList
  | Json.bool true => "true".toList
  | Json.bool false => "false".toList
  | Json.num n => intToString n
  | Json.str s => s
  | Json.arr xs => joinComma (Json.elemStrings xs)
  | Json.obj _ => "[object Object]".toList
/-- String conversions of the elements of an array: `null` joins as the empty string. -/
def Json.elemStrings : List Json → List (List Char)
  | [] => []
  | Json.null :: rest => [] :: Json.elemStrings rest
  | x :: rest => Json.toJsString x :: Json.elemStrings rest
end

/-! ## The streaming callback of `handleSendMessage` -/

/-- The second argument of `onChunk`; an absent property is `none`. -/
structure Metadata where
  isThinking : Option Bool
  thinkingTokens : JsVal

/-- One call `onChunk(chunk, metadata)`. -/
structure ChunkEvent where
  chunk : Json
  metadata : Option Metadata

/-- A call of one of the two streaming setters with its argument. -/
inductive UiUpdate where
  | setStreamingThinking (text : List Char)
  | setStreamingMessage (text : List Char)

/-- The variables the callback closes over, and the setter calls made so far. -/
structure StreamState where
  fullResponse : List Char
  fullThinking : List Char
  thinkingTokens : Json
  updates : List UiUpdate

/-- State before `client.streamChat` is called (`App.jsx` lines 108-110). -/
def StreamState.init : StreamState :=
  { fullResponse := [], fullThinking := [], thinkingTokens := Json.null, updates := [] }

/-- The value of `metadata?.isThinking`, as a condition. -/
def ChunkEvent.isThinking (e : ChunkEvent) : Bool :=
  match e.metadata with
  | none => false
  | some m => m.isThinking == some true

/-- The value of `metadata?.thinkingTokens`. -/
def ChunkEvent.thinkingTokens (e : ChunkEvent) : JsVal :=
  match e.metadata with
  | none => none
  | some m => m.thinkingTokens

/-- Body of the callback passed to `streamChat` (`App.jsx` lines 112-127). -/
def onChunk (st : StreamState) (e : ChunkEvent) : StreamState :=
  let st1 : StreamState :=
    if e.isThinking then
      let t := st.fullThinking ++ e.chunk.toJsString
      { st with fullThinking := t, updates := st.updates ++ [UiUpdate.setStreamingThinking t] }
    else
      let r := st.fullResponse ++ e.chunk.toJsString
      { st with fullResponse := r, updates := st.updates ++ [UiUpdate.setStreamingMessage r] }
  match e.thinkingTokens with
  | some v => if v.truthy then { st1 with thinkingTokens := v } else st1
  | none => st1

/-- The callback applied to the events of a stream, in arrival order. -/
def aggregate (events : List ChunkEvent) : StreamState :=
  events.foldl onChunk StreamState.init

/-- Concatenation of the texts of the events whose thinking flag equals `flag`. -/
def textOf (flag : Bool) (events : List ChunkEvent) : List Char :=
  ((events.filter (fun e => e.isThinking == flag)).map (fun e => e.chunk.toJsString)).flatten

/-- An event carrying a text fragment and a thinking flag. -/
def textEvent (text : List Char) (isThinking : Bool) : ChunkEvent :=
  { chunk := Json.str text,
    metadata := some { isThinking := some isThinking, thinkingTokens := none } }

/-! ## An executable reader of JSON text -/

/-- JSON insignificant whitespace. -/
def isJsonWs (c : Char) : Bool :=
  c = ' ' || c = '\t' || c = '\n' || c = '\r'

/-- Drops leading JSON whitespace. -/
def skipWs : List Char → List Char
  | [] => []
  | c :: cs => if isJsonWs c then skipWs cs else c :: cs

/-- Value of a hexadecimal digit. -/
def hexVal (c : Char) : Option Nat :=
  if '0' ≤ c ∧ c ≤ '9' then some (c.toNat - '0'.toNat)
  else if 'a' ≤ c ∧ c ≤ 'f' then some (c.toNat - 'a'.toNat + 10)
  else if 'A' ≤ c ∧ c ≤ 'F' then some (c.toNat - 'A'.toNat + 10)
  else none

/-- Code unit of a `\uXXXX` escape; escapes in the surrogate range have no
image in `Char` and are reported as a failure. -/
def hex4 (a b c d : Char) : Option Char :=
  match hexVal a, hexVal b, hexVal c, hexVal d with
  | some x, some y, some z, some w =>
    let n := ((x * 16 + y) * 16 + z) * 16 + w
    if 0xD800 ≤ n ∧ n ≤ 0xDFFF then none else some (Char.ofNat n)
  | _, _, _, _ => none

/-- Reads a string literal after its opening quote; returns the string and the
text after the closing quote. -/
def parseStringBody : List Char → Option (List Char × List Char)
  | [] => none
  | '"' :: rest => some ([], rest)
  | '\\' :: 'u' :: a :: b :: c :: d :: rest =>
    match hex4 a b c d, parseStringBody rest with
    | some ch, some (s, r) => some (ch :: s, r)
    | _, _ => none
  | '\\' :: e :: rest =>
    let unit : Option Char :=
      if e = '"' then some '"'
      else if e = '\\' then some '\\'
      else if e = '/' then some '/'
      else if e = 'b' then some (Char.ofNat 8)
      else if e = 'f' then some (Char.ofNat 12)
      else if e = 'n' then some '\n'
      else if e = 'r' then some '\r'
      else if e = 't' then some '\t'
      else none
    match unit, parseStringBody rest with
    | some ch, some (s, r) => some (ch :: s, r)
    | _, _ => none
  | '\\' :: [] => none
  | c :: rest =>
    if c.toNat < 0x20 then none
    else
      match parseStringBody rest with
      | some (s, r) => some (c :: s, r)
      | none => none

/-- Reads a maximal run of decimal digits, accumulating its value. -/
def parseDigits (acc : Nat) : List Char → Nat × List Char
  | [] => (acc, [])
  | c :: cs =>
    if '0' ≤ c ∧ c ≤ '9' then parseDigits (acc * 10 + (c.toNat - '0'.toNat)) cs
    else (acc, c :: cs)

/-- Reads an unsigned integer literal (`0` or a run of digits not starting
with `0`).  A fraction or exponent part has no image in `Json.num` and is
reported as a failure. -/
def parseNat : List Char → Option (Nat × List Char)
  | [] => none
  | c :: cs =>
    let done (n : Nat) (rest : List Char) : Option (Nat × List Char) :=
      match rest with
      | '.' :: _ => none
      | 'e' :: _ => none
      | 'E' :: _ => none
      | _ => some (n, rest)
    if c = '0' then done 0 cs
    else if '1' ≤ c ∧ c ≤ '9' then
      let r := parseDigits (c.toNat - '0'.toNat) cs
      done r.1 r.2
    else none

mutual
/-- Reads one JSON value at the head of the text (after whitespace). -/
def parseValue : Nat → List Char → Option (Json × List Char)
  | 0, _ => none
  | fuel + 1, text =>
    match skipWs text with
    | 'n' :: 'u' :: 'l' :: 'l' :: rest => some (Json.null, rest)
    | 't' :: 'r' :: 'u' :: 'e' :: rest => some (Json.bool true, rest)
    | 'f' :: 'a' :: 'l' :: 's' :: 'e' :: rest => some (Json.bool false, rest)
    | '"' :: rest =>
      match parseStringBody rest with
      | some (s, r) => some (Json.str s, r)
      | none => none
    | '[' :: rest =>
      match skipWs rest with
      | ']' :: r => some (Json.arr [], r)
      | body =>
        match parseElements fuel body with
        | some (xs, r) => some (Json.arr xs, r)
        | none => none
    | '{' :: rest =>
      match skipWs rest with
      | '}' :: r => some (Json.obj [], r)
      | body =>
        match parseMembers fuel body with
        | some (kvs, r) => some (Json.obj kvs, r)
        | none => none
    | '-' :: rest =>
      match parseNat rest with
      | some (n, r) => some (Json.num (-(n : Int)), r)
      | none => none
    | other =>
      match parseNat other with
      | some (n, r) => some (Json.num (n : Int), r)
      | none => none
/-- Reads `value (, value)* ]`. -/
def parseElements : Nat → List Char → Option (List Json × List Char)
  | 0, _ => none
  | fuel + 1, text =>
    match parseValue fuel text with
    | none => none
    | some (v, rest) =>
      match skipWs rest with
      | ']' :: r => some ([v], r)
      | ',' :: r =>
        match parseElements fuel r with
        | some (vs, r2) => some (v :: vs, r2)
        | none => none
      | _ => none
/-- Reads `"key" : value (, "key" : value)* }`. -/
def parseMembers : Nat → List Char → Option (List (List Char × Json) × List Char)
  | 0, _ => none
  | fuel + 1, text =>
    match skipWs text with
    | '"' :: rest =>
      match parseStringBody rest with
      | none => none
      | some (k, afterKey) =>
        match skipWs afterKey with
        | ':' :: afterColon =>
          match parseValue fuel afterColon with
          | none => none
          | some (v, afterValue) =>
            match skipWs afterValue with
            | '}' :: r => some ([(k, v)], r)
            | ',' :: r =>
              match parseMembers fuel r with
              | some (kvs, r2) => some ((k, v) :: kvs, r2)
              | none => none
            | _ => none
        | _ => none
    | _ => none
end

/-- Model of `JSON.parse(text)`: `none` is a thrown `SyntaxError`.  The whole
text must be one value surrounded by whitespace. -/
def JSON.parse (text : List Char) : Option Json :=
  match parseValue (text.length + 1) text with
  | some (v, rest) => if (skipWs rest).isEmpty then some v else none
  | none => none

/-! ## String operations used by the adapters -/

/-- The call `text.split('\n')`: the pieces between newlines, never empty. -/
def splitNewline : List Char → List (List Char)
  | [] => [[]]
  | c :: cs =>
    match splitNewline cs with
    | [] => [[]]
    | l :: ls => if c = '\n' then [] :: l :: ls else (c :: l) :: ls

/-- The call `s.startsWith(p)`. -/
def startsWith (p s : List Char) : Bool :=
  match p, s with
  | [], _ => true
  | _ :: _, [] => false
  | a :: p1, b :: s1 => a == b && startsWith p1 s1

/-- White space and line terminators, the characters `trim` strips. -/
def isJsWhitespace (c : Char) : Bool :=
  let n := c.toNat
  n = 0x09 || n = 0x0A || n = 0x0B || n = 0x0C || n = 0x0D || n = 0x20 || n = 0xA0
    || n = 0x1680 || (0x2000 ≤ n && n ≤ 0x200A) || n = 0x2028 || n = 0x2029
    || n = 0x202F || n = 0x205F || n = 0x3000 || n = 0xFEFF

/-- The call `s.trim()`. -/
def jsTrim (s : List Char) : List Char :=
  ((s.dropWhile isJsWhitespace).reverse.dropWhile isJsWhitespace).reverse

/-- The prefix `'data: '` of an event-stream frame. -/
def dataPrefix : List Char := "data: ".toList

/-- The sentinel line `'data: [DONE]'`. -/
def doneLine : List Char := "data: [DONE]".toList

/-! ## Decoding one line -/

/-- The call `onChunk(v, { isThinking: flag })`. -/
def chunkCall (v : Json) (flag : Bool) : ChunkEvent :=
  { chunk := v, metadata := some { isThinking := some flag, thinkingTokens := none } }

/-- The call `onChunk('', { thinkingTokens: v })`. -/
def usageCall (v : Json) : ChunkEvent :=
  { chunk := Json.str [], metadata := some { isThinking := none, thinkingTokens := some v } }

/-- The expression `data.choices[0]`: throws when `data` or `data.choices` is
`null` or `undefined`. -/
def firstChoice (data : Json) : Option JsVal :=
  match dot (some data) "choices".toList with
  | none => none
  | some choices => at0 choices

/-- Body of the `for` loop of `OpenAIClient.streamChat` (`clients.js` lines
67-92): the `onChunk` calls made for one line. -/
def openaiLine (parse : List Char → Option Json) (line : List Char) : List ChunkEvent :=
  if startsWith dataPrefix line && line != doneLine then
    match parse (line.drop 6) with
    | none => []
    | some data =>
      match firstChoice data with
      | none => []
      | some choice =>
        let content := orEmpty (optDot (optDot choice "delta".toList) "content".toList)
        let reasoning := orEmpty (optDot (optDot choice "delta".toList) "reasoning".toList)
        let tokens := optDot (data.member "usage".toList) "reasoning_tokens".toList
        (if reasoning.truthy then [chunkCall reasoning true]
          else if content.truthy then [chunkCall content false]
          else [])
        ++ (match tokens with
            | some v => if v.truthy then [usageCall v] else []
            | none => [])
  else []

/-- Body of the `for` loop of `GroqClient.streamChat` (lines 131-140) and of
`LMStudioClient.streamChat` (lines 297-305), which are the same code. -/
def contentLine (parse : List Char → Option Json) (line : List Char) : List ChunkEvent :=
  if startsWith dataPrefix line && line != doneLine then
    match parse (line.drop 6) with
    | none => []
    | some data =>
      match firstChoice data with
      | none => []
      | some choice =>
        let content := orEmpty (optDot (optDot choice "delta".toList) "content".toList)
        if content.truthy then [chunkCall content false] else []
  else []

/-- The expression `data.candidates?.[0]?.content?.parts?.[0]?.text || ''`;
the first read throws when `data` is `null`. -/
def geminiText (data : Json) : Option Json :=
  match dot (some data) "candidates".toList with
  | none => none
  | some candidates =>
    some (orEmpty (optDot (optAt0 (optDot (optDot (optAt0 candidates) "content".toList)
      "parts".toList)) "text".toList))

/-- Body of the `for` loop of `GeminiClient.streamChat` (lines 189-198); the
code run on the remaining buffer after the loop (lines 203-211) is the same. -/
def geminiLine (parse : List Char → Option Json) (line : List Char) : List ChunkEvent :=
  if !(jsTrim line).isEmpty then
    match parse line with
    | none => []
    | some data =>
      match geminiText data with
      | none => []
      | some text => if text.truthy then [chunkCall text false] else []
  else []

/-- Body of the `for` loop of `OllamaClient.streamChat` (lines 249-257). -/
def ollamaLine (parse : List Char → Option Json) (line : List Char) : List ChunkEvent :=
  if !(jsTrim line).isEmpty then
    match parse line with
    | none => []
    | some data =>
      match dot (some data) "message".toList with
      | none => []
      | some message =>
        let content := orEmpty (optDot message "content".toList)
        if content.truthy then [chunkCall content false] else []
  else []

/-! ## The read loops -/

/-- The read loop of the adapters that keep no buffer (OpenAI, Groq, Ollama,
LM Studio): every delivered chunk is split on newlines and each piece is
handed to the line handler. -/
def decodeChunks (lineFn : List Char → List ChunkEvent) (chunks : List (List Char)) :
    List ChunkEvent :=
  chunks.flatMap (fun chunk => (splitNewline chunk).flatMap lineFn)

/-- State of the read loop of `GeminiClient.streamChat`: the carry-over
buffer and the `onChunk` calls made so far. -/
structure GeminiLoop where
  buffer : List Char
  events : List ChunkEvent

/-- One iteration of the Gemini read loop (lines 181-199). -/
def geminiStep (parse : List Char → Option Json) (st : GeminiLoop) (chunk : List Char) :
    GeminiLoop :=
  let lines := splitNewline (st.buffer ++ chunk)
  { buffer := lines.getLastD [],
    events := st.events ++ lines.dropLast.flatMap (geminiLine parse) }

/-- The Gemini read loop over all delivered chunks. -/
def geminiLoop (parse : List Char → Option Json) (chunks : List (List Char)) : GeminiLoop :=
  chunks.foldl (geminiStep parse) { buffer := [], events := [] }

/-- All `onChunk` calls of `GeminiClient.streamChat` on a stream that ends
normally: the loop, then the remaining buffer. -/
def geminiDecode (parse : List Char → Option Json) (chunks : List (List Char)) :
    List ChunkEvent :=
  let st := geminiLoop parse chunks
  st.events ++ geminiLine parse st.buffer

/-! ## Transport and `streamChat` -/

/-- A conversation turn as the adapters receive it: `role`, `content` and
whatever other properties the stored message carries. -/
structure Message where
  role : List Char
  content : List Char
  extra : List (List Char × Json)

/-- The arguments of one `fetch` call: the URL, the `Authorization` header if
one is set, and the value handed to `JSON.stringify` as the body. -/
structure Request where
  url : List Char
  authorization : Option (List Char)
  body : Json

/-- What the adapter can observe of a response: `ok`, the outcome of
`response.json()` (the parsed body, or the message of its rejection), the
decoded text of the chunks `reader.read()` delivers before `done`, and the
message of a read failure ending the stream, if any. -/
structure Response where
  ok : Bool
  json : Except (List Char) Json
  chunks : List (List Char)
  readError : Option (List Char)

/-- Outcome of `await fetch(...)`. -/
inductive FetchResult where
  | networkError (message : List Char)
  | response (r : Response)

/-- Everything observable of one `streamChat` call: the `fetch` calls made,
the `onChunk` calls made, and whether the promise resolved or rejected (with
the error message). -/
structure Run where
  fetches : List Request
  events : List ChunkEvent
  result : Except (List Char) Unit

/-- The template substitution of a JavaScript value into a string. -/
def jsValToString : JsVal → List Char
  | none => "undefined".toList
  | some v => v.toJsString

/-- The expression `messages.map(m => ({ role: m.role, content: m.content }))`. -/
def roleContent (messages : List Message) : Json :=
  Json.arr (messages.map (fun m =>
    Json.obj [("role".toList, Json.str m.role), ("content".toList, Json.str m.content)]))

/-- The body `{ model, messages, stream: true }` of the OpenAI-compatible and
Ollama requests. -/
def chatBody (model : List Char) (messages : List Message) : Json :=
  Json.obj [("model".toList, Json.str model), ("messages".toList, roleContent messages),
    ("stream".toList, Json.bool true)]

/-- Message of the `TypeError` thrown by `err.error` when `err` is `null`. -/
def nullErrorRead : List Char := "Cannot read properties of null (reading 'error')".toList

/-- The statements `const err = await response.json(); throw new Error(
err.error?.message || fallback)`: the message the promise rejects with. -/
def apiErrorMessage (fallback : List Char) (r : Response) : List Char :=
  match r.json with
  | Except.error m => m
  | Except.ok err =>
    match dot (some err) "error".toList with
    | none => nullErrorRead
    | some e =>
      match optDot e "message".toList with
      | some v => if v.truthy then v.toJsString else fallback
      | none => fallback

/-- The read loop of a bufferless adapter over a response body, as a `Run`. -/
def readBody (lineFn : List Char → List ChunkEvent) (req : Request) (r : Response) : Run :=
  { fetches := [req],
    events := decodeChunks lineFn r.chunks,
    result := match r.readError with
      | some m => Except.error m
      | none => Except.ok () }

/-- Model of `OpenAIClient.streamChat` (`clients.js` lines 33-95). -/
def OpenAIClient.streamChat (parse : List Char → Option Json) (fetch : Request → FetchResult)
    (apiKey : JsVal) (messages : List Message) (modelId : Option (List Char)) : Run :=
  if !truthy apiKey then
    { fetches := [], events := [], result := Except.error "OpenAI API Key missing".toList }
  else
    let req : Request :=
      { url := "https://api.openai.com/v1/chat/completions".toList,
        authorization := some ("Bearer ".toList ++ jsValToString apiKey),
        body := chatBody (modelId.getD "gpt-4o".toList) messages }
    match fetch req with
    | FetchResult.networkError m => { fetches := [req], events := [], result := Except.error m }
    | FetchResult.response r =>
      if !r.ok then
        { fetches := [req], events := [],
          result := Except.error (apiErrorMessage "OpenAI API Error".toList r) }
      else readBody (openaiLine parse) req r

/-- Model of `GroqClient.streamChat` (`clients.js` lines 99-143). -/
def GroqClient.streamChat (parse : List Char → Option Json) (fetch : Request → FetchResult)
    (apiKey : JsVal) (messages : List Message) (modelId : Option (List Char)) : Run :=
  if !truthy apiKey then
    { fetches := [], events := [], result := Except.error "Groq API Key missing".toList }
  else
    let req : Request :=
      { url := "https://api.groq.com/openai/v1/chat/completions".toList,
        authorization := some ("Bearer ".toList ++ jsValToString apiKey),
        body := chatBody (modelId.getD "llama-3.3-70b-versatile".toList) messages }
    match fetch req with
    | FetchResult.networkError m => { fetches := [req], events := [], result := Except.error m }
    | FetchResult.response r =>
      if !r.ok then
        { fetches := [req], events := [],
          result := Except.error (apiErrorMessage "Groq API Error".toList r) }
      else readBody (contentLine parse) req r

/-- The `contents` array of the Gemini request (`clients.js` lines 153-156). -/
def geminiContents (messages : List Message) : Json :=
  Json.arr (messages.map (fun m =>
    Json.obj [("role".toList,
        Json.str (if m.role = "assistant".toList then "model".toList else "user".toList)),
      ("parts".toList, Json.arr [Json.obj [("text".toList, Json.str m.content)]])]))

/-- Model of `GeminiClient.streamChat` (`clients.js` lines 147-212).  A read
failure leaves the loop by the exception, so the remaining buffer is then not
processed. -/
def GeminiClient.streamChat (parse : List Char → Option Json) (fetch : Request → FetchResult)
    (apiKey : JsVal) (messages : List Message) (modelId : Option (List Char)) : Run :=
  if !truthy apiKey then
    { fetches := [], events := [], result := Except.error "Gemini API Key missing".toList }
  else
    let req : Request :=
      { url := "https://generativelanguage.googleapis.com/v1beta/models/".toList
          ++ modelId.getD "gemini-1.5-flash".toList
          ++ ":streamGenerateContent?key=".toList ++ jsValToString apiKey,
        authorization := none,
        body := Json.obj [("contents".toList, geminiContents messages)] }
    match fetch req with
    | FetchResult.networkError m => { fetches := [req], events := [], result := Except.error m }
    | FetchResult.response r =>
      if !r.ok then
        { fetches := [req], events := [],
          result := Except.error (apiErrorMessage "Gemini API Error".toList r) }
      else
        match r.readError with
        | some m =>
          { fetches := [req], events := (geminiLoop parse r.chunks).events,
            result := Except.error m }
        | none =>
          { fetches := [req], events := geminiDecode parse r.chunks, result := Except.ok () }

/-- Model of `OllamaClient.streamChat` (`clients.js` lines 221-260); the
constructor sets `apiKey` to `null` and the method never reads it. -/
def OllamaClient.streamChat (parse : List Char → Option Json) (fetch : Request → FetchResult)
    (messages : List Message) (modelId : Option (List Char)) : Run :=
  let req : Request :=
    { url := "http://localhost:11434/api/chat".toList,
      authorization := none,
      body := chatBody (modelId.getD "llama2".toList) messages }
  match fetch req with
  | FetchResult.networkError m => { fetches := [req], events := [], result := Except.error m }
  | FetchResult.response r =>
    if !r.ok then
      { fetches := [req], events := [],
        result := Except.error "Ollama API Error - is Ollama running?".toList }
    else readBody (ollamaLine parse) req r

/-- Model of `LMStudioClient.streamChat` (`clients.js` lines 269-308); the
constructor sets `apiKey` to `null` and the method never reads it. -/
def LMStudioClient.streamChat (parse : List Char → Option Json) (fetch : Request → FetchResult)
    (messages : List Message) (modelId : Option (List Char)) : Run :=
  let req : Request :=
    { url := "http://localhost:1234/v1/chat/completions".toList,
      authorization := none,
      body := chatBody
        (match modelId with
          | some m => if m.isEmpty then "local-model".toList else m
          | none => "local-model".toList) messages }
  match fetch req with
  | FetchResult.networkError m => { fetches := [req], events := [], result := Except.error m }
  | FetchResult.response r =>
    if !r.ok then
      { fetches := [req], events := [],
        result := Except.error
          "LM Studio API Error - is LM Studio running with a model loaded?".toList }
    else readBody (contentLine parse) req r

/-- The provider identifiers of `LLMFactory.getClient`. -/
inductive Provider where
  | openai
  | groq
  | gemini
  | ollama
  | lmstudio

/-- The call `LLMFactory.getClient(provider, apiKey).streamChat(messages,
onChunk, modelId)`: the remote clients keep the given key, the local clients
are constructed without one. -/
def Provider.streamChat (p : Provider) (parse : List Char → Option Json)
    (fetch : Request → FetchResult) (apiKey : JsVal) (messages : List Message)
    (modelId : Option (List Char)) : Run :=
  match p with
  | Provider.openai => OpenAIClient.streamChat parse fetch apiKey messages modelId
  | Provider.groq => GroqClient.streamChat parse fetch apiKey messages modelId
  | Provider.gemini => GeminiClient.streamChat parse fetch apiKey messages modelId
  | Provider.ollama => OllamaClient.streamChat parse fetch messages modelId
  | Provider.lmstudio => LMStudioClient.streamChat parse fetch messages modelId

/-! ## A transport serving a fixed body -/

/-- A transport that answers every request with status OK and a body
delivered as the given chunks, ending normally. -/
def serve (chunks : List (List Char)) : Request → FetchResult :=
  fun _ => FetchResult.response
    { ok := true, json := Except.ok Json.null, chunks := chunks, readError := none }

/-- The aggregated answer text of a run: `fullResponse` after the callback has
seen every `onChunk` call. -/
def Run.answerText (r : Run) : List Char := (aggregate r.events).fullResponse

/-- The aggregated reasoning text of a run. -/
def Run.reasoningText (r : Run) : List Char := (aggregate r.events).fullThinking

/-! ## Event-stream frames, as the specification describes them -/

/-- The first choice of a well-formed `data: ` frame: the line starts with
`data: `, is not the sentinel, its payload parses as JSON, and `choices[0]` of
the parsed value can be read. -/
def frameChoice (parse : List Char → Option Json) (line : List Char) : Option JsVal :=
  if startsWith dataPrefix line && line != doneLine then
    match parse (line.drop 6) with
    | none => none
    | some data => firstChoice data
  else none

/-- The value of `delta.<field>` of a line when the line is a well-formed
frame and the value is non-empty, and the empty string otherwise. -/
def deltaValue (parse : List Char → Option Json) (field : List Char) (line : List Char) : Json :=
  match frameChoice parse line with
  | none => Json.str []
  | some choice => orEmpty (optDot (optDot choice "delta".toList) field)

/-- Concatenation, in order, of the non-empty `delta.content` values of the
well-formed frames among the given lines. -/
def contentsOf (parse : List Char → Option Json) (frames : List (List Char)) : List Char :=
  (frames.map (fun l => (deltaValue parse "content".toList l).toJsString)).flatten

/-- Concatenation, in order, of the non-empty `delta.reasoning` values of the
well-formed frames among the given lines. -/
def reasoningsOf (parse : List Char → Option Json) (frames : List (List Char)) : List Char :=
  (frames.map (fun l => (deltaValue parse "reasoning".toList l).toJsString)).flatten

/-- Concatenation, in order, of the non-empty `delta.content` values of the
well-formed frames that carry no non-empty `delta.reasoning` value. -/
def contentsWithoutReasoningOf (parse : List Char → Option Json) (frames : List (List Char)) :
    List Char :=
  (frames.map (fun l =>
    if (deltaValue parse "reasoning".toList l).truthy then []
    else (deltaValue parse "content".toList l).toJsString)).flatten

/-- A chunk made of whole lines: every line followed by a newline. -/
def wholeLines (lines : List (List Char)) : List Char :=
  (lines.map (fun l => l ++ ['\n'])).flatten

/-- Holds when the text contains no newline. -/
def noNewline (l : List Char) : Prop := '\n' ∉ l

/-- The three frames of the end-to-end scenario:
`data: {"choices":[{"delta":{"content":"He"}}]}`,
`data: {"choices":[{"delta":{"content":"llo"}}]}` and `data: [DONE]`. -/
def helloFrames : List (List Char) :=
  ["data: \x7b\"choices\":[\x7b\"delta\":\x7b\"content\":\"He\"\x7d\x7d]\x7d".toList,
   "data: \x7b\"choices\":[\x7b\"delta\":\x7b\"content\":\"llo\"\x7d\x7d]\x7d".toList,
   "data: [DONE]".toList]

/-- A frame whose delta carries both a reasoning and a content value:
`data: {"choices":[{"delta":{"reasoning":"R","content":"A"}}]}`. -/
def bothFrame : List Char :=
  "data: \x7b\"choices\":[\x7b\"delta\":\x7b\"reasoning\":\"R\",".toList
    ++ "\"content\":\"A\"\x7d\x7d]\x7d".toList

instance (l : List Char) : Decidable (noNewline l) :=
  inferInstanceAs (Decidable ('\n' ∉ l))

/-- The conversation of the end-to-end scenario: one user turn `hi`. -/
def hiConversation : List Message :=
  [{ role := "user".toList, content := "hi".toList, extra := [] }]

/-- A non-empty credential. -/
def someKey : JsVal := some (Json.str "sk-test".toList)

/-! ## Kinds of `onChunk` calls -/

/-- A call delivering a text fragment: `onChunk(v, { isThinking: flag })` with
a truthy (hence non-empty) `v`. -/
def IsTextCall (e : ChunkEvent) : Prop :=
  e.chunk.truthy = true
    ∧ ∃ flag : Bool, e.metadata = some { isThinking := some flag, thinkingTokens := none }

/-- A call delivering a token count: `onChunk('', { thinkingTokens: v })` with
a truthy `v`. -/
def IsUsageCall (e : ChunkEvent) : Prop :=
  ∃ v : Json, v.truthy = true ∧ e = usageCall v

/-- A frame carrying only a usage record:
`data: {"choices":[],"usage":{"reasoning_tokens":7}}`. -/
def usageFrame : List Char :=
  "data: \x7b\"choices\":[],\"usage\":\x7b\"reasoning_tokens\":7\x7d\x7d".toList

/-- The first part of the Gemini line
`{"candidates":[{"content":{"parts":[{"text":"Hi"}]}}]}`, cut inside the
object: `{"candidates":[{"content":{"par`. -/
def geminiHead : List Char := "\x7b\"candidates\":[\x7b\"content\":\x7b\"par".toList

/-- The rest of the Gemini line started by `geminiHead`:
`ts":[{"text":"Hi"}]}}]}`. -/
def geminiTail : List Char := "ts\":[\x7b\"text\":\"Hi\"\x7d]\x7d\x7d]\x7d".toList

/-- The first part of the Ollama line `{"message":{"content":"Hi"}}`, cut
inside the object: `{"message":{"con`. -/
def ollamaHead : List Char := "\x7b\"message\":\x7b\"con".toList

/-- The rest of the Ollama line started by `ollamaHead`: `tent":"Hi"}}`. -/
def ollamaTail : List Char := "tent\":\"Hi\"\x7d\x7d".toList

/-! ## Malformed frames -/

/-- A line whose payload fails JSON parsing: for the event-stream adapters the
text after `data: ` of a line starting with `data: ` (a line without that
start has no payload at all), for the Gemini and Ollama adapters the line
itself. -/
def Malformed (p : Provider) (parse : List Char → Option Json) (line : List Char) : Prop :=
  match p with
  | Provider.gemini => parse line = none
  | Provider.ollama => parse line = none
  | _ => startsWith dataPrefix line = true → parse (line.drop 6) = none

/-- The malformed line of the scenario. -/
def notJson : List Char := "not json".toList

/-- A well-formed line of provider `p` carrying the one-letter text `c`:
`{"candidates":[{"content":{"parts":[{"text":"c"}]}}]}` for Gemini,
`{"message":{"content":"c"}}` for Ollama and
`data: {"choices":[{"delta":{"content":"c"}}]}` for the event-stream adapters. -/
def validLine (p : Provider) (c : Char) : List Char :=
  match p with
  | Provider.gemini =>
    "\x7b\"candidates\":[\x7b\"content\":\x7b\"parts\":[\x7b\"text\":\"".toList
      ++ c :: "\"\x7d]\x7d\x7d]\x7d".toList
  | Provider.ollama =>
    "\x7b\"message\":\x7b\"content\":\"".toList ++ c :: "\"\x7d\x7d".toList
  | _ =>
    "data: \x7b\"choices\":[\x7b\"delta\":\x7b\"content\":\"".toList
      ++ c :: "\"\x7d\x7d]\x7d".toList

/-- The events of provider `p` on the frames `[valid1, "not json", valid2]`
delivered as one chunk of whole lines. -/
def scenarioEvents (p : Provider) : List ChunkEvent :=
  (p.streamChat JSON.parse (serve [wholeLines [validLine p 'A', notJson, validLine p 'B']])
    someKey hiConversation none).events

/-! ## Artifact extraction (`App.jsx` lines 137-186) -/

/-- The closing fence: three backticks. -/
def fence : List Char := "```".toList

/-- The opening fence of a block tagged `tag`: three backticks, the tag, a
newline. -/
def openFence (tag : List Char) : List Char := fence ++ tag ++ ['\n']

/-- The lazy group `[\s\S]*?` followed by the literal `pat`: the shortest text
after which `pat` occurs, and the text after that occurrence. -/
def splitAtFirst (pat : List Char) : List Char → Option (List Char × List Char)
  | [] => if startsWith pat [] then some ([], []) else none
  | c :: cs =>
    if startsWith pat (c :: cs) then some ([], (c :: cs).drop pat.length)
    else
      match splitAtFirst pat cs with
      | some (a, b) => some (c :: a, b)
      | none => none

/-- An attempt to match one of the fence patterns at the head of `s`, the
alternatives tried in the order given: the tag that matched, the captured
body and the text after the closing fence. -/
def matchHere (tags : List (List Char)) (s : List Char) :
    Option (List Char × List Char × List Char) :=
  match tags with
  | [] => none
  | t :: ts =>
    if startsWith (openFence t) s then
      match splitAtFirst fence (s.drop (openFence t).length) with
      | some (body, after) => some (t, body, after)
      | none => matchHere ts s
    else matchHere ts s

/-- Result of a successful `String.prototype.match` with a fence pattern. -/
structure FenceMatch where
  before : List Char
  tag : List Char
  body : List Char
  after : List Char

/-- The call `text.match(/fence(tag1|tag2|...)\n([\s\S]*?)fence/)`: the
leftmost position at which the pattern matches, `none` for `null`. -/
def matchFence (tags : List (List Char)) : List Char → Option FenceMatch
  | [] =>
    match matchHere tags [] with
    | some (t, body, after) => some { before := [], tag := t, body := body, after := after }
    | none => none
  | c :: cs =>
    match matchHere tags (c :: cs) with
    | some (t, body, after) => some { before := [], tag := t, body := body, after := after }
    | none =>
      match matchFence tags cs with
      | some m => some { m with before := c :: m.before }
      | none => none

/-- The object `artifactData` built by `handleSendMessage`. -/
structure ArtifactData where
  type : List Char
  language : List Char
  content : List Char
  title : List Char

/-- The tag of `htmlMatch`. -/
def htmlTags : List (List Char) := ["html".toList]

/-- The tags of `jsxMatch`, in the order of the alternation. -/
def reactTags : List (List Char) := ["jsx".toList, "react".toList]

/-- The tag of `svgMatch`. -/
def svgTags : List (List Char) := ["svg".toList]

/-- The tags of the pattern used by `replace`, in the order of the alternation. -/
def allTags : List (List Char) := ["html".toList, "jsx".toList, "react".toList, "svg".toList]

/-- The artifact built from an html match. -/
def htmlArtifact (body : List Char) : ArtifactData :=
  { type := "html".toList, language := "html".toList, content := body,
    title := "HTML Preview".toList }

/-- The artifact built from a jsx or react match. -/
def reactArtifact (body : List Char) : ArtifactData :=
  { type := "react".toList, language := "jsx".toList, content := body,
    title := "React Component".toList }

/-- The artifact built from an svg match. -/
def svgArtifact (body : List Char) : ArtifactData :=
  { type := "svg".toList, language := "svg".toList, content := body,
    title := "SVG Graphics".toList }

/-- The match of `App.jsx` line 138 (html). -/
def htmlMatch (fullResponse : List Char) : Option FenceMatch :=
  matchFence htmlTags fullResponse

/-- The match of `App.jsx` line 139 (jsx or react). -/
def jsxMatch (fullResponse : List Char) : Option FenceMatch :=
  matchFence reactTags fullResponse

/-- The match of `App.jsx` line 140 (svg). -/
def svgMatch (fullResponse : List Char) : Option FenceMatch :=
  matchFence svgTags fullResponse

/-- The `if` / `else if` chain of `App.jsx` lines 142-165 over the three
matches: the value of `artifactData`, `none` for `null`. -/
def extractArtifact (fullResponse : List Char) : Option ArtifactData :=
  match htmlMatch fullResponse with
  | some m => some (htmlArtifact m.body)
  | none =>
    match jsxMatch fullResponse with
    | some m => some (reactArtifact m.body)
    | none =>
      match svgMatch fullResponse with
      | some m => some (svgArtifact m.body)
      | none => none

/-- The template literal of `App.jsx` line 180: two newlines,
`:::artifact{id="<newId>" title="<title>" type="<type>"}`, two newlines. -/
def placeholder (newId : List Char) (a : ArtifactData) : List Char :=
  "\n\n:::artifact\x7bid=\"".toList ++ newId ++ "\" title=\"".toList ++ a.title
    ++ "\" type=\"".toList ++ a.type ++ "\"\x7d\n\n".toList

/-- The value of `cleanResponse` (`App.jsx` line 181), the call
`fullResponse.replace(/fence(html|jsx|react|svg)\n[\s\S]*?fence/, placeholder)`:
the first match is replaced; without a match the text is unchanged.  The
placeholder holds no `$`, so it is inserted literally. -/
def cleanResponse (fullResponse replacement : List Char) : List Char :=
  match matchFence allTags fullResponse with
  | some m => m.before ++ replacement ++ m.after
  | none => fullResponse

/-- The id `addArtifact` returns: `Date.now().toString()`. -/
def newArtifactId (now : Nat) : List Char := natDigits now

/-- The content of the assistant message `handleSendMessage` stores
(`App.jsx` lines 175-186), `now` being the clock reading inside `addArtifact`. -/
def storedContent (now : Nat) (fullResponse : List Char) : List Char :=
  match extractArtifact fullResponse with
  | some a => cleanResponse fullResponse (placeholder (newArtifactId now) a)
  | none => fullResponse

/-! ## Fenced blocks, as the specification describes them -/

/-- The text contains a closed fenced block tagged `tag`: an opening fence
followed, anywhere later, by a closing fence. -/
def HasClosedBlock (tag : List Char) (text : List Char) : Prop :=
  ∃ pre body post : List Char, text = pre ++ openFence tag ++ body ++ fence ++ post

/-- The block starting after `pre` is the first closed fenced block of the
text with a tag among `tags`: no opening fence with such a tag that is
followed by a closing fence starts earlier. -/
def IsFirstBlock (tags : List (List Char)) (text pre : List Char) : Prop :=
  ∀ t ∈ tags, ∀ pre1 body1 post1 : List Char,
    text = pre1 ++ openFence t ++ body1 ++ fence ++ post1 → pre.length ≤ pre1.length

/-- The closing fence after `body` is the first one after the opening fence:
no closing fence starts earlier in `body ++ fence ++ post`. -/
def IsFirstClose (body post : List Char) : Prop :=
  ∀ body1 post1 : List Char,
    body ++ fence ++ post = body1 ++ fence ++ post1 → body.length ≤ body1.length

/-- An answer with an svg block followed by an html block:
three backticks `svg\nS` three backticks `\n` three backticks `html\nH` three
backticks. -/
def svgThenHtml : List Char := "```svg\nS```\n```html\nH```".toList

/-- An answer with two html blocks. -/
def twoHtml : List Char := "x```html\nH1```y```html\nH2```z".toList

/-- The body of the `for` loop over the lines of provider `p`. -/
def Provider.lineHandler (p : Provider) (parse : List Char → Option Json) :
    List Char → List ChunkEvent :=
  match p with
  | Provider.openai => openaiLine parse
  | Provider.groq => contentLine parse
  | Provider.gemini => geminiLine parse
  | Provider.ollama => ollamaLine parse
  | Provider.lmstudio => contentLine parse

/-- The events of provider `p` on the frames `[valid1, "not json", valid2]`
delivered one frame per chunk. -/
def scenarioEventsByFrame (p : Provider) : List ChunkEvent :=
  (p.streamChat JSON.parse
    (serve [wholeLines [validLine p 'A'], wholeLines [notJson], wholeLines [validLine p 'B']])
    someKey hiConversation none).events

/-! ## Reasoning-token counts, as the specification describes them -/

/-- An event carrying a reasoning-token count and no text flag, as a fake
adapter may deliver it: `onChunk('', { thinkingTokens: v })`. -/
def countEvent (v : Json) : ChunkEvent :=
  { chunk := Json.str [], metadata := some { isThinking := none, thinkingTokens := some v } }

/-- The counts carried by the events that are not null (nor absent), in
arrival order. -/
def nonNullCounts (events : List ChunkEvent) : List Json :=
  events.filterMap (fun e =>
    match e.thinkingTokens with
    | none => none
    | some Json.null => none
    | some v => some v)

/-- Last-write-wins over the non-null counts: the last of them, `null` when
there is none. -/
def lastNonNullCount (events : List ChunkEvent) : Json :=
  (nonNullCounts events).getLast?.getD Json.null

/-- The counts carried by the events that are truthy (for a number: not
zero), in arrival order. -/
def truthyCounts (events : List ChunkEvent) : List Json :=
  (events.filterMap ChunkEvent.thinkingTokens).filter Json.truthy

/-- Last-write-wins over the truthy counts: the last of them, `null` when
there is none. -/
def lastTruthyCount (events : List ChunkEvent) : Json :=
  (truthyCounts events).getLast?.getD Json.null

/-- The reasoning-token count captured by the callback once the run is over:
the final value of `thinkingTokens`. -/
def Run.capturedTokens (r : Run) : Json := (aggregate r.events).thinkingTokens

/-- The value `usage.reasoning_tokens` of a line that is a well-formed
`data: ` frame (its payload parses and `choices[0]` can be read), `undefined`
when the line is no such frame or carries no such value. -/
def frameUsage (parse : List Char → Option Json) (line : List Char) : JsVal :=
  if startsWith dataPrefix line && line != doneLine then
    match parse (line.drop 6) with
    | none => none
    | some data =>
      match firstChoice data with
      | none => none
      | some _ => optDot (data.member "usage".toList) "reasoning_tokens".toList
  else none

/-- The truthy `usage.reasoning_tokens` values of the well-formed frames among
the given lines, in order. -/
def frameCounts (parse : List Char → Option Json) (lines : List (List Char)) : List Json :=
  (lines.filterMap (frameUsage parse)).filter Json.truthy

/-- A usage frame with the count `n`:
`data: {"choices":[],"usage":{"reasoning_tokens":n}}`. -/
def usageFrameOf (n : Nat) : List Char :=
  "data: \x7b\"choices\":[],\"usage\":\x7b\"reasoning_tokens\":".toList ++ natDigits n
    ++ "\x7d\x7d".toList

/-- The adapters with event-stream framing: OpenAI, Groq and LM Studio. -/
def Provider.isEventStream (p : Provider) : Bool :=
  match p with
  | Provider.openai => true
  | Provider.groq => true
  | Provider.lmstudio => true
  | _ => false

/-- The events of provider `p` on a stream whose sentinel `data: [DONE]` is
followed by one more well-formed frame, delivered as one chunk of whole lines. -/
def afterDoneEvents (p : Provider) : List ChunkEvent :=
  (p.streamChat JSON.parse (serve [wholeLines [doneLine, validLine p 'A']]) someKey
    hiConversation none).events

/-- The entry of the Gemini `contents` array the specification prescribes for
a turn: the role `model` for an `assistant` turn and `user` for any other,
and the single part `{text: content}`. -/
def geminiEntry (role content : List Char) : Json :=
  Json.obj [("role".toList, Json.str role),
    ("parts".toList, Json.arr [Json.obj [("text".toList, Json.str content)]])]

/-- A conversation of three turns, the second by the assistant, the third with
a role outside the canonical vocabulary. -/
def threeTurns : List Message :=
  [{ role := "user".toList, content := "hi".toList, extra := [] },
   { role := "assistant".toList, content := "hello".toList,
     extra := [("id".toList, Json.str "17".toList)] },
   { role := "system".toList, content := "be brief".toList, extra := [] }]

/-! ## A transport answering with a failure status -/

/-- A transport that answers every request with a non-OK status; `json` is
the outcome of `response.json()` on the body. -/
def refuse (json : Except (List Char) Json) : Request → FetchResult :=
  fun _ => FetchResult.response { ok := false, json := json, chunks := [], readError := none }

/-- The message of the `SyntaxError` with which `response.json()` rejects on
the body `<html>502 Bad Gateway</html>`. -/
def htmlBodyError : List Char :=
  "Unexpected token '<', \"<html>502 \"... is not valid JSON".toList

/-- The parsed error body `{"error":{"message":"Rate limit reached"}}`. -/
def rateLimitBody : Json :=
  Json.obj [("error".toList, Json.obj [("message".toList, Json.str "Rate limit reached".toList)])]

/-! ## Model discovery (`ModelService.js`) -/

/-- An element of the model lists the discovery calls build; a property that
is absent or `undefined` is `none`. -/
structure ModelInfo where
  id : JsVal
  name : JsVal
  provider : List Char
  contextWindow : JsVal
  owned_by : JsVal
  size : JsVal
  modified : JsVal

/-- One entry `{ models, timestamp }` of `this.cache`; `none` is `null`. -/
structure CacheEntry where
  models : Option (List ModelInfo)
  timestamp : Option Int

/-- The entry `{ models: null, timestamp: null }`. -/
def CacheEntry.empty : CacheEntry := { models := none, timestamp := none }

/-- The object `this.cache`: the three entries the constructor creates, and
the own properties later created under other names, in creation order. -/
structure ModelCache where
  groq : CacheEntry
  ollama : CacheEntry
  lmstudio : CacheEntry
  extra : List (List Char × CacheEntry)

/-- The cache built by the constructor (`ModelService.js` lines 5-9). -/
def ModelCache.init : ModelCache :=
  { groq := CacheEntry.empty, ollama := CacheEntry.empty, lmstudio := CacheEntry.empty,
    extra := [] }

/-- The constant `CACHE_DURATION`: `5 * 60 * 1000` milliseconds. -/
def CACHE_DURATION : Int := 5 * 60 * 1000

/-- The providers with a discovery call and a cache entry. -/
inductive Discoverable where
  | groq
  | ollama
  | lmstudio

/-- The property name of a provider's cache entry. -/
def Discoverable.key (k : Discoverable) : List Char :=
  match k with
  | Discoverable.groq => "groq".toList
  | Discoverable.ollama => "ollama".toList
  | Discoverable.lmstudio => "lmstudio".toList

/-- The read `this.cache.<provider>`. -/
def ModelCache.entry (c : ModelCache) (k : Discoverable) : CacheEntry :=
  match k with
  | Discoverable.groq => c.groq
  | Discoverable.ollama => c.ollama
  | Discoverable.lmstudio => c.lmstudio

/-- The assignment `this.cache.<provider> = e`. -/
def ModelCache.setEntry (c : ModelCache) (k : Discoverable) (e : CacheEntry) : ModelCache :=
  match k with
  | Discoverable.groq => { c with groq := e }
  | Discoverable.ollama => { c with ollama := e }
  | Discoverable.lmstudio => { c with lmstudio := e }

/-- The arguments of a `fetch` call of the model service: the URL and the
`Authorization` header if one is set (the calls carry no body). -/
structure ModelsRequest where
  url : List Char
  authorization : Option (List Char)

/-- Everything observable of one discovery call: the list returned, the cache
afterwards and the `fetch` calls made. -/
structure Discovery where
  result : List ModelInfo
  cache : ModelCache
  requests : List ModelsRequest

/-- The cache check `entry.models && (Date.now() - entry.timestamp <
this.CACHE_DURATION)`: the cached list when the check passes.  A list, also
the empty one, is truthy; a `null` timestamp counts as 0 in the subtraction. -/
def cacheHit (e : CacheEntry) (now : Int) : Option (List ModelInfo) :=
  match e.models with
  | none => none
  | some models => if now - e.timestamp.getD 0 < CACHE_DURATION then some models else none

/-- The object built for one Groq model (lines 34-40); reading a property of
`null` throws. -/
def groqModel (model : Json) : Option ModelInfo :=
  match model with
  | Json.null => none
  | m =>
    some { id := m.member "id".toList, name := m.member "id".toList,
           provider := "groq".toList,
           contextWindow := some (match m.member "context_window".toList with
             | some v => if v.truthy then v else Json.num 8192
             | none => Json.num 8192),
           owned_by := m.member "owned_by".toList, size := none, modified := none }

/-- The object built for one Ollama model (lines 70-76). -/
def ollamaModel (model : Json) : Option ModelInfo :=
  match model with
  | Json.null => none
  | m =>
    some { id := m.member "name".toList, name := m.member "name".toList,
           provider := "ollama".toList, contextWindow := none, owned_by := none,
           size := m.member "size".toList, modified := m.member "modified_at".toList }

/-- The object built for one LM Studio model (lines 106-111). -/
def lmstudioModel (model : Json) : Option ModelInfo :=
  match model with
  | Json.null => none
  | m =>
    some { id := m.member "id".toList, name := m.member "id".toList,
           provider := "lmstudio".toList, contextWindow := none,
           owned_by := m.member "owned_by".toList, size := none, modified := none }

/-- The call `list.map(build)` on a property value: it throws unless the
value is an array and `build` succeeds on every element. -/
def mapModels (build : Json → Option ModelInfo) (list : JsVal) : Option (List ModelInfo) :=
  match list with
  | some (Json.arr xs) => xs.mapM build
  | _ => none

/-- The expression `data.data.map(...)` or `data.models.map(...)` of a
discovery call on the parsed body; `none` is a thrown exception. -/
def buildModels (k : Discoverable) (data : Json) : Option (List ModelInfo) :=
  match k with
  | Discoverable.groq =>
    match dot (some data) "data".toList with
    | none => none
    | some list => mapModels groqModel list
  | Discoverable.ollama =>
    match dot (some data) "models".toList with
    | none => none
    | some list => mapModels ollamaModel list
  | Discoverable.lmstudio =>
    match dot (some data) "data".toList with
    | none => none
    | some list => mapModels lmstudioModel list

/-- The request of a discovery call. -/
def discoveryRequest (k : Discoverable) (apiKey : JsVal) : ModelsRequest :=
  match k with
  | Discoverable.groq =>
    { url := "https://api.groq.com/openai/v1/models".toList,
      authorization := some ("Bearer ".toList ++ jsValToString apiKey) }
  | Discoverable.ollama =>
    { url := "http://localhost:11434/api/tags".toList, authorization := none }
  | Discoverable.lmstudio =>
    { url := "http://localhost:1234/v1/models".toList, authorization := none }

/-- The `try` / `catch` statement shared by the three discovery calls (lines
17-52, 57-88 and 93-123): `nowCheck` is the clock reading of the cache check,
`nowStore` the reading taken when the cache is updated.  Every exception ends
in `return []` with the cache untouched. -/
def discover (k : Discoverable) (get : ModelsRequest → FetchResult) (nowCheck nowStore : Int)
    (apiKey : JsVal) (cache : ModelCache) : Discovery :=
  match cacheHit (cache.entry k) nowCheck with
  | some models => { result := models, cache := cache, requests := [] }
  | none =>
    let req := discoveryRequest k apiKey
    match get req with
    | FetchResult.networkError _ => { result := [], cache := cache, requests := [req] }
    | FetchResult.response r =>
      if !r.ok then { result := [], cache := cache, requests := [req] }
      else
        match r.json with
        | Except.error _ => { result := [], cache := cache, requests := [req] }
        | Except.ok data =>
          match buildModels k data with
          | none => { result := [], cache := cache, requests := [req] }
          | some models =>
            { result := models,
              cache := cache.setEntry k { models := some models, timestamp := some nowStore },
              requests := [req] }

/-- Model of `ModelService.fetchGroqModels` (lines 14-53). -/
def ModelService.fetchGroqModels (get : ModelsRequest → FetchResult) (nowCheck nowStore : Int)
    (apiKey : JsVal) (cache : ModelCache) : Discovery :=
  if !truthy apiKey then { result := [], cache := cache, requests := [] }
  else discover Discoverable.groq get nowCheck nowStore apiKey cache

/-- Model of `ModelService.fetchOllamaModels` (lines 56-89). -/
def ModelService.fetchOllamaModels (get : ModelsRequest → FetchResult)
    (nowCheck nowStore : Int) (cache : ModelCache) : Discovery :=
  discover Discoverable.ollama get nowCheck nowStore none cache

/-- Model of `ModelService.fetchLMStudioModels` (lines 92-124). -/
def ModelService.fetchLMStudioModels (get : ModelsRequest → FetchResult)
    (nowCheck nowStore : Int) (cache : ModelCache) : Discovery :=
  discover Discoverable.lmstudio get nowCheck nowStore none cache

/-- The discovery call of provider `k`, given the credential its caller holds
(only the Groq call takes one). -/
def ModelService.fetchModels (k : Discoverable) (get : ModelsRequest → FetchResult)
    (nowCheck nowStore : Int) (apiKey : JsVal) (cache : ModelCache) : Discovery :=
  match k with
  | Discoverable.groq => ModelService.fetchGroqModels get nowCheck nowStore apiKey cache
  | Discoverable.ollama => ModelService.fetchOllamaModels get nowCheck nowStore cache
  | Discoverable.lmstudio => ModelService.fetchLMStudioModels get nowCheck nowStore cache

/-- The names every object inherits from `Object.prototype`. -/
def objectPrototypeNames : List (List Char) :=
  ["constructor".toList, "toString".toList, "toLocaleString".toList, "valueOf".toList,
   "hasOwnProperty".toList, "isPrototypeOf".toList, "propertyIsEnumerable".toList,
   "__defineGetter__".toList, "__defineSetter__".toList, "__lookupGetter__".toList,
   "__lookupSetter__".toList, "__proto__".toList]

/-- Replaces the entry stored under `name` among the extra own properties, or
appends it. -/
def setExtra (name : List Char) (e : CacheEntry) :
    List (List Char × CacheEntry) → List (List Char × CacheEntry)
  | [] => [(name, e)]
  | (n, x) :: rest => if n = name then (n, e) :: rest else (n, x) :: setExtra name e rest

/-- The `else` branch of `clearCache` (lines 132-134): every own property is
reset. -/
def ModelCache.clearAll (c : ModelCache) : ModelCache :=
  { groq := CacheEntry.empty, ollama := CacheEntry.empty, lmstudio := CacheEntry.empty,
    extra := c.extra.map (fun p => (p.1, CacheEntry.empty)) }

/-- Model of `ModelService.clearCache` (lines 127-136).  The read
`this.cache[provider]` is truthy for an own property and for a name inherited
from `Object.prototype`; the assignment then resets or creates the own
property of that name (for `__proto__` it replaces the prototype and creates
none). -/
def ModelService.clearCache (provider : JsVal) (c : ModelCache) : ModelCache :=
  if truthy provider then
    let name := jsValToString provider
    if name = "groq".toList then { c with groq := CacheEntry.empty }
    else if name = "ollama".toList then { c with ollama := CacheEntry.empty }
    else if name = "lmstudio".toList then { c with lmstudio := CacheEntry.empty }
    else if (c.extra.map Prod.fst).contains name then
      { c with extra := setExtra name CacheEntry.empty c.extra }
    else if name = "__proto__".toList then c
    else if objectPrototypeNames.contains name then
      { c with extra := setExtra name CacheEntry.empty c.extra }
    else c.clearAll
  else c.clearAll

/-- A transport of the model service that answers every request with status
OK and the given parsed body. -/
def serveModels (data : Json) : ModelsRequest → FetchResult :=
  fun _ => FetchResult.response
    { ok := true, json := Except.ok data, chunks := [], readError := none }

/-- A transport of the model service on which every request fails. -/
def offline : ModelsRequest → FetchResult :=
  fun _ => FetchResult.networkError "Failed to fetch".toList

/-- The parsed body `{"models":[]}` of an Ollama without models. -/
def noModelsBody : Json := Json.obj [("models".toList, Json.arr [])]

/-- A cache whose three entries hold lists fetched at the times 10, 20 and 30. -/
def filledCache : ModelCache :=
  { groq := { models := some [], timestamp := some 10 },
    ollama := { models := some [], timestamp := some 20 },
    lmstudio := { models := some [], timestamp := some 30 },
    extra := [] }

/-- The credential a discovery call of provider `k` uses: the Groq call the
one it is given, the local calls none. -/
def Discoverable.credential (k : Discoverable) (apiKey : JsVal) : JsVal :=
  match k with
  | Discoverable.groq => apiKey
  | _ => none

/-! ## The chat context (`ChatContext.jsx`) -/

/-- A message of the transcript, as `addMessage` builds it (lines 202-210). -/
structure ChatMessage where
  role : List Char
  content : List Char
  id : List Char
  timestamp : Nat
  thinking : Json
  thinkingTokens : Json
  duration : Json

/-- The third argument of `addMessage`; an absent property is `none`. -/
structure MessageMetadata where
  thinking : JsVal
  thinkingTokens : JsVal
  duration : JsVal

/-- The default `{}` of the third argument of `addMessage`. -/
def MessageMetadata.empty : MessageMetadata :=
  { thinking := none, thinkingTokens := none, duration := none }

/-- The expression `v || null`. -/
def orNull (v : JsVal) : Json :=
  match v with
  | none => Json.null
  | some w => if w.truthy then w else Json.null

/-- The object `newMessage` of `addMessage` (lines 202-210); `idNow` and
`timestampNow` are the two clock readings it takes. -/
def newMessage (idNow timestampNow : Nat) (role content : List Char)
    (metadata : MessageMetadata) : ChatMessage :=
  { role := role, content := content, id := natDigits idNow, timestamp := timestampNow,
    thinking := orNull metadata.thinking, thinkingTokens := orNull metadata.thinkingTokens,
    duration := orNull metadata.duration }

/-- The title `addMessage` gives the chat from its first user message
(line 216), as code units: `content.length > 50` and `substring(0, 50)` count
code units, and the cut may fall inside a surrogate pair. -/
def titleOf (content : List Char) : List Nat :=
  if jsLength content > 50 then (toUtf16 content).take 50 ++ toUtf16 "...".toList
  else toUtf16 content

/-- An artifact of the side panel, as `addArtifact` builds it (line 125). -/
structure Artifact where
  type : List Char
  language : List Char
  content : List Char
  title : List Char
  id : List Char
  createdAt : Nat

/-- The object `newArtifact` of `addArtifact` (line 125); `idNow` and
`createdNow` are the two clock readings it takes. -/
def newArtifact (idNow createdNow : Nat) (a : ArtifactData) : Artifact :=
  { type := a.type, language := a.language, content := a.content, title := a.title,
    id := newArtifactId idNow, createdAt := createdNow }

/-- The credentials held by the chat context (lines 142-147); an unset key is
the empty string. -/
structure ApiKeys where
  openai : List Char
  groq : List Char
  gemini : List Char
  tavily : List Char

/-- The read `apiKeys[name]`. -/
def ApiKeys.get (keys : ApiKeys) (name : List Char) : JsVal :=
  if name = "openai".toList then some (Json.str keys.openai)
  else if name = "groq".toList then some (Json.str keys.groq)
  else if name = "gemini".toList then some (Json.str keys.gemini)
  else if name = "tavily".toList then some (Json.str keys.tavily)
  else none

/-- The state `handleSendMessage` reads and writes: the state of the chat
context and of the `ChatApp` component, the title of the current chat (its
code units) and the ref `thinkingStartTime`. -/
structure AppState where
  input : List Char
  isLoading : Bool
  messages : List ChatMessage
  chatTitle : List Nat
  artifacts : List Artifact
  currentArtifactId : Option (List Char)
  isArtifactOpen : Bool
  isSearchEnabled : Bool
  apiKeys : ApiKeys
  selectedProvider : List Char
  selectedModel : List Char
  isStreaming : Bool
  streamingMessage : List Char
  streamingThinking : List Char
  thinkingStartTime : Option Nat

/-- Model of `addMessage` (lines 201-224): the message is appended, and the
first message of a transcript, when by the user, titles the chat. -/
def addMessage (st : AppState) (idNow timestampNow : Nat) (role content : List Char)
    (metadata : MessageMetadata) : AppState :=
  { st with
    messages := st.messages ++ [newMessage idNow timestampNow role content metadata],
    chatTitle :=
      if role = "user".toList ∧ st.messages.length = 0 then titleOf content
      else st.chatTitle }

/-- Model of `addArtifact` (lines 124-129): the new artifact is put in front
and becomes the current one. -/
def addArtifact (st : AppState) (idNow createdNow : Nat) (a : ArtifactData) : AppState :=
  { st with
    artifacts := newArtifact idNow createdNow a :: st.artifacts,
    currentArtifactId := some (newArtifactId idNow) }

/-- The turn an adapter receives for a stored message: `role`, `content` and
the other properties of the stored object. -/
def ChatMessage.toTurn (m : ChatMessage) : Message :=
  { role := m.role, content := m.content,
    extra := [("id".toList, Json.str m.id), ("timestamp".toList, Json.num m.timestamp),
      ("thinking".toList, m.thinking), ("thinkingTokens".toList, m.thinkingTokens),
      ("duration".toList, m.duration)] }

/-! ## Search augmentation (`tavily.js`) -/

/-- Everything observable of one `TavilyClient.search` call: the `fetch`
calls made and the value the promise resolves with, or the message it rejects
with. -/
structure SearchRun where
  requests : List Request
  result : Except (List Char) Json

/-- Model of `TavilyClient.search` (`tavily.js` lines 6-28). -/
def TavilyClient.search (fetch : Request → FetchResult) (apiKey : JsVal)
    (query : List Char) : SearchRun :=
  if !truthy apiKey then
    { requests := [], result := Except.error "Tavily API Key missing".toList }
  else
    let req : Request :=
      { url := "https://api.tavily.com/search".toList,
        authorization := none,
        body := Json.obj [("api_key".toList, apiKey.getD Json.null),
          ("query".toList, Json.str query), ("search_depth".toList, Json.str "basic".toList),
          ("include_answer".toList, Json.bool true), ("max_results".toList, Json.num 5)] }
    match fetch req with
    | FetchResult.networkError m => { requests := [req], result := Except.error m }
    | FetchResult.response r =>
      if !r.ok then { requests := [req], result := Except.error "Tavily Search Failed".toList }
      else { requests := [req], result := r.json }

/-- The object `{ title: r.title, content: r.content, url: r.url }` as
`JSON.stringify` sees it (an `undefined` property is left out); reading a
property of `null` throws. -/
def resultEntry (r : Json) : Option Json :=
  match r with
  | Json.null => none
  | v =>
    some (Json.obj
      ((match v.member "title".toList with
          | some t => [("title".toList, t)]
          | none => [])
        ++ (match v.member "content".toList with
          | some t => [("content".toList, t)]
          | none => [])
        ++ (match v.member "url".toList with
          | some t => [("url".toList, t)]
          | none => [])))

/-- The template literal of `App.jsx` line 72 on the value the search
resolved with; `none` is an exception thrown by `searchResults.results.map`. -/
def searchContextOf (stringify : Json → List Char) (searchResults : Json) :
    Option (List Char) :=
  match dot (some searchResults) "results".toList with
  | some (some (Json.arr rs)) =>
    match rs.mapM resultEntry with
    | some entries => some ("\n\nWeb Search Results:\n".toList ++ stringify (Json.arr entries))
    | none => none
  | _ => none

/-! ## The factory (`clients.js` lines 3-20) -/

/-- A client object: its class and the `apiKey` its constructor stored. -/
structure Client where
  provider : Provider
  apiKey : JsVal

/-- Model of `LLMFactory.getClient` (`clients.js` lines 4-19); the error is
the message of the exception thrown. -/
def LLMFactory.getClient (provider : JsVal) (apiKey : JsVal) : Except (List Char) Client :=
  match provider with
  | some (Json.str name) =>
    if name = "openai".toList then Except.ok { provider := Provider.openai, apiKey := apiKey }
    else if name = "groq".toList then Except.ok { provider := Provider.groq, apiKey := apiKey }
    else if name = "gemini".toList then
      Except.ok { provider := Provider.gemini, apiKey := apiKey }
    else if name = "ollama".toList then
      Except.ok { provider := Provider.ollama, apiKey := some Json.null }
    else if name = "lmstudio".toList then
      Except.ok { provider := Provider.lmstudio, apiKey := some Json.null }
    else Except.error ("Unknown provider: ".toList ++ name)
  | other => Except.error ("Unknown provider: ".toList ++ jsValToString other)

/-- The call `client.streamChat(messages, onChunk, modelId)`. -/
def Client.streamChat (c : Client) (parse : List Char → Option Json)
    (fetch : Request → FetchResult) (messages : List Message) (modelId : Option (List Char)) :
    Run :=
  c.provider.streamChat parse fetch c.apiKey messages modelId

/-! ## `handleSendMessage` (`App.jsx` lines 55-197) -/

/-- What `handleSendMessage` takes from outside the component: the readings
of `Date.now()` in the order they are taken (`clock k` is the reading number
`k`, counted from 0), `JSON.parse`, `JSON.stringify` and the transport. -/
structure SendEnv where
  clock : Nat → Nat
  parse : List Char → Option Json
  stringify : Json → List Char
  fetch : Request → FetchResult

/-- One call `client.streamChat(messages, onChunk, modelId)`: the client and
the arguments. -/
structure AdapterCall where
  client : Client
  messages : List Message
  modelId : List Char

/-- Everything observable of one `handleSendMessage` call: the state
afterwards, the `fetch` calls of the search, the `streamChat` calls and the
`fetch` calls they made, the arguments of the `setIsLoading` calls and the
streaming-setter calls made by the callback, each in call order. -/
structure SendResult where
  state : AppState
  searchRequests : List Request
  adapterCalls : List AdapterCall
  adapterFetches : List Request
  loadingCalls : List Bool
  updates : List UiUpdate

/-- The search of lines 65-76: the `fetch` calls made and the value of
`context` afterwards, the empty string when the search is skipped or anything
in it throws. -/
def searchStep (env : SendEnv) (st : AppState) : List Request × List Char :=
  if st.isSearchEnabled && truthy (some (Json.str st.apiKeys.tavily)) then
    let run := TavilyClient.search env.fetch (some (Json.str st.apiKeys.tavily)) st.input
    match run.result with
    | Except.error _ => (run.requests, [])
    | Except.ok searchResults =>
      match searchContextOf env.stringify searchResults with
      | some context => (run.requests, context)
      | none => (run.requests, [])
  else ([], [])

/-- The turn pushed onto `messagesWithContext` (lines 95-102). -/
def userTurn (userMessage context : List Char) : Message :=
  if context ≠ [] then
    { role := "user".toList,
      content := userMessage ++ "\n\nContext from Web Search:".toList ++ context,
      extra := [] }
  else { role := "user".toList, content := userMessage, extra := [] }

/-- The object `messageMetadata` (lines 168-173). -/
def messageMetadataOf (agg : StreamState) (duration : Json) : MessageMetadata :=
  if agg.fullThinking ≠ [] then
    { thinking := some (Json.str agg.fullThinking),
      thinkingTokens := some (if agg.thinkingTokens.truthy then agg.thinkingTokens
        else Json.num (jsLength agg.fullThinking)),
      duration := some duration }
  else MessageMetadata.empty

/-- The statements after a `streamChat` that resolved (lines 129-186) and
the `finally` block, on the state `st1` reached before the stream and the
final values `agg` of the callback's variables. -/
def completeStream (env : SendEnv) (st1 : AppState) (agg : StreamState) : AppState :=
  let start := env.clock 2
  let duration : Json :=
    if start ≠ 0 then Json.num ((env.clock 3 : Int) - (start : Int)) else Json.null
  let k := if start ≠ 0 then 4 else 3
  let st2 : AppState :=
    { st1 with isStreaming := false, streamingMessage := [], streamingThinking := [] }
  let metadata := messageMetadataOf agg duration
  match extractArtifact agg.fullResponse with
  | some artifactData =>
    let st3 : AppState :=
      { addArtifact st2 (env.clock k) (env.clock (k + 1)) artifactData with
        isArtifactOpen := true }
    { addMessage st3 (env.clock (k + 2)) (env.clock (k + 3)) "assistant".toList
        (cleanResponse agg.fullResponse
          (placeholder (newArtifactId (env.clock k)) artifactData)) metadata with
      isLoading := false }
  | none =>
    { addMessage st2 (env.clock k) (env.clock (k + 1)) "assistant".toList agg.fullResponse
        metadata with
      isLoading := false }

/-- The `catch` block (lines 188-193) and the `finally` block, for an
exception with the given message. -/
def failSend (env : SendEnv) (st1 : AppState) (message : List Char) : AppState :=
  let st2 : AppState :=
    { st1 with isStreaming := false, streamingMessage := [], streamingThinking := [] }
  { addMessage st2 (env.clock 3) (env.clock 4) "assistant".toList
      ("Error: ".toList ++ message) MessageMetadata.empty with
    isLoading := false }

/-- An early `return` of lines 79-90 with the given assistant message:
`setIsLoading(false)` before the `return`, then the `finally` block. -/
def declineSend (env : SendEnv) (st1 : AppState) (text : List Char) : AppState :=
  { addMessage st1 (env.clock 3) (env.clock 4) "assistant".toList text
      MessageMetadata.empty with
    isLoading := false }

/-- The expression `s.charAt(0).toUpperCase() + s.slice(1)` on a name in
lower-case ASCII letters. -/
def capitalize (s : List Char) : List Char :=
  match s with
  | [] => []
  | c :: cs => c.toUpper :: cs

/-- The providers `handleSendMessage` requires a key for (line 86). -/
def keyedProviders : List (List Char) := ["openai".toList, "groq".toList, "gemini".toList]

/-- Model of `handleSendMessage` (`App.jsx` lines 55-197) run to completion on
the state `st` of the render it was created in. -/
def handleSendMessage (env : SendEnv) (st : AppState) : SendResult :=
  if (jsTrim st.input).isEmpty || st.isLoading then
    { state := st, searchRequests := [], adapterCalls := [], adapterFetches := [],
      loadingCalls := [], updates := [] }
  else
    let userMessage := st.input
    let st1 : AppState :=
      { addMessage { st with input := [] } (env.clock 0) (env.clock 1) "user".toList
          userMessage MessageMetadata.empty with
        isLoading := true, thinkingStartTime := some (env.clock 2) }
    let search := searchStep env st
    if st.selectedProvider.isEmpty || st.selectedModel.isEmpty then
      { state := declineSend env st1
          "Please select a provider and model in Settings to start chatting.".toList,
        searchRequests := search.1, adapterCalls := [], adapterFetches := [],
        loadingCalls := [true, false, false], updates := [] }
    else if keyedProviders.contains st.selectedProvider
        && !truthy (st.apiKeys.get st.selectedProvider) then
      { state := declineSend env st1
          ("Please set your ".toList ++ capitalize st.selectedProvider
            ++ " API Key in Settings.".toList),
        searchRequests := search.1, adapterCalls := [], adapterFetches := [],
        loadingCalls := [true, false, false], updates := [] }
    else
      match LLMFactory.getClient (some (Json.str st.selectedProvider))
          (st.apiKeys.get st.selectedProvider) with
      | Except.error message =>
        { state := failSend env st1 message,
          searchRequests := search.1, adapterCalls := [], adapterFetches := [],
          loadingCalls := [true, false], updates := [] }
      | Except.ok client =>
        let messagesWithContext :=
          st.messages.map ChatMessage.toTurn ++ [userTurn userMessage search.2]
        let run := client.streamChat env.parse env.fetch messagesWithContext
          (some st.selectedModel)
        let agg := aggregate run.events
        let call : AdapterCall :=
          { client := client, messages := messagesWithContext, modelId := st.selectedModel }
        match run.result with
        | Except.error message =>
          { state := failSend env st1 message,
            searchRequests := search.1, adapterCalls := [call], adapterFetches := run.fetches,
            loadingCalls := [true, false], updates := agg.updates }
        | Except.ok _ =>
          { state := completeStream env st1 agg,
            searchRequests := search.1, adapterCalls := [call], adapterFetches := run.fetches,
            loadingCalls := [true, false], updates := agg.updates }

/-! ## Sends that reach the adapter -/

/-- The send goes as far as `streamChat`: the input is not blank, no send is
in flight, a provider and a model are selected, a key is set if the provider
requires one, and the factory returns `client`. -/
def SendReady (st : AppState) (client : Client) : Prop :=
  (jsTrim st.input).isEmpty = false ∧ st.isLoading = false
    ∧ st.selectedProvider.isEmpty = false ∧ st.selectedModel.isEmpty = false
    ∧ (keyedProviders.contains st.selectedProvider = true →
        truthy (st.apiKeys.get st.selectedProvider) = true)
    ∧ LLMFactory.getClient (some (Json.str st.selectedProvider))
        (st.apiKeys.get st.selectedProvider) = Except.ok client

/-- The `streamChat` run of a send that reaches the adapter. -/
def sendRun (env : SendEnv) (st : AppState) (client : Client) : Run :=
  client.streamChat env.parse env.fetch
    (st.messages.map ChatMessage.toTurn ++ [userTurn st.input (searchStep env st).2])
    (some st.selectedModel)

/-- The user message a send appends to the transcript. -/
def sentMessage (env : SendEnv) (st : AppState) : ChatMessage :=
  newMessage (env.clock 0) (env.clock 1) "user".toList st.input MessageMetadata.empty

/-- The state reached when the stream starts: the input cleared, the user
message appended, the in-flight flag set and the start time taken. -/
def stateBeforeStream (env : SendEnv) (st : AppState) : AppState :=
  { addMessage { st with input := [] } (env.clock 0) (env.clock 1) "user".toList
      st.input MessageMetadata.empty with
    isLoading := true, thinkingStartTime := some (env.clock 2) }

/-- The `streamChat` call of a send that reaches the adapter. -/
def sendCall (env : SendEnv) (st : AppState) (client : Client) : AdapterCall :=
  { client := client,
    messages := st.messages.map ChatMessage.toTurn ++ [userTurn st.input (searchStep env st).2],
    modelId := st.selectedModel }

/-- The result of a `handleSendMessage` call that returns at its first line:
the state as it was and no call of any kind. -/
def idleResult (st : AppState) : SendResult :=
  { state := st, searchRequests := [], adapterCalls := [], adapterFetches := [],
    loadingCalls := [], updates := [] }

/-- A transport on which every request fails. -/
def unreachable : Request → FetchResult :=
  fun _ => FetchResult.networkError "Failed to fetch".toList

/-- An environment whose clock reads 1000, 1001, ..., with the transport given. -/
def testEnv (fetch : Request → FetchResult) : SendEnv :=
  { clock := fun k => 1000 + k, parse := JSON.parse, stringify := fun _ => [], fetch := fetch }

/-- A state ready to send `hi` through Ollama, with the search switched on
and a search key set. -/
def readyState : AppState :=
  { input := "hi".toList, isLoading := false, messages := [],
    chatTitle := toUtf16 "New Chat".toList,
    artifacts := [], currentArtifactId := none, isArtifactOpen := false,
    isSearchEnabled := true,
    apiKeys := { openai := [], groq := [], gemini := [], tavily := "tvly-key".toList },
    selectedProvider := "ollama".toList, selectedModel := "llama2".toList,
    isStreaming := false, streamingMessage := [], streamingThinking := [],
    thinkingStartTime := none }

/-- The client the factory returns for `ollama`. -/
def ollamaClient : Client := { provider := Provider.ollama, apiKey := some Json.null }

/-- The assistant message stored after a failure with the given message. -/
def errorMessage (env : SendEnv) (message : List Char) : ChatMessage :=
  newMessage (env.clock 3) (env.clock 4) "assistant".toList ("Error: ".toList ++ message)
    MessageMetadata.empty

/-- The turn `{ role: 'user', content: userMessage }` with nothing appended. -/
def plainTurn (userMessage : List Char) : Message :=
  { role := "user".toList, content := userMessage, extra := [] }

/-- The `streamChat` call of a send whose last turn is the user message with
nothing appended. -/
def plainCall (st : AppState) (client : Client) : AdapterCall :=
  { client := client,
    messages := st.messages.map ChatMessage.toTurn ++ [plainTurn st.input],
    modelId := st.selectedModel }

/-- A transport that answers every request with status OK, the parsed body
`null`, and a stream that delivers one Ollama line with the content `A` and
then breaks. -/
def breaking : Request → FetchResult :=
  fun _ => FetchResult.response
    { ok := true, json := Except.ok Json.null,
      chunks := [wholeLines [validLine Provider.ollama 'A']],
      readError := some "network error".toList }

/-- A transport whose stream delivers the one OpenAI frame
`data: {"choices":[{"delta":{"reasoning":"hmm"}}]}` and ends normally. -/
def thinkingOnly : Request → FetchResult :=
  serve [wholeLines
    ["data: \x7b\"choices\":[\x7b\"delta\":\x7b\"reasoning\":\"hmm\"\x7d\x7d]\x7d".toList]]

/-- A transport whose stream delivers one OpenAI frame whose reasoning value
is the single character U+1F600, which takes two code units, and ends
normally. -/
def thinkingEmoji : Request → FetchResult :=
  serve [wholeLines
    ["data: \x7b\"choices\":[\x7b\"delta\":\x7b\"reasoning\":\"".toList
      ++ Char.ofNat 0x1F600 :: "\"\x7d\x7d]\x7d".toList]]

/-- A state ready to send `hi` through OpenAI, search switched off. -/
def openaiState : AppState :=
  { input := "hi".toList, isLoading := false, messages := [],
    chatTitle := toUtf16 "New Chat".toList,
    artifacts := [], currentArtifactId := none, isArtifactOpen := false,
    isSearchEnabled := false,
    apiKeys := { openai := "sk-test".toList, groq := [], gemini := [], tavily := [] },
    selectedProvider := "openai".toList, selectedModel := "o1".toList,
    isStreaming := false, streamingMessage := [], streamingThinking := [],
    thinkingStartTime := none }

/-- The client the factory returns for `openai` with the key of `openaiState`. -/
def openaiClient : Client :=
  { provider := Provider.openai, apiKey := some (Json.str "sk-test".toList) }

/-! ## Artifacts of the side panel (`ChatContext.jsx` lines 124-139) -/

/-- Model of `updateArtifactContent` (lines 131-135): the updater
`prev.map(art => art.id === id ? { ...art, content } : art)` applied to the
artifact list. -/
def updateArtifactContent (id content : List Char) (prev : List Artifact) : List Artifact :=
  prev.map (fun art => if art.id = id then { art with content := content } else art)

/-- Model of `getArtifact` (lines 137-139), the call
`artifacts.find(a => a.id === id)`: the first artifact with that id, and
`undefined` (`none`) when there is none. -/
def getArtifact (artifacts : List Artifact) (id : List Char) : Option Artifact :=
  artifacts.find? (fun a => a.id = id)

/-- One `addArtifact` call of a session: the two clock readings it takes and
its argument. -/
structure ArtifactCall where
  idNow : Nat
  createdNow : Nat
  data : ArtifactData

/-- The `addArtifact` calls of a session, applied in order. -/
def addArtifacts (st : AppState) (calls : List ArtifactCall) : AppState :=
  calls.foldl (fun s c => addArtifact s c.idNow c.createdNow c.data) st

/-- The number a string of decimal digits denotes. -/
def digitsValue (s : List Char) : Nat :=
  s.foldl (fun acc c => 10 * acc + (c.toNat - 48)) 0

/-- Two `addArtifact` calls that read the same clock value 17: the second is
made within the millisecond of the first, or after the clock was set back. -/
def sameMillisecond : List ArtifactCall :=
  [{ idNow := 17, createdNow := 17, data := htmlArtifact "A".toList },
   { idNow := 17, createdNow := 17, data := htmlArtifact "B".toList }]

/-- An artifact list of three artifacts, the first and the last with the id
`7`. -/
def threeArtifacts : List Artifact :=
  [{ type := "html".toList, language := "html".toList, content := "A".toList,
     title := "HTML Preview".toList, id := "7".toList, createdAt := 7 },
   { type := "svg".toList, language := "svg".toList, content := "B".toList,
     title := "SVG Image".toList, id := "5".toList, createdAt := 5 },
   { type := "html".toList, language := "html".toList, content := "C".toList,
     title := "HTML Preview".toList, id := "7".toList, createdAt := 7 }]

/-! ## The chat history (`ChatContext.jsx` lines 69-100) -/

/-- A chat of the history, as `createNewChat` and `deleteChat` build it;
`updatedAt` is the property the synchronising effect adds (line 54), `none`
while absent. -/
structure Chat where
  id : List Char
  title : List Char
  messages : List ChatMessage
  artifacts : List Artifact
  createdAt : Nat
  updatedAt : Option Nat

/-- The object literal of lines 92-98; `idNow` and `createdNow` are the two
clock readings it takes. -/
def freshChat (idNow createdNow : Nat) : Chat :=
  { id := natDigits idNow, title := "New Chat".toList, messages := [], artifacts := [],
    createdAt := createdNow, updatedAt := none }

/-- The state `deleteChat` reads and writes: the list `chats` and
`currentChatId` (`none` is `undefined`). -/
structure ChatHistory where
  chats : List Chat
  currentChatId : Option (List Char)

/-- Model of `deleteChat` (lines 85-100): the chats with the given id are
filtered out; when the deleted chat is the current one (the `currentChatId`
the callback closed over) and a chat remains, the first remaining chat
becomes current; an empty result is replaced by one fresh chat. -/
def deleteChat (idNow createdNow : Nat) (chatId : List Char) (h : ChatHistory) : ChatHistory :=
  let filtered := h.chats.filter (fun c => c.id != chatId)
  { chats := if filtered.length > 0 then filtered else [freshChat idNow createdNow],
    currentChatId :=
      match filtered with
      | first :: _ => if some chatId = h.currentChatId then some first.id else h.currentChatId
      | [] => h.currentChatId }

/-- A chat with the given id and title and nothing else. -/
def chatOf (id title : List Char) : Chat :=
  { id := id, title := title, messages := [], artifacts := [], createdAt := 0,
    updatedAt := none }

/-- A history of three chats with the ids 1, 2 and 1, the first being current. -/
def threeChats : ChatHistory :=
  { chats := [chatOf "1".toList "a".toList, chatOf "2".toList "b".toList,
      chatOf "1".toList "c".toList],
    currentChatId := some "1".toList }

/-! ## Request bodies, as the specification describes them -/

/-- The entry of the `messages` array the specification prescribes for a
turn: the object `{role, content}` and nothing else. -/
def turnEntry (role content : List Char) : Json :=
  Json.obj [("role".toList, Json.str role), ("content".toList, Json.str content)]

/-- The request body the specification prescribes: `model`, the `messages`
entries and `stream: true`. -/
def streamBody (model : List Char) (entries : List Json) : Json :=
  Json.obj [("model".toList, Json.str model), ("messages".toList, Json.arr entries),
    ("stream".toList, Json.bool true)]

/-- The identifier `LLMFactory.getClient` takes for a provider. -/
def Provider.identifier (p : Provider) : List Char :=
  match p with
  | Provider.openai => "openai".toList
  | Provider.groq => "groq".toList
  | Provider.gemini => "gemini".toList
  | Provider.ollama => "ollama".toList
  | Provider.lmstudio => "lmstudio".toList

/-- The credential the client of a provider holds when the factory is given
`apiKey`: the remote clients the given one, the local clients `null`. -/
def Provider.heldKey (p : Provider) (apiKey : JsVal) : JsVal :=
  match p with
  | Provider.ollama => some Json.null
  | Provider.lmstudio => some Json.null
  | _ => apiKey

/-! ## Response bodies of a discovery call, as the specification describes them -/

/-- The property of the response body that holds the model list: `data` for
Groq and LM Studio, `models` for Ollama. -/
def Discoverable.listProperty (k : Discoverable) : List Char :=
  match k with
  | Discoverable.groq => "data".toList
  | Discoverable.ollama => "models".toList
  | Discoverable.lmstudio => "data".toList

/-- The body has the shape a discovery call relies on: its list property is
an array. -/
def hasModelList (k : Discoverable) (data : Json) : Bool :=
  match data.member k.listProperty with
  | some (Json.arr _) => true
  | _ => false

/-- A transport of the model service that answers every request with a
non-OK status. -/
def refuseModels : ModelsRequest → FetchResult :=
  fun _ => FetchResult.response
    { ok := false, json := Except.ok Json.null, chunks := [], readError := none }

/-- The parsed body `{"error":"down"}`, which has no model list. -/
def errorBody : Json := Json.obj [("error".toList, Json.str "down".toList)]

/-- A cache whose Groq entry holds a list fetched at time 10 and whose other
entries are empty. -/
def groqCached : ModelCache :=
  { groq := { models := some [], timestamp := some 10 },
    ollama := CacheEntry.empty, lmstudio := CacheEntry.empty, extra := [] }

/-- A transport whose stream delivers the usage frame with the count 7, then
the OpenAI frame with the content `A`, and ends normally. -/
def countThenAnswer : Request → FetchResult :=
  serve [wholeLines [usageFrame, validLine Provider.openai 'A']]

/-! ## Theorems -/

theorem onChunk_fullResponse (st : StreamState) (e : ChunkEvent) :
    (onChunk st e).fullResponse
      = st.fullResponse ++ (if e.isThinking then [] else e.chunk.toJsString) := by
  unfold onChunk
  cases hT : e.isThinking <;> cases hK : e.thinkingTokens with
  | none => simp
  | some v => cases hv : v.truthy <;> simp [hv]

theorem onChunk_fullThinking (st : StreamState) (e : ChunkEvent) :
    (onChunk st e).fullThinking
      = st.fullThinking ++ (if e.isThinking then e.chunk.toJsString else []) := by
  unfold onChunk
  cases hT : e.isThinking <;> cases hK : e.thinkingTokens with
  | none => simp
  | some v => cases hv : v.truthy <;> simp [hv]

theorem onChunk_updates_length (st : StreamState) (e : ChunkEvent) :
    (onChunk st e).updates.length = st.updates.length + 1 := by
  unfold onChunk
  cases hT : e.isThinking <;> cases hK : e.thinkingTokens with
  | none => simp
  | some v => cases hv : v.truthy <;> simp [hv]

theorem textOf_cons (flag : Bool) (e : ChunkEvent) (es : List ChunkEvent) :
    textOf flag (e :: es)
      = (if e.isThinking == flag then e.chunk.toJsString else []) ++ textOf flag es := by
  unfold textOf
  cases h : (e.isThinking == flag) <;> simp [List.filter_cons, h]

theorem foldl_onChunk (es : List ChunkEvent) (st : StreamState) :
    (es.foldl onChunk st).fullResponse = st.fullResponse ++ textOf false es
    ∧ (es.foldl onChunk st).fullThinking = st.fullThinking ++ textOf true es
    ∧ (es.foldl onChunk st).updates.length = st.updates.length + es.length := by
  induction es generalizing st with
  | nil => simp [textOf]
  | cons e es ih =>
    obtain ⟨h1, h2, h3⟩ := ih (onChunk st e)
    simp only [List.foldl_cons, List.length_cons]
    rw [h1, h2, h3, onChunk_fullResponse, onChunk_fullThinking, onChunk_updates_length,
      textOf_cons, textOf_cons]
    refine ⟨?_, ?_, by omega⟩
    · cases e.isThinking <;> simp
    · cases e.isThinking <;> simp

/-- C1: the callback of `handleSendMessage` is an order-preserving fold.  For
every sequence of events the final `fullResponse` is the concatenation, in
arrival order, of the texts of the events whose `isThinking` flag is false or
absent, the final `fullThinking` is the concatenation of the texts of the
events whose flag is true, and the callback body ran once per event (one
streaming-setter call each); events `[(f1,false),(f2,true),(f3,false)]` give
answer `f1 ++ f3` and reasoning `f2` after three calls. -/
theorem aggregate_order_preserving (events : List ChunkEvent) :
    (aggregate events).fullResponse = textOf false events
    ∧ (aggregate events).fullThinking = textOf true events
    ∧ (aggregate events).updates.length = events.length
    ∧ ∀ f1 f2 f3 : List Char,
        (aggregate [textEvent f1 false, textEvent f2 true, textEvent f3 false]).fullResponse
            = f1 ++ f3
        ∧ (aggregate [textEvent f1 false, textEvent f2 true, textEvent f3 false]).fullThinking
            = f2
        ∧ (aggregate [textEvent f1 false, textEvent f2 true, textEvent f3 false]).updates
            = [UiUpdate.setStreamingMessage f1, UiUpdate.setStreamingThinking f2,
               UiUpdate.setStreamingMessage (f1 ++ f3)] := by
  obtain ⟨h1, h2, h3⟩ := foldl_onChunk events StreamState.init
  refine ⟨by simpa [aggregate, StreamState.init] using h1,
    by simpa [aggregate, StreamState.init] using h2,
    by simpa [aggregate, StreamState.init] using h3, ?_⟩
  intro f1 f2 f3
  simp [aggregate, StreamState.init, onChunk, textEvent, ChunkEvent.isThinking,
    ChunkEvent.thinkingTokens, Json.toJsString]

/-! ### Splitting on newlines -/

theorem splitNewline_ne_nil (s : List Char) : splitNewline s ≠ [] := by
  cases s with
  | nil => simp [splitNewline]
  | cons c cs =>
    unfold splitNewline
    split
    · simp
    · split <;> simp

theorem splitNewline_noNewline (l : List Char) (h : noNewline l) : splitNewline l = [l] := by
  induction l with
  | nil => rfl
  | cons c cs ih =>
    have hc : c ≠ '\n' := fun e => h (by simp [e])
    have hcs : noNewline cs := fun m => h (List.mem_cons_of_mem _ m)
    simp [splitNewline, ih hcs, hc]

theorem splitNewline_cons_newline (cs : List Char) :
    splitNewline ('\n' :: cs) = [] :: splitNewline cs := by
  have h := splitNewline_ne_nil cs
  simp only [splitNewline]
  cases hs : splitNewline cs with
  | nil => exact absurd hs h
  | cons l ls => simp

theorem splitNewline_cons_other (c : Char) (cs : List Char) (hc : c ≠ '\n') :
    splitNewline (c :: cs) = (c :: (splitNewline cs).headD []) :: (splitNewline cs).tail := by
  have h := splitNewline_ne_nil cs
  simp only [splitNewline]
  cases hs : splitNewline cs with
  | nil => exact absurd hs h
  | cons l ls => simp [hc]

theorem splitNewline_append_newline (a b : List Char) :
    splitNewline (a ++ '\n' :: b) = splitNewline a ++ splitNewline b := by
  induction a with
  | nil =>
    rw [List.nil_append, splitNewline_cons_newline]
    rfl
  | cons c cs ih =>
    by_cases hc : c = '\n'
    · subst hc
      simp [splitNewline_cons_newline, ih]
    · have h := splitNewline_ne_nil cs
      simp only [List.cons_append, splitNewline_cons_other c _ hc, ih]
      cases hs : splitNewline cs with
      | nil => exact absurd hs h
      | cons l ls => simp

theorem splitNewline_wholeLines (lines : List (List Char)) (h : ∀ l ∈ lines, noNewline l) :
    splitNewline (wholeLines lines) = lines ++ [[]] := by
  induction lines with
  | nil => rfl
  | cons l ls ih =>
    have hl : noNewline l := h l (by simp)
    have hls : ∀ x ∈ ls, noNewline x := fun x hx => h x (List.mem_cons_of_mem _ hx)
    have e : wholeLines (l :: ls) = l ++ '\n' :: wholeLines ls := by
      simp [wholeLines]
    rw [e, splitNewline_append_newline, splitNewline_noNewline l hl, ih hls]
    rfl

/-! ### Texts of event lists -/

theorem textOf_append (flag : Bool) (xs ys : List ChunkEvent) :
    textOf flag (xs ++ ys) = textOf flag xs ++ textOf flag ys := by
  simp [textOf]

theorem textOf_flatMap (flag : Bool) (f : List Char → List ChunkEvent) (ls : List (List Char)) :
    textOf flag (ls.flatMap f) = (ls.map (fun l => textOf flag (f l))).flatten := by
  induction ls with
  | nil => rfl
  | cons l ls ih => simp [List.flatMap_cons, textOf_append, ih]

theorem aggregate_fullResponse (es : List ChunkEvent) :
    (aggregate es).fullResponse = textOf false es := by
  have h := (foldl_onChunk es StreamState.init).1
  simpa [aggregate, StreamState.init] using h

theorem aggregate_fullThinking (es : List ChunkEvent) :
    (aggregate es).fullThinking = textOf true es := by
  have h := (foldl_onChunk es StreamState.init).2.1
  simpa [aggregate, StreamState.init] using h

theorem orEmpty_not_truthy (v : JsVal) (h : (orEmpty v).truthy = false) :
    orEmpty v = Json.str [] := by
  unfold orEmpty at h ⊢
  cases v with
  | none => rfl
  | some w =>
    cases hw : w.truthy with
    | false => simp [hw]
    | true => simp [hw] at h

/-! ### Texts of the events of one line -/

theorem contentLine_eq (parse : List Char → Option Json) (l : List Char) :
    contentLine parse l
      = if (deltaValue parse "content".toList l).truthy
          then [chunkCall (deltaValue parse "content".toList l) false] else [] := by
  unfold contentLine deltaValue frameChoice
  by_cases hc : (startsWith dataPrefix l && l != doneLine) = true
  · simp only [hc, if_true]
    cases parse (l.drop 6) with
    | none => simp [Json.truthy]
    | some data =>
      dsimp only
      cases firstChoice data with
      | none => simp [Json.truthy]
      | some choice => rfl
  · simp [hc, Json.truthy]

theorem contentLine_text_false (parse : List Char → Option Json) (l : List Char) :
    textOf false (contentLine parse l) = (deltaValue parse "content".toList l).toJsString := by
  rw [contentLine_eq]
  cases h : (deltaValue parse "content".toList l).truthy with
  | true => simp [textOf, chunkCall, ChunkEvent.isThinking]
  | false =>
    have e : deltaValue parse "content".toList l = Json.str [] := by
      unfold deltaValue at h ⊢
      cases hf : frameChoice parse l with
      | none => rfl
      | some choice =>
        rw [hf] at h
        exact orEmpty_not_truthy _ h
    rw [e]
    rfl

theorem contentLine_text_true (parse : List Char → Option Json) (l : List Char) :
    textOf true (contentLine parse l) = [] := by
  rw [contentLine_eq]
  split <;> simp [textOf, chunkCall, ChunkEvent.isThinking]

theorem textOf_usage_tail (flag : Bool) (tokens : JsVal) :
    textOf flag (match tokens with
      | some v => if v.truthy then [usageCall v] else []
      | none => []) = [] := by
  cases tokens with
  | none => rfl
  | some v =>
    cases hv : v.truthy <;> cases flag <;>
      simp [textOf, usageCall, ChunkEvent.isThinking, Json.toJsString]

theorem openaiLine_text_false (parse : List Char → Option Json) (l : List Char) :
    textOf false (openaiLine parse l)
      = if (deltaValue parse "reasoning".toList l).truthy then []
        else (deltaValue parse "content".toList l).toJsString := by
  unfold openaiLine deltaValue frameChoice
  by_cases hc : (startsWith dataPrefix l && l != doneLine) = true
  · simp only [hc, if_true]
    cases parse (l.drop 6) with
    | none => simp [Json.truthy, textOf, Json.toJsString]
    | some data =>
      dsimp only
      cases firstChoice data with
      | none => simp [Json.truthy, textOf, Json.toJsString]
      | some choice =>
        dsimp only
        rw [textOf_append, textOf_usage_tail, List.append_nil]
        cases hr : (orEmpty (optDot (optDot choice "delta".toList) "reasoning".toList)).truthy with
        | true => simp [textOf, chunkCall, ChunkEvent.isThinking]
        | false =>
          cases hk : (orEmpty (optDot (optDot choice "delta".toList) "content".toList)).truthy with
          | true => simp [textOf, chunkCall, ChunkEvent.isThinking]
          | false =>
            rw [orEmpty_not_truthy _ hk]
            simp [textOf, Json.toJsString]
  · simp [hc, Json.truthy, textOf, Json.toJsString]

theorem openaiLine_text_true (parse : List Char → Option Json) (l : List Char) :
    textOf true (openaiLine parse l) = (deltaValue parse "reasoning".toList l).toJsString := by
  unfold openaiLine deltaValue frameChoice
  by_cases hc : (startsWith dataPrefix l && l != doneLine) = true
  · simp only [hc, if_true]
    cases parse (l.drop 6) with
    | none => simp [textOf, Json.toJsString]
    | some data =>
      dsimp only
      cases firstChoice data with
      | none => simp [textOf, Json.toJsString]
      | some choice =>
        dsimp only
        rw [textOf_append, textOf_usage_tail, List.append_nil]
        cases hr : (orEmpty (optDot (optDot choice "delta".toList) "reasoning".toList)).truthy with
        | true => simp [textOf, chunkCall, ChunkEvent.isThinking]
        | false =>
          rw [orEmpty_not_truthy _ hr]
          cases hk : (orEmpty (optDot (optDot choice "delta".toList) "content".toList)).truthy <;>
            simp [textOf, chunkCall, ChunkEvent.isThinking, Json.toJsString]
  · simp [hc, textOf, Json.toJsString]

/-! ### The read loop on chunks of whole lines -/

theorem decodeChunks_wholeLines (lineFn : List Char → List ChunkEvent) (hnil : lineFn [] = [])
    (groups : List (List (List Char))) (h : ∀ g ∈ groups, ∀ l ∈ g, noNewline l) :
    decodeChunks lineFn (groups.map wholeLines) = groups.flatten.flatMap lineFn := by
  unfold decodeChunks
  induction groups with
  | nil => rfl
  | cons g gs ih =>
    have hg : ∀ l ∈ g, noNewline l := h g (by simp)
    have hgs : ∀ x ∈ gs, ∀ l ∈ x, noNewline l := fun x hx => h x (List.mem_cons_of_mem _ hx)
    simp only [List.map_cons, List.flatMap_cons, List.flatten_cons, List.flatMap_append]
    rw [ih hgs, splitNewline_wholeLines g hg]
    simp [hnil]

theorem openaiLine_nil (parse : List Char → Option Json) : openaiLine parse [] = [] := by
  simp [openaiLine, startsWith, dataPrefix]

theorem contentLine_nil (parse : List Char → Option Json) : contentLine parse [] = [] := by
  simp [contentLine, startsWith, dataPrefix]

/-! ### `streamChat` against a transport serving a fixed body -/

theorem openai_serve (parse : List Char → Option Json) (chunks : List (List Char))
    (apiKey : JsVal) (hk : truthy apiKey = true) (messages : List Message)
    (modelId : Option (List Char)) :
    (OpenAIClient.streamChat parse (serve chunks) apiKey messages modelId).events
        = decodeChunks (openaiLine parse) chunks
    ∧ (OpenAIClient.streamChat parse (serve chunks) apiKey messages modelId).result
        = Except.ok () := by
  simp [OpenAIClient.streamChat, hk, serve, readBody]

theorem groq_serve (parse : List Char → Option Json) (chunks : List (List Char))
    (apiKey : JsVal) (hk : truthy apiKey = true) (messages : List Message)
    (modelId : Option (List Char)) :
    (GroqClient.streamChat parse (serve chunks) apiKey messages modelId).events
        = decodeChunks (contentLine parse) chunks
    ∧ (GroqClient.streamChat parse (serve chunks) apiKey messages modelId).result
        = Except.ok () := by
  simp [GroqClient.streamChat, hk, serve, readBody]

theorem gemini_serve (parse : List Char → Option Json) (chunks : List (List Char))
    (apiKey : JsVal) (hk : truthy apiKey = true) (messages : List Message)
    (modelId : Option (List Char)) :
    (GeminiClient.streamChat parse (serve chunks) apiKey messages modelId).events
        = geminiDecode parse chunks
    ∧ (GeminiClient.streamChat parse (serve chunks) apiKey messages modelId).result
        = Except.ok () := by
  simp [GeminiClient.streamChat, hk, serve]

theorem ollama_serve (parse : List Char → Option Json) (chunks : List (List Char))
    (messages : List Message) (modelId : Option (List Char)) :
    (OllamaClient.streamChat parse (serve chunks) messages modelId).events
        = decodeChunks (ollamaLine parse) chunks
    ∧ (OllamaClient.streamChat parse (serve chunks) messages modelId).result
        = Except.ok () := by
  simp [OllamaClient.streamChat, serve, readBody]

theorem lmstudio_serve (parse : List Char → Option Json) (chunks : List (List Char))
    (messages : List Message) (modelId : Option (List Char)) :
    (LMStudioClient.streamChat parse (serve chunks) messages modelId).events
        = decodeChunks (contentLine parse) chunks
    ∧ (LMStudioClient.streamChat parse (serve chunks) messages modelId).result
        = Except.ok () := by
  simp [LMStudioClient.streamChat, serve, readBody]

/-! ### C2: event-stream adapters on chunks of whole lines -/

theorem decodeChunks_lines (lineFn : List Char → List ChunkEvent) (chunks : List (List Char)) :
    decodeChunks lineFn chunks = (chunks.flatMap splitNewline).flatMap lineFn := by
  unfold decodeChunks
  rw [List.flatMap_assoc]

theorem openai_texts (parse : List Char → Option Json) (lines : List (List Char)) :
    textOf false (lines.flatMap (openaiLine parse)) = contentsWithoutReasoningOf parse lines
    ∧ textOf true (lines.flatMap (openaiLine parse)) = reasoningsOf parse lines := by
  rw [textOf_flatMap, textOf_flatMap]
  simp only [openaiLine_text_false, openaiLine_text_true]
  exact ⟨rfl, rfl⟩

theorem content_texts (parse : List Char → Option Json) (lines : List (List Char)) :
    textOf false (lines.flatMap (contentLine parse)) = contentsOf parse lines
    ∧ textOf true (lines.flatMap (contentLine parse)) = [] := by
  rw [textOf_flatMap, textOf_flatMap]
  simp only [contentLine_text_false, contentLine_text_true]
  exact ⟨rfl, by simp⟩

/-- C2 (as stated, refuted): for the OpenAI adapter the aggregated answer text
is not the concatenation of the `delta.content` values of the well-formed
frames.  A single whole-line chunk holding the frame
`data: {"choices":[{"delta":{"reasoning":"R","content":"A"}}]}` gives the
answer text `""`, while the concatenation of the content values is `"A"`. -/
theorem openai_answer_not_all_contents :
    noNewline bothFrame
    ∧ (OpenAIClient.streamChat JSON.parse (serve [wholeLines [bothFrame]]) someKey
        hiConversation none).answerText = []
    ∧ contentsOf JSON.parse [bothFrame] = "A".toList
    ∧ (OpenAIClient.streamChat JSON.parse (serve [wholeLines [bothFrame]]) someKey
        hiConversation none).answerText ≠ contentsOf JSON.parse [bothFrame] := by
  decide

/-- C2 (amended): when every delivered chunk consists of whole lines, the
aggregated answer text of the Groq and LM Studio adapters is the
concatenation, in order, of the non-empty `delta.content` values of the
well-formed `data: ` frames and their reasoning text is empty; for the OpenAI
adapter the answer text is the concatenation of the non-empty `delta.content`
values of the well-formed frames that carry no non-empty `delta.reasoning`
value, and the reasoning text is the concatenation of the non-empty
`delta.reasoning` values.  For chunks cut anywhere the same holds with the
pieces between the newlines of each chunk in place of the frames.  The two
`He`/`llo` frames followed by `data: [DONE]` give answer `Hello` and reasoning
`""` on all three adapters. -/
theorem eventStream_whole_lines (parse : List Char → Option Json)
    (apiKey : JsVal) (hk : truthy apiKey = true) (messages : List Message)
    (modelId : Option (List Char)) :
    (∀ groups : List (List (List Char)), (∀ g ∈ groups, ∀ l ∈ g, noNewline l) →
      ((OpenAIClient.streamChat parse (serve (groups.map wholeLines)) apiKey messages
            modelId).answerText = contentsWithoutReasoningOf parse groups.flatten
        ∧ (OpenAIClient.streamChat parse (serve (groups.map wholeLines)) apiKey messages
            modelId).reasoningText = reasoningsOf parse groups.flatten)
      ∧ ((GroqClient.streamChat parse (serve (groups.map wholeLines)) apiKey messages
            modelId).answerText = contentsOf parse groups.flatten
        ∧ (GroqClient.streamChat parse (serve (groups.map wholeLines)) apiKey messages
            modelId).reasoningText = [])
      ∧ ((LMStudioClient.streamChat parse (serve (groups.map wholeLines)) messages
            modelId).answerText = contentsOf parse groups.flatten
        ∧ (LMStudioClient.streamChat parse (serve (groups.map wholeLines)) messages
            modelId).reasoningText = []))
    ∧ (∀ chunks : List (List Char),
      ((OpenAIClient.streamChat parse (serve chunks) apiKey messages modelId).answerText
            = contentsWithoutReasoningOf parse (chunks.flatMap splitNewline)
        ∧ (OpenAIClient.streamChat parse (serve chunks) apiKey messages modelId).reasoningText
            = reasoningsOf parse (chunks.flatMap splitNewline))
      ∧ ((GroqClient.streamChat parse (serve chunks) apiKey messages modelId).answerText
            = contentsOf parse (chunks.flatMap splitNewline)
        ∧ (GroqClient.streamChat parse (serve chunks) apiKey messages modelId).reasoningText
            = [])
      ∧ ((LMStudioClient.streamChat parse (serve chunks) messages modelId).answerText
            = contentsOf parse (chunks.flatMap splitNewline)
        ∧ (LMStudioClient.streamChat parse (serve chunks) messages modelId).reasoningText
            = []))
    ∧ ((OpenAIClient.streamChat JSON.parse (serve (helloFrames.map (fun l => wholeLines [l])))
          someKey hiConversation none).answerText = "Hello".toList
      ∧ (OpenAIClient.streamChat JSON.parse (serve (helloFrames.map (fun l => wholeLines [l])))
          someKey hiConversation none).reasoningText = []
      ∧ (GroqClient.streamChat JSON.parse (serve (helloFrames.map (fun l => wholeLines [l])))
          someKey hiConversation none).answerText = "Hello".toList
      ∧ (GroqClient.streamChat JSON.parse (serve (helloFrames.map (fun l => wholeLines [l])))
          someKey hiConversation none).reasoningText = []
      ∧ (LMStudioClient.streamChat JSON.parse (serve (helloFrames.map (fun l => wholeLines [l])))
          hiConversation none).answerText = "Hello".toList
      ∧ (LMStudioClient.streamChat JSON.parse (serve (helloFrames.map (fun l => wholeLines [l])))
          hiConversation none).reasoningText = []) := by
  refine ⟨?_, ?_, by decide⟩
  · intro groups h
    refine ⟨⟨?_, ?_⟩, ⟨?_, ?_⟩, ⟨?_, ?_⟩⟩
    · rw [Run.answerText, (openai_serve parse _ apiKey hk messages modelId).1,
        aggregate_fullResponse, decodeChunks_wholeLines _ (openaiLine_nil parse) groups h]
      exact (openai_texts parse _).1
    · rw [Run.reasoningText, (openai_serve parse _ apiKey hk messages modelId).1,
        aggregate_fullThinking, decodeChunks_wholeLines _ (openaiLine_nil parse) groups h]
      exact (openai_texts parse _).2
    · rw [Run.answerText, (groq_serve parse _ apiKey hk messages modelId).1,
        aggregate_fullResponse, decodeChunks_wholeLines _ (contentLine_nil parse) groups h]
      exact (content_texts parse _).1
    · rw [Run.reasoningText, (groq_serve parse _ apiKey hk messages modelId).1,
        aggregate_fullThinking, decodeChunks_wholeLines _ (contentLine_nil parse) groups h]
      exact (content_texts parse _).2
    · rw [Run.answerText, (lmstudio_serve parse _ messages modelId).1,
        aggregate_fullResponse, decodeChunks_wholeLines _ (contentLine_nil parse) groups h]
      exact (content_texts parse _).1
    · rw [Run.reasoningText, (lmstudio_serve parse _ messages modelId).1,
        aggregate_fullThinking, decodeChunks_wholeLines _ (contentLine_nil parse) groups h]
      exact (content_texts parse _).2
  · intro chunks
    refine ⟨⟨?_, ?_⟩, ⟨?_, ?_⟩, ⟨?_, ?_⟩⟩
    · rw [Run.answerText, (openai_serve parse _ apiKey hk messages modelId).1,
        aggregate_fullResponse, decodeChunks_lines]
      exact (openai_texts parse _).1
    · rw [Run.reasoningText, (openai_serve parse _ apiKey hk messages modelId).1,
        aggregate_fullThinking, decodeChunks_lines]
      exact (openai_texts parse _).2
    · rw [Run.answerText, (groq_serve parse _ apiKey hk messages modelId).1,
        aggregate_fullResponse, decodeChunks_lines]
      exact (content_texts parse _).1
    · rw [Run.reasoningText, (groq_serve parse _ apiKey hk messages modelId).1,
        aggregate_fullThinking, decodeChunks_lines]
      exact (content_texts parse _).2
    · rw [Run.answerText, (lmstudio_serve parse _ messages modelId).1,
        aggregate_fullResponse, decodeChunks_lines]
      exact (content_texts parse _).1
    · rw [Run.reasoningText, (lmstudio_serve parse _ messages modelId).1,
        aggregate_fullThinking, decodeChunks_lines]
      exact (content_texts parse _).2

/-- Witness for C2: the amended statement applied to the end-to-end scenario,
each of the three frames delivered as its own whole-line chunk. -/
theorem eventStream_whole_lines_witness :
    truthy someKey = true
    ∧ (∀ g ∈ helloFrames.map (fun l => [l]), ∀ l ∈ g, noNewline l)
    ∧ (GroqClient.streamChat JSON.parse
        (serve ((helloFrames.map (fun l => [l])).map wholeLines)) someKey hiConversation
        none).answerText = contentsOf JSON.parse (helloFrames.map (fun l => [l])).flatten
    ∧ contentsOf JSON.parse (helloFrames.map (fun l => [l])).flatten = "Hello".toList :=
  ⟨by decide, by decide,
    ((eventStream_whole_lines JSON.parse someKey (by decide) hiConversation none).1
      (helloFrames.map (fun l => [l])) (by decide)).2.1.1,
    by decide⟩

/-! ### Where the events of a run come from -/

theorem mem_decodeChunks (lineFn : List Char → List ChunkEvent) (chunks : List (List Char))
    (e : ChunkEvent) (h : e ∈ decodeChunks lineFn chunks) : ∃ l, e ∈ lineFn l := by
  unfold decodeChunks at h
  simp only [List.mem_flatMap] at h
  obtain ⟨_, _, l, _, hl⟩ := h
  exact ⟨l, hl⟩

theorem mem_geminiFold (parse : List Char → Option Json) (chunks : List (List Char))
    (st : GeminiLoop) (e : ChunkEvent)
    (h : e ∈ (chunks.foldl (geminiStep parse) st).events) :
    e ∈ st.events ∨ ∃ l, e ∈ geminiLine parse l := by
  induction chunks generalizing st with
  | nil => exact Or.inl h
  | cons c cs ih =>
    rcases ih (geminiStep parse st c) h with h1 | h1
    · simp only [geminiStep, List.mem_append, List.mem_flatMap] at h1
      rcases h1 with h2 | ⟨l, _, hl⟩
      · exact Or.inl h2
      · exact Or.inr ⟨l, hl⟩
    · exact Or.inr h1

theorem mem_geminiLoop (parse : List Char → Option Json) (chunks : List (List Char))
    (e : ChunkEvent) (h : e ∈ (geminiLoop parse chunks).events) :
    ∃ l, e ∈ geminiLine parse l := by
  rcases mem_geminiFold parse chunks _ e h with h1 | h1
  · simp at h1
  · exact h1

theorem mem_geminiDecode (parse : List Char → Option Json) (chunks : List (List Char))
    (e : ChunkEvent) (h : e ∈ geminiDecode parse chunks) : ∃ l, e ∈ geminiLine parse l := by
  simp only [geminiDecode, List.mem_append] at h
  rcases h with h1 | h1
  · exact mem_geminiLoop parse chunks e h1
  · exact ⟨_, h1⟩

theorem mem_readBody (lineFn : List Char → List ChunkEvent) (req : Request) (r : Response)
    (e : ChunkEvent) (h : e ∈ (readBody lineFn req r).events) : ∃ l, e ∈ lineFn l :=
  mem_decodeChunks lineFn r.chunks e h

theorem openai_event_from_line (parse : List Char → Option Json) (fetch : Request → FetchResult)
    (apiKey : JsVal) (messages : List Message) (modelId : Option (List Char)) (e : ChunkEvent)
    (h : e ∈ (OpenAIClient.streamChat parse fetch apiKey messages modelId).events) :
    ∃ l, e ∈ openaiLine parse l := by
  unfold OpenAIClient.streamChat at h
  split at h
  · simp at h
  · dsimp only at h
    split at h
    · simp at h
    · split at h
      · simp at h
      · exact mem_readBody _ _ _ e h

theorem groq_event_from_line (parse : List Char → Option Json) (fetch : Request → FetchResult)
    (apiKey : JsVal) (messages : List Message) (modelId : Option (List Char)) (e : ChunkEvent)
    (h : e ∈ (GroqClient.streamChat parse fetch apiKey messages modelId).events) :
    ∃ l, e ∈ contentLine parse l := by
  unfold GroqClient.streamChat at h
  split at h
  · simp at h
  · dsimp only at h
    split at h
    · simp at h
    · split at h
      · simp at h
      · exact mem_readBody _ _ _ e h

theorem gemini_event_from_line (parse : List Char → Option Json) (fetch : Request → FetchResult)
    (apiKey : JsVal) (messages : List Message) (modelId : Option (List Char)) (e : ChunkEvent)
    (h : e ∈ (GeminiClient.streamChat parse fetch apiKey messages modelId).events) :
    ∃ l, e ∈ geminiLine parse l := by
  unfold GeminiClient.streamChat at h
  split at h
  · simp at h
  · dsimp only at h
    split at h
    · simp at h
    · split at h
      · simp at h
      · split at h
        · exact mem_geminiLoop parse _ e h
        · exact mem_geminiDecode parse _ e h

theorem ollama_event_from_line (parse : List Char → Option Json) (fetch : Request → FetchResult)
    (messages : List Message) (modelId : Option (List Char)) (e : ChunkEvent)
    (h : e ∈ (OllamaClient.streamChat parse fetch messages modelId).events) :
    ∃ l, e ∈ ollamaLine parse l := by
  unfold OllamaClient.streamChat at h
  dsimp only at h
  split at h
  · simp at h
  · split at h
    · simp at h
    · exact mem_readBody _ _ _ e h

theorem lmstudio_event_from_line (parse : List Char → Option Json)
    (fetch : Request → FetchResult) (messages : List Message) (modelId : Option (List Char))
    (e : ChunkEvent)
    (h : e ∈ (LMStudioClient.streamChat parse fetch messages modelId).events) :
    ∃ l, e ∈ contentLine parse l := by
  unfold LMStudioClient.streamChat at h
  dsimp only at h
  split at h
  · simp at h
  · split at h
    · simp at h
    · exact mem_readBody _ _ _ e h

/-! ### Calls made for one line -/

theorem chunkCall_isTextCall (v : Json) (flag : Bool) (hv : v.truthy = true) :
    IsTextCall (chunkCall v flag) :=
  ⟨hv, flag, rfl⟩

theorem contentLine_calls (parse : List Char → Option Json) (l : List Char) (e : ChunkEvent)
    (h : e ∈ contentLine parse l) : IsTextCall e := by
  rw [contentLine_eq] at h
  split at h
  · next hv =>
    simp only [List.mem_singleton] at h
    subst h
    exact chunkCall_isTextCall _ _ hv
  · simp at h

theorem geminiLine_calls (parse : List Char → Option Json) (l : List Char) (e : ChunkEvent)
    (h : e ∈ geminiLine parse l) : IsTextCall e := by
  unfold geminiLine at h
  split at h
  · split at h
    · simp at h
    · split at h
      · simp at h
      · split at h
        · next hv =>
          simp only [List.mem_singleton] at h
          subst h
          exact chunkCall_isTextCall _ _ hv
        · simp at h
  · simp at h

theorem ollamaLine_calls (parse : List Char → Option Json) (l : List Char) (e : ChunkEvent)
    (h : e ∈ ollamaLine parse l) : IsTextCall e := by
  unfold ollamaLine at h
  split at h
  · split at h
    · simp at h
    · split at h
      · simp at h
      · dsimp only at h
        split at h
        · next hv =>
          simp only [List.mem_singleton] at h
          subst h
          exact chunkCall_isTextCall _ _ hv
        · simp at h
  · simp at h

theorem openaiLine_calls (parse : List Char → Option Json) (l : List Char) (e : ChunkEvent)
    (h : e ∈ openaiLine parse l) : IsTextCall e ∨ IsUsageCall e := by
  unfold openaiLine at h
  split at h
  · split at h
    · simp at h
    · split at h
      · simp at h
      · dsimp only at h
        rw [List.mem_append] at h
        rcases h with h1 | h1
        · left
          split at h1
          · next hv =>
            simp only [List.mem_singleton] at h1
            subst h1
            exact chunkCall_isTextCall _ _ hv
          · split at h1
            · next hv =>
              simp only [List.mem_singleton] at h1
              subst h1
              exact chunkCall_isTextCall _ _ hv
            · simp at h1
        · right
          split at h1
          · split at h1
            · next hv =>
              simp only [List.mem_singleton] at h1
              exact ⟨_, hv, h1⟩
            · simp at h1
          · simp at h1
  · simp at h

/-! ### C3: the zero-length filter -/

/-- C3 (as stated, refuted): the OpenAI adapter does call `onChunk` with an
empty string.  On the single frame
`data: {"choices":[],"usage":{"reasoning_tokens":7}}` it makes exactly one
call, `onChunk('', { thinkingTokens: 7 })`. -/
theorem openai_emits_empty_fragment :
    (OpenAIClient.streamChat JSON.parse (serve [wholeLines [usageFrame]]) someKey
        hiConversation none).events = [usageCall (Json.num 7)]
    ∧ (usageCall (Json.num 7)).chunk = Json.str [] :=
  ⟨by rfl, rfl⟩

/-- C3 (amended): for every adapter, parser, transport, credential and
conversation, every `onChunk` call either delivers a text fragment, and then
carries a truthy value and never the empty string, or is a usage call
`onChunk('', { thinkingTokens: v })` with a truthy count `v` made by the
OpenAI adapter; the Groq, Gemini, Ollama and LM Studio adapters make text
calls only. -/
theorem no_empty_text_fragment (p : Provider) (parse : List Char → Option Json)
    (fetch : Request → FetchResult) (apiKey : JsVal) (messages : List Message)
    (modelId : Option (List Char)) :
    ∀ e ∈ (p.streamChat parse fetch apiKey messages modelId).events,
      (IsTextCall e ∧ e.chunk ≠ Json.str [])
      ∨ (p = Provider.openai ∧ IsUsageCall e
          ∧ e.metadata.bind Metadata.isThinking = none) := by
  intro e he
  have text : IsTextCall e → (IsTextCall e ∧ e.chunk ≠ Json.str []) := by
    intro ht
    refine ⟨ht, ?_⟩
    intro hc
    have := ht.1
    rw [hc] at this
    simp [Json.truthy] at this
  cases p with
  | openai =>
    obtain ⟨l, hl⟩ := openai_event_from_line parse fetch apiKey messages modelId e he
    rcases openaiLine_calls parse l e hl with ht | hu
    · exact Or.inl (text ht)
    · right
      refine ⟨rfl, hu, ?_⟩
      obtain ⟨v, _, hv⟩ := hu
      subst hv
      rfl
  | groq =>
    obtain ⟨l, hl⟩ := groq_event_from_line parse fetch apiKey messages modelId e he
    exact Or.inl (text (contentLine_calls parse l e hl))
  | gemini =>
    obtain ⟨l, hl⟩ := gemini_event_from_line parse fetch apiKey messages modelId e he
    exact Or.inl (text (geminiLine_calls parse l e hl))
  | ollama =>
    obtain ⟨l, hl⟩ := ollama_event_from_line parse fetch messages modelId e he
    exact Or.inl (text (ollamaLine_calls parse l e hl))
  | lmstudio =>
    obtain ⟨l, hl⟩ := lmstudio_event_from_line parse fetch messages modelId e he
    exact Or.inl (text (contentLine_calls parse l e hl))

/-- Witness for C3: the first call of the Groq adapter on the `Hello` stream. -/
theorem no_empty_text_fragment_witness :
    chunkCall (Json.str "He".toList) false
        ∈ (Provider.groq.streamChat JSON.parse
            (serve (helloFrames.map (fun l => wholeLines [l]))) someKey hiConversation
            none).events
    ∧ ((IsTextCall (chunkCall (Json.str "He".toList) false)
          ∧ (chunkCall (Json.str "He".toList) false).chunk ≠ Json.str [])
        ∨ (Provider.groq = Provider.openai
          ∧ IsUsageCall (chunkCall (Json.str "He".toList) false)
          ∧ (chunkCall (Json.str "He".toList) false).metadata.bind Metadata.isThinking
              = none)) :=
  ⟨List.mem_cons_self _ _,
    no_empty_text_fragment Provider.groq JSON.parse
      (serve (helloFrames.map (fun l => wholeLines [l]))) someKey hiConversation none
      (chunkCall (Json.str "He".toList) false) (List.mem_cons_self _ _)⟩

/-! ### The Gemini carry-over buffer -/

theorem splitNewline_append (a b : List Char) :
    splitNewline (a ++ b)
      = (splitNewline a).dropLast ++ splitNewline ((splitNewline a).getLastD [] ++ b) := by
  induction a with
  | nil => simp [splitNewline]
  | cons c cs ih =>
    have hne := splitNewline_ne_nil cs
    by_cases hc : c = '\n'
    · subst hc
      rw [List.cons_append, splitNewline_cons_newline, splitNewline_cons_newline, ih]
      cases hs : splitNewline cs with
      | nil => exact absurd hs hne
      | cons l ls => simp [List.getLastD_cons]
    · rw [List.cons_append, splitNewline_cons_other c _ hc, splitNewline_cons_other c _ hc, ih]
      cases hs : splitNewline cs with
      | nil => exact absurd hs hne
      | cons l ls =>
        cases ls with
        | nil =>
          have hne2 := splitNewline_ne_nil (l ++ b)
          simp only [List.dropLast_single, List.nil_append, List.getLastD_cons, List.getLastD_nil,
            List.headD_cons, List.tail_cons, List.cons_append]
          rw [splitNewline_cons_other c _ hc]
        | cons l2 ls2 =>
          simp [List.getLastD_cons]

/-- State of the Gemini loop after the text `text` has been delivered, in
whatever chunks. -/
theorem geminiStep_lines (parse : List Char → Option Json) (text chunk : List Char) :
    geminiStep parse
        { buffer := (splitNewline text).getLastD [],
          events := (splitNewline text).dropLast.flatMap (geminiLine parse) } chunk
      = { buffer := (splitNewline (text ++ chunk)).getLastD [],
          events := (splitNewline (text ++ chunk)).dropLast.flatMap (geminiLine parse) } := by
  have hne := splitNewline_ne_nil ((splitNewline text).getLastD [] ++ chunk)
  unfold geminiStep
  simp only [splitNewline_append text chunk]
  rw [List.dropLast_append_of_ne_nil _ hne, List.flatMap_append]
  congr 1
  simp only [List.getLastD_eq_getLast?, List.getLast?_append]
  cases h : (splitNewline ((splitNewline text).getLast?.getD [] ++ chunk)).getLast? with
  | none =>
    rw [List.getLast?_eq_none_iff] at h
    simp only [List.getLastD_eq_getLast?] at hne
    exact absurd h hne
  | some x => simp

theorem geminiFold_lines (parse : List Char → Option Json) (chunks : List (List Char))
    (text : List Char) :
    chunks.foldl (geminiStep parse)
        { buffer := (splitNewline text).getLastD [],
          events := (splitNewline text).dropLast.flatMap (geminiLine parse) }
      = { buffer := (splitNewline (text ++ chunks.flatten)).getLastD [],
          events := (splitNewline (text ++ chunks.flatten)).dropLast.flatMap
            (geminiLine parse) } := by
  induction chunks generalizing text with
  | nil => simp
  | cons c cs ih =>
    rw [List.foldl_cons, geminiStep_lines, ih]
    simp

theorem geminiLoop_lines (parse : List Char → Option Json) (chunks : List (List Char)) :
    geminiLoop parse chunks
      = { buffer := (splitNewline chunks.flatten).getLastD [],
          events := (splitNewline chunks.flatten).dropLast.flatMap (geminiLine parse) } := by
  have h := geminiFold_lines parse chunks []
  simpa [geminiLoop, splitNewline] using h

theorem geminiDecode_lines (parse : List Char → Option Json) (chunks : List (List Char)) :
    geminiDecode parse chunks = (splitNewline chunks.flatten).flatMap (geminiLine parse) := by
  have hne := splitNewline_ne_nil chunks.flatten
  unfold geminiDecode
  rw [geminiLoop_lines]
  dsimp only
  conv_rhs => rw [← List.dropLast_append_getLast hne]
  rw [List.flatMap_append]
  have hlast : ∀ (x : List (List Char)) (hx : x ≠ []), x.getLastD [] = x.getLast hx := by
    intro x hx
    cases x with
    | nil => exact absurd rfl hx
    | cons a l => rw [List.getLast_eq_getLastD, List.getLastD_cons]
  rw [hlast _ hne]
  simp

/-! ### C4: chunk-split invariance of the Gemini decoder -/

/-- C4: the events of `GeminiClient.streamChat` depend only on the
concatenation of the delivered chunks.  For every way of splitting the stream
text into chunks the `onChunk` calls are those made when the whole text comes
as one chunk, namely the calls of the line handler on each newline-separated
line of the whole text, the last line included whether or not a newline
follows it.  In particular a line cut at any point into two chunks yields the
one event of the whole line, with or without a trailing newline. -/
theorem gemini_chunk_split_invariant (parse : List Char → Option Json)
    (chunks : List (List Char)) (apiKey : JsVal) (hk : truthy apiKey = true)
    (messages : List Message) (modelId : Option (List Char)) :
    (GeminiClient.streamChat parse (serve chunks) apiKey messages modelId).events
        = (GeminiClient.streamChat parse (serve [chunks.flatten]) apiKey messages
            modelId).events
    ∧ (GeminiClient.streamChat parse (serve chunks) apiKey messages modelId).events
        = (splitNewline chunks.flatten).flatMap (geminiLine parse)
    ∧ (∀ (a b : List Char) (e : ChunkEvent), noNewline (a ++ b) →
        geminiLine parse (a ++ b) = [e] →
        (GeminiClient.streamChat parse (serve [a, b ++ ['\n']]) apiKey messages
            modelId).events = [e]
        ∧ (GeminiClient.streamChat parse (serve [a, b]) apiKey messages modelId).events
            = [e]) := by
  have gnil : geminiLine parse [] = [] := by simp [geminiLine, jsTrim]
  refine ⟨?_, ?_, ?_⟩
  · rw [(gemini_serve parse chunks apiKey hk messages modelId).1,
      (gemini_serve parse [chunks.flatten] apiKey hk messages modelId).1,
      geminiDecode_lines, geminiDecode_lines]
    simp
  · rw [(gemini_serve parse chunks apiKey hk messages modelId).1, geminiDecode_lines]
  · intro a b e hab he
    rw [(gemini_serve parse _ apiKey hk messages modelId).1,
      (gemini_serve parse _ apiKey hk messages modelId).1,
      geminiDecode_lines, geminiDecode_lines]
    constructor
    · have e1 : [a, b ++ ['\n']].flatten = (a ++ b) ++ '\n' :: [] := by simp
      rw [e1, splitNewline_append_newline, splitNewline_noNewline _ hab]
      simp [splitNewline, he, gnil]
    · have e2 : [a, b].flatten = a ++ b := by simp
      rw [e2, splitNewline_noNewline _ hab]
      simp [he]

/-- Witness for C4: a Gemini line carrying `Hi`, cut inside the object. -/
theorem gemini_chunk_split_invariant_witness :
    truthy someKey = true
    ∧ noNewline (geminiHead ++ geminiTail)
    ∧ geminiLine JSON.parse (geminiHead ++ geminiTail)
        = [chunkCall (Json.str "Hi".toList) false]
    ∧ (GeminiClient.streamChat JSON.parse (serve [geminiHead, geminiTail ++ ['\n']]) someKey
        hiConversation none).events = [chunkCall (Json.str "Hi".toList) false]
    ∧ (GeminiClient.streamChat JSON.parse (serve [geminiHead, geminiTail]) someKey
        hiConversation none).events = [chunkCall (Json.str "Hi".toList) false] :=
  ⟨by decide, by decide, by rfl,
    ((gemini_chunk_split_invariant JSON.parse [geminiHead, geminiTail] someKey (by decide)
      hiConversation none).2.2 geminiHead geminiTail _ (by decide) (by rfl)).1,
    ((gemini_chunk_split_invariant JSON.parse [geminiHead, geminiTail] someKey (by decide)
      hiConversation none).2.2 geminiHead geminiTail _ (by decide) (by rfl)).2⟩

/-! ### C5: the Ollama adapter on a line cut across two chunks -/

/-- C5 (the code at the failing input): the Ollama line
`{"message":{"content":"Hi"}}` delivered whole yields the one event `Hi`; cut
inside the object into two chunks it yields no event, while the Gemini
adapter on a line cut the same way yields its one event. -/
theorem ollama_split_line_lost :
    (OllamaClient.streamChat JSON.parse (serve [ollamaHead ++ ollamaTail ++ ['\n']])
        hiConversation none).events = [chunkCall (Json.str "Hi".toList) false]
    ∧ (OllamaClient.streamChat JSON.parse (serve [ollamaHead, ollamaTail ++ ['\n']])
        hiConversation none).events = []
    ∧ (GeminiClient.streamChat JSON.parse (serve [geminiHead, geminiTail ++ ['\n']]) someKey
        hiConversation none).events = [chunkCall (Json.str "Hi".toList) false] :=
  ⟨by rfl, by rfl, by rfl⟩

/-! ### C6: malformed frames are skipped -/

theorem decodeChunks_append (lineFn : List Char → List ChunkEvent)
    (xs ys : List (List Char)) :
    decodeChunks lineFn (xs ++ ys) = decodeChunks lineFn xs ++ decodeChunks lineFn ys := by
  simp [decodeChunks]

theorem decodeChunks_insert (lineFn : List Char → List ChunkEvent)
    (pre post : List (List Char)) (a b line : List Char) (hl : noNewline line)
    (hskip : lineFn line = []) :
    decodeChunks lineFn (pre ++ [a ++ '\n' :: (line ++ '\n' :: b)] ++ post)
      = decodeChunks lineFn (pre ++ [a ++ '\n' :: b] ++ post) := by
  simp only [decodeChunks_append]
  congr 2
  simp only [decodeChunks, List.flatMap_cons, List.flatMap_nil, List.append_nil]
  rw [splitNewline_append_newline, splitNewline_append_newline, splitNewline_append_newline,
    splitNewline_noNewline line hl]
  simp [hskip]

theorem geminiDecode_insert (parse : List Char → Option Json)
    (pre post : List (List Char)) (a b line : List Char) (hl : noNewline line)
    (hskip : geminiLine parse line = []) :
    geminiDecode parse (pre ++ [a ++ '\n' :: (line ++ '\n' :: b)] ++ post)
      = geminiDecode parse (pre ++ [a ++ '\n' :: b] ++ post) := by
  rw [geminiDecode_lines, geminiDecode_lines]
  have e1 : (pre ++ [a ++ '\n' :: (line ++ '\n' :: b)] ++ post).flatten
      = (pre.flatten ++ a) ++ '\n' :: (line ++ '\n' :: (b ++ post.flatten)) := by simp
  have e2 : (pre ++ [a ++ '\n' :: b] ++ post).flatten
      = (pre.flatten ++ a) ++ '\n' :: (b ++ post.flatten) := by simp
  rw [e1, e2, splitNewline_append_newline, splitNewline_append_newline,
    splitNewline_append_newline, splitNewline_noNewline line hl]
  simp [hskip]

theorem malformed_skipped (p : Provider) (parse : List Char → Option Json) (line : List Char)
    (hm : Malformed p parse line) : p.lineHandler parse line = [] := by
  cases p with
  | openai =>
    simp only [Malformed] at hm
    simp only [Provider.lineHandler, openaiLine]
    split
    · next hc =>
      simp only [Bool.and_eq_true] at hc
      rw [hm hc.1]
    · rfl
  | groq =>
    simp only [Malformed] at hm
    simp only [Provider.lineHandler, contentLine]
    split
    · next hc =>
      simp only [Bool.and_eq_true] at hc
      rw [hm hc.1]
    · rfl
  | gemini =>
    simp only [Malformed] at hm
    simp only [Provider.lineHandler, geminiLine, hm]
    split <;> rfl
  | ollama =>
    simp only [Malformed] at hm
    simp only [Provider.lineHandler, ollamaLine, hm]
    split <;> rfl
  | lmstudio =>
    simp only [Malformed] at hm
    simp only [Provider.lineHandler, contentLine]
    split
    · next hc =>
      simp only [Bool.and_eq_true] at hc
      rw [hm hc.1]
    · rfl

theorem lineHandler_nil (p : Provider) (parse : List Char → Option Json) :
    p.lineHandler parse [] = [] := by
  cases p <;>
    simp [Provider.lineHandler, openaiLine, contentLine, geminiLine, ollamaLine, startsWith,
      dataPrefix, jsTrim]

theorem wholeLines_flatten (groups : List (List (List Char))) :
    (groups.map wholeLines).flatten = wholeLines groups.flatten := by
  induction groups with
  | nil => rfl
  | cons g gs ih =>
    simp only [List.map_cons, List.flatten_cons, ih]
    simp [wholeLines]

theorem geminiDecode_wholeLines (parse : List Char → Option Json)
    (groups : List (List (List Char))) (h : ∀ g ∈ groups, ∀ l ∈ g, noNewline l) :
    geminiDecode parse (groups.map wholeLines) = groups.flatten.flatMap (geminiLine parse) := by
  have hf : ∀ l ∈ groups.flatten, noNewline l := by
    intro l hl
    obtain ⟨g, hg, hlg⟩ := List.mem_flatten.1 hl
    exact h g hg l hlg
  rw [geminiDecode_lines, wholeLines_flatten, splitNewline_wholeLines _ hf]
  simp [geminiLine, jsTrim]

theorem serve_events (p : Provider) (parse : List Char → Option Json)
    (chunks : List (List Char)) (apiKey : JsVal) (hk : truthy apiKey = true)
    (messages : List Message) (modelId : Option (List Char)) :
    (p.streamChat parse (serve chunks) apiKey messages modelId).events
        = (match p with
          | Provider.gemini => geminiDecode parse chunks
          | _ => decodeChunks (p.lineHandler parse) chunks)
    ∧ (p.streamChat parse (serve chunks) apiKey messages modelId).result = Except.ok () := by
  cases p with
  | openai => exact openai_serve parse chunks apiKey hk messages modelId
  | groq => exact groq_serve parse chunks apiKey hk messages modelId
  | gemini => exact gemini_serve parse chunks apiKey hk messages modelId
  | ollama => exact ollama_serve parse chunks messages modelId
  | lmstudio => exact lmstudio_serve parse chunks messages modelId

theorem serve_events_wholeLines (p : Provider) (parse : List Char → Option Json)
    (groups : List (List (List Char))) (h : ∀ g ∈ groups, ∀ l ∈ g, noNewline l)
    (apiKey : JsVal) (hk : truthy apiKey = true) (messages : List Message)
    (modelId : Option (List Char)) :
    (p.streamChat parse (serve (groups.map wholeLines)) apiKey messages modelId).events
      = groups.flatten.flatMap (p.lineHandler parse) := by
  rw [(serve_events p parse _ apiKey hk messages modelId).1]
  cases p with
  | gemini => exact geminiDecode_wholeLines parse groups h
  | openai => exact decodeChunks_wholeLines _ (lineHandler_nil _ parse) groups h
  | groq => exact decodeChunks_wholeLines _ (lineHandler_nil _ parse) groups h
  | ollama => exact decodeChunks_wholeLines _ (lineHandler_nil _ parse) groups h
  | lmstudio => exact decodeChunks_wholeLines _ (lineHandler_nil _ parse) groups h

/-- C6: a malformed frame is skipped without aborting the stream.  For every
adapter and every line whose payload fails JSON parsing: inserting the line
between two lines of a delivered chunk leaves the sequence of `onChunk` calls
unchanged, whatever the other chunks are; inserting it as a frame anywhere
into a stream delivered in chunks of whole lines, however the frames are
grouped into chunks before and after the insertion, leaves the sequence
unchanged as well; and `streamChat` still resolves.  On the frames
`[valid1, "not json", valid2]`, delivered as one chunk or one frame per
chunk, every adapter delivers exactly 2 events. -/
theorem malformed_frame_skipped (p : Provider) (parse : List Char → Option Json)
    (line : List Char) (hl : noNewline line) (hm : Malformed p parse line)
    (apiKey : JsVal) (hk : truthy apiKey = true) (messages : List Message)
    (modelId : Option (List Char)) :
    (∀ (pre post : List (List Char)) (a b : List Char),
      (p.streamChat parse (serve (pre ++ [a ++ '\n' :: (line ++ '\n' :: b)] ++ post)) apiKey
          messages modelId).events
        = (p.streamChat parse (serve (pre ++ [a ++ '\n' :: b] ++ post)) apiKey messages
            modelId).events
      ∧ (p.streamChat parse (serve (pre ++ [a ++ '\n' :: (line ++ '\n' :: b)] ++ post))
          apiKey messages modelId).result = Except.ok ())
    ∧ (∀ (groups groups1 : List (List (List Char))) (before after : List (List Char)),
        (∀ g ∈ groups, ∀ l ∈ g, noNewline l) → (∀ g ∈ groups1, ∀ l ∈ g, noNewline l) →
        groups.flatten = before ++ after → groups1.flatten = before ++ line :: after →
        (p.streamChat parse (serve (groups1.map wholeLines)) apiKey messages modelId).events
          = (p.streamChat parse (serve (groups.map wholeLines)) apiKey messages
              modelId).events
        ∧ (p.streamChat parse (serve (groups1.map wholeLines)) apiKey messages
            modelId).result = Except.ok ())
    ∧ (∀ q : Provider,
        (scenarioEvents q).length = 2 ∧ (scenarioEventsByFrame q).length = 2) := by
  have hs := malformed_skipped p parse line hm
  refine ⟨?_, ?_, ?_⟩
  · intro pre post a b
    refine ⟨?_, (serve_events p parse _ apiKey hk messages modelId).2⟩
    rw [(serve_events p parse _ apiKey hk messages modelId).1,
      (serve_events p parse _ apiKey hk messages modelId).1]
    cases p with
    | gemini => exact geminiDecode_insert parse pre post a b line hl hs
    | openai => exact decodeChunks_insert _ pre post a b line hl hs
    | groq => exact decodeChunks_insert _ pre post a b line hl hs
    | ollama => exact decodeChunks_insert _ pre post a b line hl hs
    | lmstudio => exact decodeChunks_insert _ pre post a b line hl hs
  · intro groups groups1 before after hg hg1 hf hf1
    refine ⟨?_, (serve_events p parse _ apiKey hk messages modelId).2⟩
    rw [serve_events_wholeLines p parse groups1 hg1 apiKey hk,
      serve_events_wholeLines p parse groups hg apiKey hk, hf, hf1]
    simp [hs]
  · intro q
    cases q <;> exact ⟨by rfl, by rfl⟩

/-- Witness for C6: the line `not json` inserted between two Ollama lines. -/
theorem malformed_frame_skipped_witness :
    noNewline notJson
    ∧ Malformed Provider.ollama JSON.parse notJson
    ∧ truthy someKey = true
    ∧ (Provider.ollama.streamChat JSON.parse
        (serve ([] ++ [validLine Provider.ollama 'A' ++ '\n'
          :: (notJson ++ '\n' :: validLine Provider.ollama 'B')] ++ [])) someKey
        hiConversation none).events
      = (Provider.ollama.streamChat JSON.parse
        (serve ([] ++ [validLine Provider.ollama 'A' ++ '\n'
          :: validLine Provider.ollama 'B'] ++ [])) someKey hiConversation none).events :=
  ⟨by decide, by rfl, by decide,
    ((malformed_frame_skipped Provider.ollama JSON.parse notJson (by decide) (by rfl) someKey
      (by decide) hiConversation none).1 [] [] (validLine Provider.ollama 'A')
      (validLine Provider.ollama 'B')).1⟩

/-! ### Searching for a fence -/

theorem startsWith_iff (p s : List Char) : startsWith p s = true ↔ ∃ r, s = p ++ r := by
  induction p generalizing s with
  | nil => simp [startsWith]
  | cons a p1 ih =>
    cases s with
    | nil => simp [startsWith]
    | cons b s1 =>
      simp only [startsWith, Bool.and_eq_true, beq_iff_eq, ih, List.cons_append,
        List.cons.injEq]
      constructor
      · rintro ⟨hab, r, hr⟩
        exact ⟨r, hab.symm, hr⟩
      · rintro ⟨r, hab, hr⟩
        exact ⟨hab.symm, r, hr⟩

theorem startsWith_append (p r : List Char) : startsWith p (p ++ r) = true :=
  (startsWith_iff p (p ++ r)).2 ⟨r, rfl⟩

theorem splitAtFirst_some (pat s a b : List Char) (h : splitAtFirst pat s = some (a, b)) :
    s = a ++ (pat ++ b) := by
  induction s generalizing a b with
  | nil =>
    simp only [splitAtFirst] at h
    split at h
    · next hs =>
      obtain ⟨r, hr⟩ := (startsWith_iff pat []).1 hs
      simp only [Option.some.injEq, Prod.mk.injEq] at h
      obtain ⟨ha, hb⟩ := h
      subst ha
      subst hb
      have hp : pat = [] := by
        cases pat with
        | nil => rfl
        | cons x xs => simp at hr
      simp [hp]
    · simp at h
  | cons c cs ih =>
    simp only [splitAtFirst] at h
    split at h
    · next hs =>
      obtain ⟨r, hr⟩ := (startsWith_iff pat (c :: cs)).1 hs
      simp only [Option.some.injEq, Prod.mk.injEq] at h
      obtain ⟨ha, hb⟩ := h
      subst ha
      subst hb
      rw [hr]
      simp
    · split at h
      · next a1 b1 hrec =>
        simp only [Option.some.injEq, Prod.mk.injEq] at h
        obtain ⟨ha, hb⟩ := h
        subst ha
        subst hb
        rw [ih a1 b1 hrec]
        rfl
      · simp at h

theorem splitAtFirst_of_occurs (pat a b : List Char) :
    ∃ a1 b1, splitAtFirst pat (a ++ (pat ++ b)) = some (a1, b1) ∧ a1.length ≤ a.length := by
  induction a with
  | nil =>
    have hs : startsWith pat (pat ++ b) = true := startsWith_append pat b
    cases hpb : pat ++ b with
    | nil =>
      rw [hpb] at hs
      exact ⟨[], [], by simp [splitAtFirst, hs], by simp⟩
    | cons c cs =>
      rw [hpb] at hs
      exact ⟨[], (c :: cs).drop pat.length, by simp [splitAtFirst, hs], by simp⟩
  | cons x a1 ih =>
    obtain ⟨a2, b2, h2, hlen⟩ := ih
    by_cases hs : startsWith pat (x :: (a1 ++ (pat ++ b))) = true
    · exact ⟨[], (x :: (a1 ++ (pat ++ b))).drop pat.length, by simp [splitAtFirst, hs],
        by simp⟩
    · refine ⟨x :: a2, b2, ?_, by simpa using hlen⟩
      simp [splitAtFirst, hs, h2]

theorem append_eq_of_length_eq (a b c d : List Char) (h : a ++ b = c ++ d)
    (hlen : a.length = c.length) : a = c ∧ b = d :=
  List.append_inj h hlen

theorem splitAtFirst_first (pat a b : List Char)
    (hmin : ∀ a1 b1, a ++ (pat ++ b) = a1 ++ (pat ++ b1) → a.length ≤ a1.length) :
    splitAtFirst pat (a ++ (pat ++ b)) = some (a, b) := by
  obtain ⟨a1, b1, h1, hlen⟩ := splitAtFirst_of_occurs pat a b
  have e := splitAtFirst_some pat _ a1 b1 h1
  have hle := hmin a1 b1 e
  obtain ⟨ha, hb⟩ := append_eq_of_length_eq _ _ _ _ e (by omega)
  have hb2 : b = b1 := List.append_cancel_left hb
  rw [h1, ← ha, ← hb2]

/-! ### Matching a fenced block -/

theorem matchHere_some (tags : List (List Char)) (s t body after : List Char)
    (h : matchHere tags s = some (t, body, after)) :
    t ∈ tags ∧ s = openFence t ++ (body ++ (fence ++ after))
      ∧ splitAtFirst fence (body ++ (fence ++ after)) = some (body, after) := by
  induction tags with
  | nil => simp [matchHere] at h
  | cons t0 ts ih =>
    simp only [matchHere] at h
    split at h
    · next hs =>
      obtain ⟨r, hr⟩ := (startsWith_iff _ _).1 hs
      split at h
      · next body1 after1 hsp =>
        simp only [Option.some.injEq, Prod.mk.injEq] at h
        obtain ⟨h1, h2, h3⟩ := h
        subst h1
        subst h2
        subst h3
        have hd : s.drop (openFence t0).length = r := by rw [hr]; simp
        rw [hd] at hsp
        have hr2 := splitAtFirst_some fence r body1 after1 hsp
        refine ⟨by simp, ?_, ?_⟩
        · rw [hr, hr2]
        · rw [← hr2]
          exact hsp
      · obtain ⟨h1, h2, h3⟩ := ih h
        exact ⟨List.mem_cons_of_mem _ h1, h2, h3⟩
    · obtain ⟨h1, h2, h3⟩ := ih h
      exact ⟨List.mem_cons_of_mem _ h1, h2, h3⟩

theorem matchHere_of (tags : List (List Char)) (t body after : List Char) (ht : t ∈ tags) :
    ∃ r, matchHere tags (openFence t ++ (body ++ (fence ++ after))) = some r := by
  induction tags with
  | nil => simp at ht
  | cons t0 ts ih =>
    simp only [matchHere]
    split
    · next hs =>
      split
      · exact ⟨_, rfl⟩
      · next hnone =>
        have hts : t ∈ ts := by
          rcases List.mem_cons.1 ht with h0 | h0
          · subst h0
            obtain ⟨a1, b1, h1, _⟩ := splitAtFirst_of_occurs fence body after
            have hd : (openFence t ++ (body ++ (fence ++ after))).drop (openFence t).length
                = body ++ (fence ++ after) := by simp
            rw [hd, h1] at hnone
            simp at hnone
          · exact h0
        exact ih hts
    · next hs =>
      have hts : t ∈ ts := by
        rcases List.mem_cons.1 ht with h0 | h0
        · subst h0
          exact absurd (startsWith_append _ _) hs
        · exact h0
      exact ih hts

theorem matchFence_some (tags : List (List Char)) (s : List Char) (m : FenceMatch)
    (h : matchFence tags s = some m) :
    m.tag ∈ tags ∧ s = m.before ++ (openFence m.tag ++ (m.body ++ (fence ++ m.after)))
      ∧ splitAtFirst fence (m.body ++ (fence ++ m.after)) = some (m.body, m.after) := by
  induction s generalizing m with
  | nil =>
    simp only [matchFence] at h
    split at h
    · next t body after hh =>
      simp only [Option.some.injEq] at h
      subst h
      obtain ⟨h1, h2, h3⟩ := matchHere_some tags _ t body after hh
      exact ⟨h1, by simpa using h2, h3⟩
    · simp at h
  | cons c cs ih =>
    simp only [matchFence] at h
    split at h
    · next t body after hh =>
      simp only [Option.some.injEq] at h
      subst h
      obtain ⟨h1, h2, h3⟩ := matchHere_some tags _ t body after hh
      exact ⟨h1, by simpa using h2, h3⟩
    · split at h
      · next m1 hrec =>
        simp only [Option.some.injEq] at h
        subst h
        obtain ⟨h1, h2, h3⟩ := ih m1 hrec
        refine ⟨h1, ?_, h3⟩
        simp only [List.cons_append]
        rw [← h2]
      · simp at h

theorem matchFence_of (tags : List (List Char)) (pre t body post : List Char)
    (ht : t ∈ tags) :
    ∃ m, matchFence tags (pre ++ (openFence t ++ (body ++ (fence ++ post)))) = some m
      ∧ m.before.length ≤ pre.length := by
  induction pre with
  | nil =>
    obtain ⟨r, hr⟩ := matchHere_of tags t body post ht
    obtain ⟨t1, body1, after1⟩ := r
    simp only [List.nil_append]
    cases hs : openFence t ++ (body ++ (fence ++ post)) with
    | nil =>
      rw [hs] at hr
      exact ⟨{ before := [], tag := t1, body := body1, after := after1 },
        by simp only [matchFence, hr], by simp⟩
    | cons c cs =>
      rw [hs] at hr
      exact ⟨{ before := [], tag := t1, body := body1, after := after1 },
        by simp only [matchFence, hr], by simp⟩
  | cons x p1 ih =>
    obtain ⟨m1, hm1, hlen⟩ := ih
    simp only [List.cons_append, matchFence]
    split
    · exact ⟨_, rfl, by simp⟩
    · have hm2 : matchFence tags (p1.append (openFence t ++ (body ++ (fence ++ post))))
          = some m1 := hm1
      rw [hm2]
      exact ⟨_, rfl, by simpa using hlen⟩

theorem matchFence_isSome_iff (tags : List (List Char)) (s : List Char) :
    (∃ m, matchFence tags s = some m) ↔ ∃ t ∈ tags, HasClosedBlock t s := by
  constructor
  · rintro ⟨m, hm⟩
    obtain ⟨h1, h2, _⟩ := matchFence_some tags s m hm
    exact ⟨m.tag, h1, m.before, m.body, m.after, by simpa using h2⟩
  · rintro ⟨t, ht, pre, body, post, hs⟩
    obtain ⟨m, hm, _⟩ := matchFence_of tags pre t body post ht
    refine ⟨m, ?_⟩
    rw [hs]
    simpa using hm

theorem matchFence_none_iff (tags : List (List Char)) (s : List Char) :
    matchFence tags s = none ↔ ∀ t ∈ tags, ¬ HasClosedBlock t s := by
  have h := matchFence_isSome_iff tags s
  constructor
  · intro hn t ht hb
    obtain ⟨m, hm⟩ := h.2 ⟨t, ht, hb⟩
    rw [hn] at hm
    simp at hm
  · intro hall
    cases hm : matchFence tags s with
    | none => rfl
    | some m =>
      obtain ⟨t, ht, hb⟩ := h.1 ⟨m, hm⟩
      exact absurd hb (hall t ht)

theorem matchFence_first (tags : List (List Char)) (pre t body post : List Char)
    (ht : t ∈ tags)
    (hd : ∀ t1 ∈ tags, ∀ t2 ∈ tags, ∀ x y : List Char,
      openFence t1 ++ x = openFence t2 ++ y → t1 = t2)
    (hfirst : IsFirstBlock tags (pre ++ openFence t ++ body ++ fence ++ post) pre)
    (hclose : IsFirstClose body post) :
    matchFence tags (pre ++ openFence t ++ body ++ fence ++ post)
      = some { before := pre, tag := t, body := body, after := post } := by
  have hnorm : pre ++ openFence t ++ body ++ fence ++ post
      = pre ++ (openFence t ++ (body ++ (fence ++ post))) := by simp
  obtain ⟨m, hm, hlen⟩ := matchFence_of tags pre t body post ht
  obtain ⟨h1, h2, h3⟩ := matchFence_some tags _ m hm
  have hge : pre.length ≤ m.before.length := by
    apply hfirst m.tag h1 m.before m.body m.after
    rw [hnorm, h2]
    simp
  obtain ⟨e1, e2⟩ := append_eq_of_length_eq _ _ _ _ h2 (by omega)
  have et : t = m.tag := hd t ht m.tag h1 _ _ e2
  rw [← et] at e2
  have e3 : body ++ (fence ++ post) = m.body ++ (fence ++ m.after) :=
    List.append_cancel_left e2
  have hsp : splitAtFirst fence (body ++ (fence ++ post)) = some (body, post) := by
    apply splitAtFirst_first
    intro a1 b1 he
    apply hclose a1 b1
    simpa using he
  rw [e3, h3] at hsp
  simp only [Option.some.injEq, Prod.mk.injEq] at hsp
  rw [hnorm, hm]
  cases m with
  | mk mb mt mbody mafter =>
    simp only at e1 et hsp
    rw [e1, et, hsp.1, hsp.2]

theorem distinct_singleton (t : List Char) :
    ∀ t1 ∈ [t], ∀ t2 ∈ [t], ∀ x y : List Char,
      openFence t1 ++ x = openFence t2 ++ y → t1 = t2 := by
  intro t1 h1 t2 h2 _ _ _
  rw [List.mem_singleton] at h1 h2
  rw [h1, h2]

theorem distinct_reactTags :
    ∀ t1 ∈ reactTags, ∀ t2 ∈ reactTags, ∀ x y : List Char,
      openFence t1 ++ x = openFence t2 ++ y → t1 = t2 := by
  intro t1 h1 t2 h2 x y he
  simp only [reactTags, List.mem_cons, List.mem_singleton, List.not_mem_nil, or_false] at h1 h2
  rcases h1 with h1 | h1 <;> rcases h2 with h2 | h2 <;> subst h1 <;> subst h2
  · rfl
  · simp [openFence, fence] at he
  · simp [openFence, fence] at he
  · rfl

/-! ### C7: priority of the artifact categories -/

/-- C7: `extractArtifact` yields at most one artifact, chosen in priority
order: type `html` if the text has a closed fenced block tagged `html`;
otherwise `react` if it has one tagged `jsx` or `react`; otherwise `svg` if it
has one tagged `svg`; otherwise none.  A text with both an html and an svg
block yields the one artifact of type `html`, wherever the blocks stand. -/
theorem artifact_priority (text : List Char) :
    (HasClosedBlock "html".toList text →
      (extractArtifact text).map ArtifactData.type = some "html".toList)
    ∧ (¬ HasClosedBlock "html".toList text →
        (HasClosedBlock "jsx".toList text ∨ HasClosedBlock "react".toList text) →
        (extractArtifact text).map ArtifactData.type = some "react".toList)
    ∧ (¬ HasClosedBlock "html".toList text → ¬ HasClosedBlock "jsx".toList text →
        ¬ HasClosedBlock "react".toList text → HasClosedBlock "svg".toList text →
        (extractArtifact text).map ArtifactData.type = some "svg".toList)
    ∧ (¬ HasClosedBlock "html".toList text → ¬ HasClosedBlock "jsx".toList text →
        ¬ HasClosedBlock "react".toList text → ¬ HasClosedBlock "svg".toList text →
        extractArtifact text = none)
    ∧ (HasClosedBlock "html".toList text → HasClosedBlock "svg".toList text →
        ∃ a, extractArtifact text = some a ∧ a.type = "html".toList) := by
  have html_some : HasClosedBlock "html".toList text →
      ∃ m, matchFence htmlTags text = some m := fun h =>
    (matchFence_isSome_iff htmlTags text).2 ⟨_, by simp [htmlTags], h⟩
  have html_none : ¬ HasClosedBlock "html".toList text → matchFence htmlTags text = none := by
    intro h
    rw [matchFence_none_iff]
    intro t ht
    simp only [htmlTags, List.mem_singleton] at ht
    rw [ht]
    exact h
  have react_none : ¬ HasClosedBlock "jsx".toList text →
      ¬ HasClosedBlock "react".toList text → matchFence reactTags text = none := by
    intro h1 h2
    rw [matchFence_none_iff]
    intro t ht
    simp only [reactTags, List.mem_cons, List.mem_singleton, List.not_mem_nil, or_false] at ht
    rcases ht with ht | ht <;> rw [ht]
    · exact h1
    · exact h2
  have svg_none : ¬ HasClosedBlock "svg".toList text → matchFence svgTags text = none := by
    intro h
    rw [matchFence_none_iff]
    intro t ht
    simp only [svgTags, List.mem_singleton] at ht
    rw [ht]
    exact h
  refine ⟨?_, ?_, ?_, ?_, ?_⟩
  · intro h
    obtain ⟨m, hm⟩ := html_some h
    simp [extractArtifact, htmlMatch, jsxMatch, svgMatch, hm, htmlArtifact]
  · intro hh hr
    have : ∃ m, matchFence reactTags text = some m := by
      apply (matchFence_isSome_iff reactTags text).2
      rcases hr with hr | hr
      · exact ⟨_, by simp [reactTags], hr⟩
      · exact ⟨_, by simp [reactTags], hr⟩
    obtain ⟨m, hm⟩ := this
    simp [extractArtifact, htmlMatch, jsxMatch, svgMatch, html_none hh, hm, reactArtifact]
  · intro hh hj hr hs
    obtain ⟨m, hm⟩ := (matchFence_isSome_iff svgTags text).2 ⟨_, by simp [svgTags], hs⟩
    simp [extractArtifact, htmlMatch, jsxMatch, svgMatch, html_none hh, react_none hj hr, hm,
      svgArtifact]
  · intro hh hj hr hs
    simp [extractArtifact, htmlMatch, jsxMatch, svgMatch, html_none hh, react_none hj hr,
      svg_none hs]
  · intro h _
    obtain ⟨m, hm⟩ := html_some h
    exact ⟨htmlArtifact m.body,
      by simp [extractArtifact, htmlMatch, jsxMatch, svgMatch, hm], rfl⟩

/-- Witness for C7: an svg block followed by an html block. -/
theorem artifact_priority_witness :
    HasClosedBlock "html".toList svgThenHtml
    ∧ HasClosedBlock "svg".toList svgThenHtml
    ∧ ∃ a, extractArtifact svgThenHtml = some a ∧ a.type = "html".toList :=
  ⟨⟨"```svg\nS```\n".toList, "H".toList, [], by decide⟩,
    ⟨[], "S".toList, "\n```html\nH```".toList, by decide⟩,
    (artifact_priority svgThenHtml).2.2.2.2
      ⟨"```svg\nS```\n".toList, "H".toList, [], by decide⟩
      ⟨[], "S".toList, "\n```html\nH```".toList, by decide⟩⟩

/-! ### C8: the block replaced by the placeholder -/

/-- C8 (the code at the failing input): on an answer with an svg block
followed by an html block the artifact is the html block, with content `H`,
but the stored text has the svg block replaced by the html placeholder and
the html block left in place; replacing the matched block would instead give
the svg block, a newline and the placeholder. -/
theorem placeholder_replaces_other_block :
    extractArtifact svgThenHtml = some (htmlArtifact "H".toList)
    ∧ storedContent 17 svgThenHtml
        = placeholder (newArtifactId 17) (htmlArtifact "H".toList) ++ "\n```html\nH```".toList
    ∧ storedContent 17 svgThenHtml
        ≠ "```svg\nS```\n".toList ++ placeholder (newArtifactId 17) (htmlArtifact "H".toList)
    ∧ placeholder (newArtifactId 17) (htmlArtifact "H".toList)
        = "\n\n:::artifact\x7bid=\"17\" title=\"HTML Preview\" type=\"html\"\x7d\n\n".toList :=
  ⟨by rfl, by decide, by decide, by decide⟩

/-! ### C9: content and fixed fields of the artifact -/

/-- C9: the content of the extracted artifact is the body of the first fenced
block of the winning category: the text strictly between the first opening
fence of that category that is followed by a closing fence and the first
closing fence after it; the other fields are fixed per category. -/
theorem artifact_first_block (pre body post : List Char) (hclose : IsFirstClose body post) :
    (IsFirstBlock htmlTags (pre ++ openFence "html".toList ++ body ++ fence ++ post) pre →
      extractArtifact (pre ++ openFence "html".toList ++ body ++ fence ++ post)
        = some { type := "html".toList, language := "html".toList, content := body,
                 title := "HTML Preview".toList })
    ∧ (∀ t ∈ reactTags,
        IsFirstBlock reactTags (pre ++ openFence t ++ body ++ fence ++ post) pre →
        ¬ HasClosedBlock "html".toList (pre ++ openFence t ++ body ++ fence ++ post) →
        extractArtifact (pre ++ openFence t ++ body ++ fence ++ post)
          = some { type := "react".toList, language := "jsx".toList, content := body,
                   title := "React Component".toList })
    ∧ (IsFirstBlock svgTags (pre ++ openFence "svg".toList ++ body ++ fence ++ post) pre →
        ¬ HasClosedBlock "html".toList (pre ++ openFence "svg".toList ++ body ++ fence ++ post) →
        ¬ HasClosedBlock "jsx".toList (pre ++ openFence "svg".toList ++ body ++ fence ++ post) →
        ¬ HasClosedBlock "react".toList (pre ++ openFence "svg".toList ++ body ++ fence ++ post) →
        extractArtifact (pre ++ openFence "svg".toList ++ body ++ fence ++ post)
          = some { type := "svg".toList, language := "svg".toList, content := body,
                   title := "SVG Graphics".toList }) := by
  refine ⟨?_, ?_, ?_⟩
  · intro hfirst
    have hm := matchFence_first htmlTags pre "html".toList body post (by simp [htmlTags])
      (distinct_singleton _) hfirst hclose
    simp only [extractArtifact, htmlMatch, jsxMatch, svgMatch, hm, htmlArtifact]
  · intro t ht hfirst hh
    have hm := matchFence_first reactTags pre t body post ht distinct_reactTags hfirst hclose
    have hn : matchFence htmlTags (pre ++ openFence t ++ body ++ fence ++ post) = none := by
      rw [matchFence_none_iff]
      intro t1 ht1
      simp only [htmlTags, List.mem_singleton] at ht1
      rw [ht1]
      exact hh
    simp only [extractArtifact, htmlMatch, jsxMatch, svgMatch, hn, hm, reactArtifact]
  · intro hfirst hh hj hr
    have hm := matchFence_first svgTags pre "svg".toList body post (by simp [svgTags])
      (distinct_singleton _) hfirst hclose
    have hn1 : matchFence htmlTags (pre ++ openFence "svg".toList ++ body ++ fence ++ post)
        = none := by
      rw [matchFence_none_iff]
      intro t1 ht1
      simp only [htmlTags, List.mem_singleton] at ht1
      rw [ht1]
      exact hh
    have hn2 : matchFence reactTags (pre ++ openFence "svg".toList ++ body ++ fence ++ post)
        = none := by
      rw [matchFence_none_iff]
      intro t1 ht1
      simp only [reactTags, List.mem_cons, List.mem_singleton, List.not_mem_nil,
        or_false] at ht1
      rcases ht1 with ht1 | ht1 <;> rw [ht1]
      · exact hj
      · exact hr
    simp only [extractArtifact, htmlMatch, jsxMatch, svgMatch, hn1, hn2, hm, svgArtifact]

theorem twoHtml_firstClose : IsFirstClose "H1".toList "y```html\nH2```z".toList := by
  intro body1 post1 he
  rcases body1 with _ | ⟨c, _ | ⟨d, r⟩⟩
  · simp [fence] at he
  · simp [fence] at he
  · simp

theorem twoHtml_firstBlock :
    IsFirstBlock htmlTags
      ("x".toList ++ openFence "html".toList ++ "H1".toList ++ fence
        ++ "y```html\nH2```z".toList) "x".toList := by
  intro t ht pre1 body1 post1 he
  rcases pre1 with _ | ⟨c, r⟩
  · simp [openFence, fence] at he
  · simp

/-- Witness for C9: of two html blocks the first one gives the content. -/
theorem artifact_first_block_witness :
    "x".toList ++ openFence "html".toList ++ "H1".toList ++ fence ++ "y```html\nH2```z".toList
        = twoHtml
    ∧ extractArtifact
        ("x".toList ++ openFence "html".toList ++ "H1".toList ++ fence
          ++ "y```html\nH2```z".toList)
      = some { type := "html".toList, language := "html".toList, content := "H1".toList,
               title := "HTML Preview".toList } :=
  ⟨by decide,
    (artifact_first_block "x".toList "H1".toList "y```html\nH2```z".toList
      twoHtml_firstClose).1 twoHtml_firstBlock⟩

/-! ### C10: the credential check precedes the transport -/

/-- C10: with an absent credential (`undefined`, `null` or the empty string)
`streamChat` of the OpenAI, Groq and Gemini adapters rejects with
`<Provider> API Key missing` after zero `fetch` calls and zero `onChunk`
calls, whatever the transport would answer; the Ollama and LM Studio adapters
never look at the credential: their run is the same as with a credential
present and always starts with the one `fetch` call. -/
theorem missing_credential_rejects (parse : List Char → Option Json)
    (fetch : Request → FetchResult) (apiKey : JsVal)
    (h : apiKey = none ∨ apiKey = some Json.null ∨ apiKey = some (Json.str []))
    (messages : List Message) (modelId : Option (List Char)) :
    Provider.openai.streamChat parse fetch apiKey messages modelId
        = { fetches := [], events := [],
            result := Except.error "OpenAI API Key missing".toList }
    ∧ Provider.groq.streamChat parse fetch apiKey messages modelId
        = { fetches := [], events := [],
            result := Except.error "Groq API Key missing".toList }
    ∧ Provider.gemini.streamChat parse fetch apiKey messages modelId
        = { fetches := [], events := [],
            result := Except.error "Gemini API Key missing".toList }
    ∧ (Provider.ollama.streamChat parse fetch apiKey messages modelId
        = Provider.ollama.streamChat parse fetch someKey messages modelId
      ∧ (Provider.ollama.streamChat parse fetch apiKey messages modelId).fetches.length = 1)
    ∧ (Provider.lmstudio.streamChat parse fetch apiKey messages modelId
        = Provider.lmstudio.streamChat parse fetch someKey messages modelId
      ∧ (Provider.lmstudio.streamChat parse fetch apiKey messages modelId).fetches.length
          = 1) := by
  have hf : truthy apiKey = false := by
    rcases h with h | h | h <;> subst h <;> rfl
  refine ⟨?_, ?_, ?_, ⟨rfl, ?_⟩, ⟨rfl, ?_⟩⟩
  · simp [Provider.streamChat, OpenAIClient.streamChat, hf]
  · simp [Provider.streamChat, GroqClient.streamChat, hf]
  · simp [Provider.streamChat, GeminiClient.streamChat, hf]
  · simp only [Provider.streamChat, OllamaClient.streamChat]
    split
    · rfl
    · split <;> rfl
  · simp only [Provider.streamChat, LMStudioClient.streamChat]
    split
    · rfl
    · split <;> rfl

/-- Witness for C10: the empty-string credential against a transport that
would answer with the `Hello` stream. -/
theorem missing_credential_rejects_witness :
    Provider.openai.streamChat JSON.parse (serve (helloFrames.map (fun l => wholeLines [l])))
        (some (Json.str [])) hiConversation none
      = { fetches := [], events := [],
          result := Except.error "OpenAI API Key missing".toList } :=
  (missing_credential_rejects JSON.parse (serve (helloFrames.map (fun l => wholeLines [l])))
    (some (Json.str [])) (Or.inr (Or.inr rfl)) hiConversation none).1

/-! ### C11: capture of the reasoning-token count -/

theorem onChunk_thinkingTokens (st : StreamState) (e : ChunkEvent) :
    (onChunk st e).thinkingTokens
      = match e.thinkingTokens with
        | some v => if v.truthy then v else st.thinkingTokens
        | none => st.thinkingTokens := by
  unfold onChunk
  cases hT : e.isThinking <;> cases hK : e.thinkingTokens with
  | none => simp
  | some v => cases hv : v.truthy <;> simp [hv]

theorem getLast_getD_append (xs ys : List Json) (d : Json) :
    (xs ++ ys).getLast?.getD d = ys.getLast?.getD (xs.getLast?.getD d) := by
  rw [List.getLast?_append]
  cases ys.getLast? <;> simp

theorem truthyCounts_cons (e : ChunkEvent) (es : List ChunkEvent) :
    truthyCounts (e :: es)
      = (match e.thinkingTokens with
          | some v => if v.truthy then [v] else []
          | none => []) ++ truthyCounts es := by
  unfold truthyCounts
  cases h : e.thinkingTokens with
  | none => simp [List.filterMap_cons, h]
  | some v => cases hv : v.truthy <;> simp [List.filterMap_cons, h, List.filter_cons, hv]

theorem truthyCounts_append (xs ys : List ChunkEvent) :
    truthyCounts (xs ++ ys) = truthyCounts xs ++ truthyCounts ys := by
  simp [truthyCounts]

theorem truthyCounts_flatMap (f : List Char → List ChunkEvent) (ls : List (List Char)) :
    truthyCounts (ls.flatMap f) = ls.flatMap (fun l => truthyCounts (f l)) := by
  induction ls with
  | nil => rfl
  | cons l ls ih => simp [List.flatMap_cons, truthyCounts_append, ih]

theorem foldl_onChunk_tokens (es : List ChunkEvent) (st : StreamState) :
    (es.foldl onChunk st).thinkingTokens = (truthyCounts es).getLast?.getD st.thinkingTokens := by
  induction es generalizing st with
  | nil => rfl
  | cons e es ih =>
    rw [List.foldl_cons, ih, truthyCounts_cons, getLast_getD_append, onChunk_thinkingTokens]
    cases h : e.thinkingTokens with
    | none => rfl
    | some v => cases hv : v.truthy <;> simp [hv]

theorem aggregate_thinkingTokens (es : List ChunkEvent) :
    (aggregate es).thinkingTokens = lastTruthyCount es :=
  foldl_onChunk_tokens es StreamState.init

theorem truthyCounts_textCalls (es : List ChunkEvent) (h : ∀ e ∈ es, IsTextCall e) :
    truthyCounts es = [] := by
  induction es with
  | nil => rfl
  | cons e es ih =>
    rw [truthyCounts_cons, ih (fun x hx => h x (List.mem_cons_of_mem _ hx))]
    obtain ⟨_, flag, hm⟩ := h e (by simp)
    simp [ChunkEvent.thinkingTokens, hm]

theorem truthyCounts_openaiLine (parse : List Char → Option Json) (l : List Char) :
    truthyCounts (openaiLine parse l) = (frameUsage parse l).toList.filter Json.truthy := by
  unfold openaiLine frameUsage
  by_cases hc : (startsWith dataPrefix l && l != doneLine) = true
  · simp only [hc, if_true]
    cases parse (l.drop 6) with
    | none => rfl
    | some data =>
      dsimp only
      cases firstChoice data with
      | none => rfl
      | some choice =>
        dsimp only
        rw [truthyCounts_append]
        have h1 : truthyCounts
            (if (orEmpty (optDot (optDot choice "delta".toList) "reasoning".toList)).truthy
              then [chunkCall
                (orEmpty (optDot (optDot choice "delta".toList) "reasoning".toList)) true]
              else if (orEmpty (optDot (optDot choice "delta".toList) "content".toList)).truthy
                then [chunkCall
                  (orEmpty (optDot (optDot choice "delta".toList) "content".toList)) false]
                else []) = [] := by
          split
          · rfl
          · split <;> rfl
        rw [h1, List.nil_append]
        cases optDot (data.member "usage".toList) "reasoning_tokens".toList with
        | none => rfl
        | some v =>
          dsimp only
          cases hv : v.truthy
          · simp [truthyCounts, hv]
          · simp [truthyCounts, usageCall, ChunkEvent.thinkingTokens, hv]
  · simp only [hc]
    rfl

theorem frameCounts_flatMap (parse : List Char → Option Json) (lines : List (List Char)) :
    frameCounts parse lines
      = lines.flatMap (fun l => (frameUsage parse l).toList.filter Json.truthy) := by
  unfold frameCounts
  induction lines with
  | nil => rfl
  | cons l ls ih =>
    rw [List.flatMap_cons, ← ih]
    cases h : frameUsage parse l with
    | none => simp [List.filterMap_cons, h]
    | some v => cases hv : v.truthy <;> simp [List.filterMap_cons, h, List.filter_cons, hv]

/-- C11 (as stated, refuted): a count of 0 is not captured.  After the events
`onChunk('', {thinkingTokens: 5})`, `onChunk('', {thinkingTokens: 0})` the
captured count is 5, while the last non-null count carried is 0; and on the
usage frames with counts 5 then 0 the OpenAI adapter forwards only the first,
so the captured count is 5 although the last usage frame carries 0. -/
theorem capture_ignores_zero_count :
    (aggregate [countEvent (Json.num 5), countEvent (Json.num 0)]).thinkingTokens = Json.num 5
    ∧ lastNonNullCount [countEvent (Json.num 5), countEvent (Json.num 0)] = Json.num 0
    ∧ (aggregate [countEvent (Json.num 5), countEvent (Json.num 0)]).thinkingTokens
        ≠ lastNonNullCount [countEvent (Json.num 5), countEvent (Json.num 0)]
    ∧ (OpenAIClient.streamChat JSON.parse
          (serve [wholeLines [usageFrameOf 5, usageFrameOf 0]]) someKey hiConversation
          none).capturedTokens = Json.num 5
    ∧ frameUsage JSON.parse (usageFrameOf 0) = some (Json.num 0) := by
  refine ⟨by rfl, by rfl, ?_, by rfl, by rfl⟩
  have h1 : (aggregate [countEvent (Json.num 5), countEvent (Json.num 0)]).thinkingTokens
      = Json.num 5 := by rfl
  have h2 : lastNonNullCount [countEvent (Json.num 5), countEvent (Json.num 0)]
      = Json.num 0 := by rfl
  rw [h1, h2]
  intro h
  injection h with h
  exact absurd h (by decide)

/-- C11 (amended): reasoning-token capture is last-write-wins over the truthy
counts.  After any sequence of events the captured count is the last count
carried that is truthy (for a number: not zero), and `null` when no event
carried one; a count of 0 is ignored like an absent one.  For the OpenAI
adapter the captured count is the last truthy `usage.reasoning_tokens` of a
well-formed frame; the other adapters never deliver a count, so it stays
`null`. -/
theorem capture_last_truthy_count (parse : List Char → Option Json)
    (apiKey : JsVal) (hk : truthy apiKey = true) (messages : List Message)
    (modelId : Option (List Char)) :
    (∀ events : List ChunkEvent, (aggregate events).thinkingTokens = lastTruthyCount events)
    ∧ (∀ chunks : List (List Char),
        (OpenAIClient.streamChat parse (serve chunks) apiKey messages modelId).capturedTokens
          = (frameCounts parse (chunks.flatMap splitNewline)).getLast?.getD Json.null)
    ∧ (∀ fetch : Request → FetchResult,
        (GroqClient.streamChat parse fetch apiKey messages modelId).capturedTokens = Json.null
        ∧ (GeminiClient.streamChat parse fetch apiKey messages modelId).capturedTokens
            = Json.null
        ∧ (OllamaClient.streamChat parse fetch messages modelId).capturedTokens = Json.null
        ∧ (LMStudioClient.streamChat parse fetch messages modelId).capturedTokens
            = Json.null) := by
  refine ⟨aggregate_thinkingTokens, ?_, ?_⟩
  · intro chunks
    rw [Run.capturedTokens, aggregate_thinkingTokens, lastTruthyCount,
      (openai_serve parse chunks apiKey hk messages modelId).1, decodeChunks_lines,
      truthyCounts_flatMap, frameCounts_flatMap]
    simp only [truthyCounts_openaiLine]
  · intro fetch
    have none_of : ∀ es : List ChunkEvent, (∀ e ∈ es, IsTextCall e) →
        (aggregate es).thinkingTokens = Json.null := by
      intro es h
      rw [aggregate_thinkingTokens, lastTruthyCount, truthyCounts_textCalls es h]
      rfl
    refine ⟨?_, ?_, ?_, ?_⟩
    · apply none_of
      intro e he
      obtain ⟨l, hl⟩ := groq_event_from_line parse fetch apiKey messages modelId e he
      exact contentLine_calls parse l e hl
    · apply none_of
      intro e he
      obtain ⟨l, hl⟩ := gemini_event_from_line parse fetch apiKey messages modelId e he
      exact geminiLine_calls parse l e hl
    · apply none_of
      intro e he
      obtain ⟨l, hl⟩ := ollama_event_from_line parse fetch messages modelId e he
      exact ollamaLine_calls parse l e hl
    · apply none_of
      intro e he
      obtain ⟨l, hl⟩ := lmstudio_event_from_line parse fetch messages modelId e he
      exact contentLine_calls parse l e hl

/-- Witness for C11: usage frames with the counts 5, 0 and 7, then 0 again. -/
theorem capture_last_truthy_count_witness :
    truthy someKey = true
    ∧ (OpenAIClient.streamChat JSON.parse
          (serve [wholeLines [usageFrameOf 5, usageFrameOf 0], wholeLines [usageFrameOf 7],
            wholeLines [usageFrameOf 0]]) someKey hiConversation none).capturedTokens
        = (frameCounts JSON.parse
            ([wholeLines [usageFrameOf 5, usageFrameOf 0], wholeLines [usageFrameOf 7],
              wholeLines [usageFrameOf 0]].flatMap splitNewline)).getLast?.getD Json.null
    ∧ (frameCounts JSON.parse
            ([wholeLines [usageFrameOf 5, usageFrameOf 0], wholeLines [usageFrameOf 7],
              wholeLines [usageFrameOf 0]].flatMap splitNewline)).getLast?.getD Json.null
        = Json.num 7 :=
  ⟨by decide,
    (capture_last_truthy_count JSON.parse someKey (by decide) hiConversation none).2.1 _,
    by rfl⟩

/-! ### C13: the completion marker -/

/-- C13 (as stated, refuted): frames delivered after the sentinel do produce
events.  On the stream `data: [DONE]` followed by a well-formed frame with
content `A`, each of the OpenAI, Groq and LM Studio adapters delivers the
event `A`. -/
theorem frame_after_done_is_decoded :
    afterDoneEvents Provider.openai = [chunkCall (Json.str "A".toList) false]
    ∧ afterDoneEvents Provider.groq = [chunkCall (Json.str "A".toList) false]
    ∧ afterDoneEvents Provider.lmstudio = [chunkCall (Json.str "A".toList) false] :=
  ⟨by rfl, by rfl, by rfl⟩

theorem doneLine_skipped (p : Provider) (hp : p.isEventStream = true)
    (parse : List Char → Option Json) : p.lineHandler parse doneLine = [] := by
  cases p with
  | openai => simp [Provider.lineHandler, openaiLine]
  | groq => simp [Provider.lineHandler, contentLine]
  | lmstudio => simp [Provider.lineHandler, contentLine]
  | gemini => simp [Provider.isEventStream] at hp
  | ollama => simp [Provider.isEventStream] at hp

theorem serve_events_decode (p : Provider) (hp : p.isEventStream = true)
    (parse : List Char → Option Json) (chunks : List (List Char)) (apiKey : JsVal)
    (hk : truthy apiKey = true) (messages : List Message) (modelId : Option (List Char)) :
    (p.streamChat parse (serve chunks) apiKey messages modelId).events
      = decodeChunks (p.lineHandler parse) chunks := by
  rw [(serve_events p parse chunks apiKey hk messages modelId).1]
  cases p with
  | gemini => simp [Provider.isEventStream] at hp
  | openai => rfl
  | groq => rfl
  | ollama => rfl
  | lmstudio => rfl

/-- C13 (amended): in the event-stream adapters (OpenAI, Groq, LM Studio) the
sentinel `data: [DONE]` produces no event and does not end the decode loop.
Inserting the sentinel between two lines of a chunk changes no event, and the
loop goes on until the transport ends the stream: the events of a stream
continued by more chunks are the events of the stream followed by the events
of those chunks, whether or not the sentinel was among the earlier ones. -/
theorem done_marker_skipped (p : Provider) (hp : p.isEventStream = true)
    (parse : List Char → Option Json) (apiKey : JsVal) (hk : truthy apiKey = true)
    (messages : List Message) (modelId : Option (List Char)) :
    p.lineHandler parse doneLine = []
    ∧ (∀ (pre post : List (List Char)) (a b : List Char),
        (p.streamChat parse (serve (pre ++ [a ++ '\n' :: (doneLine ++ '\n' :: b)] ++ post))
            apiKey messages modelId).events
          = (p.streamChat parse (serve (pre ++ [a ++ '\n' :: b] ++ post)) apiKey messages
              modelId).events)
    ∧ (∀ chunks more : List (List Char),
        (p.streamChat parse (serve (chunks ++ more)) apiKey messages modelId).events
          = (p.streamChat parse (serve chunks) apiKey messages modelId).events
            ++ (p.streamChat parse (serve more) apiKey messages modelId).events) := by
  have hs := doneLine_skipped p hp parse
  refine ⟨hs, ?_, ?_⟩
  · intro pre post a b
    rw [serve_events_decode p hp parse _ apiKey hk, serve_events_decode p hp parse _ apiKey hk]
    exact decodeChunks_insert _ pre post a b doneLine (by decide) hs
  · intro chunks more
    rw [serve_events_decode p hp parse _ apiKey hk, serve_events_decode p hp parse _ apiKey hk,
      serve_events_decode p hp parse _ apiKey hk]
    exact decodeChunks_append _ chunks more

/-- Witness for C13: the Groq adapter on `data: [DONE]` followed, in a later
chunk, by a well-formed frame. -/
theorem done_marker_skipped_witness :
    Provider.groq.isEventStream = true
    ∧ truthy someKey = true
    ∧ (Provider.groq.streamChat JSON.parse
        (serve ([wholeLines [doneLine]] ++ [wholeLines [validLine Provider.groq 'A']]))
        someKey hiConversation none).events
      = (Provider.groq.streamChat JSON.parse (serve [wholeLines [doneLine]]) someKey
          hiConversation none).events
        ++ (Provider.groq.streamChat JSON.parse
          (serve [wholeLines [validLine Provider.groq 'A']]) someKey hiConversation
          none).events :=
  ⟨by rfl, by decide,
    (done_marker_skipped Provider.groq (by rfl) JSON.parse someKey (by decide) hiConversation
      none).2.2 _ _⟩

/-! ### C14: the Gemini request body -/

theorem gemini_fetches (parse : List Char → Option Json) (fetch : Request → FetchResult)
    (apiKey : JsVal) (hk : truthy apiKey = true) (messages : List Message)
    (modelId : Option (List Char)) :
    (GeminiClient.streamChat parse fetch apiKey messages modelId).fetches.map Request.body
      = [Json.obj [("contents".toList, geminiContents messages)]] := by
  unfold GeminiClient.streamChat
  simp only [hk, Bool.not_true, Bool.false_eq_true, if_false]
  split
  · rfl
  · split
    · rfl
    · split <;> rfl

/-- C14: the Gemini request body maps the conversation turn by turn.  With a
credential present the adapter makes one request whose body is
`{contents}`; `contents` has the length of the conversation and its i-th
entry is built from the i-th turn: role `model` exactly when the turn's role
is `assistant` and `user` otherwise, and the single part `{text: content}`. -/
theorem gemini_contents_map (parse : List Char → Option Json) (fetch : Request → FetchResult)
    (apiKey : JsVal) (hk : truthy apiKey = true) (messages : List Message)
    (modelId : Option (List Char)) :
    ∃ contents : List Json,
      (GeminiClient.streamChat parse fetch apiKey messages modelId).fetches.map Request.body
        = [Json.obj [("contents".toList, Json.arr contents)]]
      ∧ contents.length = messages.length
      ∧ ∀ (i : Nat) (m : Message), messages[i]? = some m →
          ∃ role : List Char, contents[i]? = some (geminiEntry role m.content)
            ∧ (role = "model".toList ↔ m.role = "assistant".toList)
            ∧ (role = "user".toList ↔ m.role ≠ "assistant".toList) := by
  refine ⟨messages.map (fun m =>
      geminiEntry (if m.role = "assistant".toList then "model".toList else "user".toList)
        m.content), ?_, by simp, ?_⟩
  · rw [gemini_fetches parse fetch apiKey hk messages modelId]
    rfl
  · intro i m hm
    refine ⟨if m.role = "assistant".toList then "model".toList else "user".toList, ?_, ?_, ?_⟩
    · simp [List.getElem?_map, hm]
    · by_cases h : m.role = "assistant".toList
      · simp [h]
      · simp [h]
    · by_cases h : m.role = "assistant".toList
      · simp [h]
      · simp [h]

/-- Witness for C14: a conversation of three turns, looked up at the
assistant turn. -/
theorem gemini_contents_map_witness :
    truthy someKey = true
    ∧ ∃ contents : List Json,
      (GeminiClient.streamChat JSON.parse (serve []) someKey threeTurns none).fetches.map
          Request.body = [Json.obj [("contents".toList, Json.arr contents)]]
      ∧ contents.length = threeTurns.length
      ∧ ∀ (i : Nat) (m : Message), threeTurns[i]? = some m →
          ∃ role : List Char, contents[i]? = some (geminiEntry role m.content)
            ∧ (role = "model".toList ↔ m.role = "assistant".toList)
            ∧ (role = "user".toList ↔ m.role ≠ "assistant".toList) :=
  ⟨by decide, gemini_contents_map JSON.parse (serve []) someKey (by decide) threeTurns none⟩

/-! ### C15: the message of a failed initial response -/

/-- C15 (the code at the failing input): when the body of a non-OK response
is not JSON, `response.json()` rejects and `streamChat` rejects with the
message of that parse failure, not with the fixed text `<Provider> API
Error`; when the body is the JSON value `null`, it rejects with the message of
the `TypeError` raised by `err.error`.  No `onChunk` call is made.  A body
carrying `error.message` gives that message and an empty object gives the
fixed text, as the claim says. -/
theorem unparseable_error_body_message :
    ((OpenAIClient.streamChat JSON.parse (refuse (Except.error htmlBodyError)) someKey
          hiConversation none).result = Except.error htmlBodyError
      ∧ (GroqClient.streamChat JSON.parse (refuse (Except.error htmlBodyError)) someKey
          hiConversation none).result = Except.error htmlBodyError
      ∧ (GeminiClient.streamChat JSON.parse (refuse (Except.error htmlBodyError)) someKey
          hiConversation none).result = Except.error htmlBodyError)
    ∧ (htmlBodyError ≠ "OpenAI API Error".toList ∧ htmlBodyError ≠ "Groq API Error".toList
      ∧ htmlBodyError ≠ "Gemini API Error".toList)
    ∧ ((OpenAIClient.streamChat JSON.parse (refuse (Except.ok Json.null)) someKey
          hiConversation none).result = Except.error nullErrorRead
      ∧ nullErrorRead ≠ "OpenAI API Error".toList)
    ∧ ((OpenAIClient.streamChat JSON.parse (refuse (Except.error htmlBodyError)) someKey
          hiConversation none).events = []
      ∧ (OpenAIClient.streamChat JSON.parse (refuse (Except.ok Json.null)) someKey
          hiConversation none).events = [])
    ∧ ((OpenAIClient.streamChat JSON.parse (refuse (Except.ok rateLimitBody)) someKey
          hiConversation none).result = Except.error "Rate limit reached".toList
      ∧ (OpenAIClient.streamChat JSON.parse (refuse (Except.ok (Json.obj []))) someKey
          hiConversation none).result = Except.error "OpenAI API Error".toList) :=
  ⟨⟨by rfl, by rfl, by rfl⟩, ⟨by decide, by decide, by decide⟩, ⟨by rfl, by decide⟩,
    ⟨by rfl, by rfl⟩, ⟨by rfl, by rfl⟩⟩

/-! ### C19: the discovery cache -/

theorem fetchModels_eq_discover (k : Discoverable) (get : ModelsRequest → FetchResult)
    (nowCheck nowStore : Int) (apiKey : JsVal)
    (hk : k = Discoverable.groq → truthy apiKey = true) (cache : ModelCache) :
    ModelService.fetchModels k get nowCheck nowStore apiKey cache
      = discover k get nowCheck nowStore (k.credential apiKey) cache := by
  cases k with
  | groq =>
    simp [ModelService.fetchModels, ModelService.fetchGroqModels, hk rfl,
      Discoverable.credential]
  | ollama => rfl
  | lmstudio => rfl

theorem discoveryRequest_key (k : Discoverable) (apiKey : JsVal) :
    discoveryRequest k (k.credential apiKey) = discoveryRequest k apiKey := by
  cases k <;> rfl

theorem entry_setEntry (c : ModelCache) (k : Discoverable) (e : CacheEntry) :
    (c.setEntry k e).entry k = e := by
  cases k <;> rfl

theorem entry_setEntry_other (c : ModelCache) (k k1 : Discoverable) (e : CacheEntry)
    (h : k1 ≠ k) : (c.setEntry k e).entry k1 = c.entry k1 := by
  cases k <;> cases k1 <;> first | rfl | exact absurd rfl h

theorem extra_setEntry (c : ModelCache) (k : Discoverable) (e : CacheEntry) :
    (c.setEntry k e).extra = c.extra := by
  cases k <;> rfl

theorem discover_hit (k : Discoverable) (get : ModelsRequest → FetchResult)
    (nowCheck nowStore : Int) (apiKey : JsVal) (cache : ModelCache) (models : List ModelInfo)
    (h : cacheHit (cache.entry k) nowCheck = some models) :
    discover k get nowCheck nowStore apiKey cache
      = { result := models, cache := cache, requests := [] } := by
  simp [discover, h]

theorem discover_miss_requests (k : Discoverable) (get : ModelsRequest → FetchResult)
    (nowCheck nowStore : Int) (apiKey : JsVal) (cache : ModelCache)
    (h : cacheHit (cache.entry k) nowCheck = none) :
    (discover k get nowCheck nowStore apiKey cache).requests = [discoveryRequest k apiKey] := by
  simp only [discover, h]
  split
  · rfl
  · split
    · rfl
    · split
      · rfl
      · split <;> rfl

theorem discover_frame (k : Discoverable) (get : ModelsRequest → FetchResult)
    (nowCheck nowStore : Int) (apiKey : JsVal) (cache : ModelCache) :
    (∀ k1 : Discoverable, k1 ≠ k →
      (discover k get nowCheck nowStore apiKey cache).cache.entry k1 = cache.entry k1)
    ∧ (discover k get nowCheck nowStore apiKey cache).cache.extra = cache.extra := by
  simp only [discover]
  split
  · exact ⟨fun _ _ => rfl, rfl⟩
  · split
    · exact ⟨fun _ _ => rfl, rfl⟩
    · split
      · exact ⟨fun _ _ => rfl, rfl⟩
      · split
        · exact ⟨fun _ _ => rfl, rfl⟩
        · split
          · exact ⟨fun _ _ => rfl, rfl⟩
          · exact ⟨fun k1 h1 => entry_setEntry_other _ _ _ _ h1, extra_setEntry _ _ _⟩

theorem discover_own_entry (k : Discoverable) (get : ModelsRequest → FetchResult)
    (nowCheck nowStore : Int) (apiKey : JsVal) (c1 c2 : ModelCache)
    (h : c1.entry k = c2.entry k) :
    (discover k get nowCheck nowStore apiKey c1).result
        = (discover k get nowCheck nowStore apiKey c2).result
    ∧ (discover k get nowCheck nowStore apiKey c1).requests
        = (discover k get nowCheck nowStore apiKey c2).requests := by
  simp only [discover, h]
  split
  · exact ⟨rfl, rfl⟩
  · split
    · exact ⟨rfl, rfl⟩
    · split
      · exact ⟨rfl, rfl⟩
      · split
        · exact ⟨rfl, rfl⟩
        · split <;> exact ⟨rfl, rfl⟩

theorem discover_success (k : Discoverable) (get : ModelsRequest → FetchResult)
    (nowCheck nowStore : Int) (apiKey : JsVal) (cache : ModelCache) (r : Response)
    (data : Json) (models : List ModelInfo)
    (hmiss : cacheHit (cache.entry k) nowCheck = none)
    (hget : get (discoveryRequest k apiKey) = FetchResult.response r) (hok : r.ok = true)
    (hjson : r.json = Except.ok data) (hbuild : buildModels k data = some models) :
    discover k get nowCheck nowStore apiKey cache
      = { result := models,
          cache := cache.setEntry k { models := some models, timestamp := some nowStore },
          requests := [discoveryRequest k apiKey] } := by
  simp [discover, hmiss, hget, hok, hjson, hbuild]

theorem cacheHit_stored (models : List ModelInfo) (t0 t : Int) :
    (t - t0 < 300000 →
      cacheHit { models := some models, timestamp := some t0 } t = some models)
    ∧ (t - t0 ≥ 300000 →
      cacheHit { models := some models, timestamp := some t0 } t = none) := by
  have hd : CACHE_DURATION = 300000 := by decide
  constructor
  · intro h
    simp [cacheHit, hd, h]
  · intro h
    have : ¬ (t - t0 < 300000) := by omega
    simp [cacheHit, hd, this]

/-- C19: model discovery is cached for 5 minutes per provider.  After a
discovery call for a provider (for Groq: made with a credential) that missed
the cache, reached the network and got the list `M`, stored at time `t0`,
every later call for that provider (for Groq: with a credential) at time `t`
returns `M` without a network request and leaves the cache as it is when
`t - t0 < 300000`, also when `M` is empty, and makes exactly one network
request when `t - t0 >= 300000`, whatever happened to the entries of the other
providers in between.  The call changes no entry of another provider, and the
list and requests of a call depend on no entry but the provider's own. -/
theorem discovery_cached (k : Discoverable) (get get1 : ModelsRequest → FetchResult)
    (apiKey apiKey1 : JsVal) (hk : k = Discoverable.groq → truthy apiKey = true)
    (hk1 : k = Discoverable.groq → truthy apiKey1 = true) (cache : ModelCache)
    (tc t0 : Int) (r : Response) (data : Json) (M : List ModelInfo)
    (hmiss : cacheHit (cache.entry k) tc = none)
    (hget : get (discoveryRequest k apiKey) = FetchResult.response r) (hok : r.ok = true)
    (hjson : r.json = Except.ok data) (hbuild : buildModels k data = some M) :
    (ModelService.fetchModels k get tc t0 apiKey cache).result = M
    ∧ (ModelService.fetchModels k get tc t0 apiKey cache).requests = [discoveryRequest k apiKey]
    ∧ (∀ (c : ModelCache) (t t1 : Int),
        c.entry k = (ModelService.fetchModels k get tc t0 apiKey cache).cache.entry k →
        (t - t0 < 300000 →
          ModelService.fetchModels k get1 t t1 apiKey1 c
            = { result := M, cache := c, requests := [] })
        ∧ (t - t0 ≥ 300000 →
          (ModelService.fetchModels k get1 t t1 apiKey1 c).requests
            = [discoveryRequest k apiKey1]))
    ∧ (∀ k1 : Discoverable, k1 ≠ k →
        (ModelService.fetchModels k get tc t0 apiKey cache).cache.entry k1 = cache.entry k1)
    ∧ (∀ (c1 c2 : ModelCache) (t t1 : Int), c1.entry k = c2.entry k →
        (ModelService.fetchModels k get1 t t1 apiKey1 c1).result
            = (ModelService.fetchModels k get1 t t1 apiKey1 c2).result
        ∧ (ModelService.fetchModels k get1 t t1 apiKey1 c1).requests
            = (ModelService.fetchModels k get1 t t1 apiKey1 c2).requests) := by
  have hget1 : get (discoveryRequest k (k.credential apiKey)) = FetchResult.response r := by
    rw [discoveryRequest_key]
    exact hget
  have h0 := discover_success k get tc t0 _ cache r data M hmiss hget1 hok hjson hbuild
  rw [discoveryRequest_key] at h0
  rw [fetchModels_eq_discover k get tc t0 apiKey hk cache, h0]
  refine ⟨rfl, rfl, ?_, ?_, ?_⟩
  · intro c t t1 hc
    rw [entry_setEntry] at hc
    rw [fetchModels_eq_discover k get1 t t1 apiKey1 hk1 c]
    constructor
    · intro ht
      apply discover_hit
      rw [hc]
      exact (cacheHit_stored M t0 t).1 ht
    · intro ht
      rw [discover_miss_requests, discoveryRequest_key]
      rw [hc]
      exact (cacheHit_stored M t0 t).2 ht
  · intro k1 h1
    exact entry_setEntry_other _ _ _ _ h1
  · intro c1 c2 t t1 hc
    rw [fetchModels_eq_discover k get1 t t1 apiKey1 hk1 c1,
      fetchModels_eq_discover k get1 t t1 apiKey1 hk1 c2]
    exact discover_own_entry k get1 t t1 _ c1 c2 hc

/-- Witness for C19: an Ollama without models answers at time 1000; a call
299999 ms after the list was stored is served from the cache although the
transport is then down. -/
theorem discovery_cached_witness :
    cacheHit (ModelCache.init.entry Discoverable.ollama) 900 = none
    ∧ buildModels Discoverable.ollama noModelsBody = some []
    ∧ ModelService.fetchModels Discoverable.ollama offline (1000 + 299999) (1000 + 300005) none
        ((ModelService.fetchModels Discoverable.ollama (serveModels noModelsBody) 900 1000 none
          ModelCache.init).cache)
      = { result := [],
          cache := (ModelService.fetchModels Discoverable.ollama (serveModels noModelsBody) 900
            1000 none ModelCache.init).cache,
          requests := [] } :=
  ⟨by rfl, by rfl,
    ((discovery_cached Discoverable.ollama (serveModels noModelsBody) offline none none
      (fun h => by cases h) (fun h => by cases h) ModelCache.init 900 1000
      { ok := true, json := Except.ok noModelsBody, chunks := [], readError := none }
      noModelsBody [] (by rfl) (by rfl) (by rfl) (by rfl) (by rfl)).2.2.1 _
        (1000 + 299999) (1000 + 300005) rfl).1 (by decide)⟩

/-! ### C20: clearing the discovery cache -/

theorem clearCache_known (k : Discoverable) (c : ModelCache) :
    ModelService.clearCache (some (Json.str k.key)) c = c.setEntry k CacheEntry.empty := by
  cases k <;> rfl

/-- C20: `clearCache(provider)` for `groq`, `ollama` or `lmstudio` resets that
provider's entry to `{models: null, timestamp: null}` and leaves every other
entry unchanged, so the next discovery call for that provider (for Groq: made
with a credential) performs a network request whatever the time; `clearCache()`
without argument resets every entry. -/
theorem clearCache_resets (k : Discoverable) (c : ModelCache)
    (get : ModelsRequest → FetchResult) (t t1 : Int) (apiKey : JsVal)
    (hk : k = Discoverable.groq → truthy apiKey = true) :
    (ModelService.clearCache (some (Json.str k.key)) c).entry k = CacheEntry.empty
    ∧ (∀ k1 : Discoverable, k1 ≠ k →
        (ModelService.clearCache (some (Json.str k.key)) c).entry k1 = c.entry k1)
    ∧ (ModelService.clearCache (some (Json.str k.key)) c).extra = c.extra
    ∧ (ModelService.fetchModels k get t t1 apiKey
          (ModelService.clearCache (some (Json.str k.key)) c)).requests
        = [discoveryRequest k apiKey]
    ∧ (∀ k1 : Discoverable, (ModelService.clearCache none c).entry k1 = CacheEntry.empty)
    ∧ (∀ p ∈ (ModelService.clearCache none c).extra, p.2 = CacheEntry.empty)
    ∧ (ModelService.clearCache none c).extra.map Prod.fst = c.extra.map Prod.fst := by
  rw [clearCache_known]
  refine ⟨entry_setEntry _ _ _, fun k1 h1 => entry_setEntry_other _ _ _ _ h1,
    extra_setEntry _ _ _, ?_, ?_, ?_, ?_⟩
  · rw [fetchModels_eq_discover k get t t1 apiKey hk, discover_miss_requests,
      discoveryRequest_key]
    rw [entry_setEntry]
    rfl
  · intro k1
    cases k1 <;> rfl
  · intro p hp
    simp only [ModelService.clearCache, truthy, Bool.false_eq_true, if_false,
      ModelCache.clearAll, List.mem_map] at hp
    obtain ⟨q, _, hq⟩ := hp
    rw [← hq]
  · simp [ModelService.clearCache, truthy, ModelCache.clearAll]

/-- Witness for C20: the Groq entry of a filled cache is cleared; the next
Groq call goes to the network although the old entry was 1 ms old. -/
theorem clearCache_resets_witness :
    truthy someKey = true
    ∧ (ModelService.clearCache (some (Json.str "groq".toList)) filledCache).ollama
        = filledCache.ollama
    ∧ (ModelService.fetchModels Discoverable.groq offline 11 12 someKey
          (ModelService.clearCache (some (Json.str Discoverable.groq.key)) filledCache)).requests
        = [discoveryRequest Discoverable.groq someKey]
    ∧ (ModelService.fetchModels Discoverable.groq offline 11 12 someKey filledCache).requests
        = [] :=
  ⟨by decide, by rfl,
    (clearCache_resets Discoverable.groq filledCache offline 11 12 someKey
      (fun _ => by decide)).2.2.2.1,
    by rfl⟩

/-! ### `handleSendMessage` on a send that reaches the adapter -/

theorem handleSendMessage_ready (env : SendEnv) (st : AppState) (client : Client)
    (h : SendReady st client) :
    handleSendMessage env st
      = match (sendRun env st client).result with
        | Except.error message =>
          { state := failSend env (stateBeforeStream env st) message,
            searchRequests := (searchStep env st).1,
            adapterCalls := [sendCall env st client],
            adapterFetches := (sendRun env st client).fetches,
            loadingCalls := [true, false],
            updates := (aggregate (sendRun env st client).events).updates }
        | Except.ok _ =>
          { state := completeStream env (stateBeforeStream env st)
              (aggregate (sendRun env st client).events),
            searchRequests := (searchStep env st).1,
            adapterCalls := [sendCall env st client],
            adapterFetches := (sendRun env st client).fetches,
            loadingCalls := [true, false],
            updates := (aggregate (sendRun env st client).events).updates } := by
  obtain ⟨h1, h2, h3, h4, h5, h6⟩ := h
  have hkey : (keyedProviders.contains st.selectedProvider
      && !truthy (st.apiKeys.get st.selectedProvider)) = false := by
    cases hc : keyedProviders.contains st.selectedProvider with
    | false => rfl
    | true => simp [h5 hc]
  unfold handleSendMessage
  simp only [h1, h2, h3, h4, hkey, h6, Bool.or_self, Bool.false_eq_true, if_false]
  rfl

/-! ### C18: one send in flight -/

/-- C18: while the in-flight flag `isLoading` is set, `handleSendMessage`
returns at once: the state is unchanged and no message is added, no search
and no adapter call is made.  Every call that sets the flag (its first
`setIsLoading` call is `setIsLoading(true)`) ends with `setIsLoading(false)`
and leaves the flag cleared, on every path; a call on a non-blank input with
the flag clear does set it. -/
theorem single_send_in_flight (env : SendEnv) (st : AppState) :
    (st.isLoading = true → handleSendMessage env st = idleResult st)
    ∧ ((handleSendMessage env st).loadingCalls = []
          ∧ handleSendMessage env st = idleResult st
        ∨ (handleSendMessage env st).loadingCalls.head? = some true
          ∧ (handleSendMessage env st).loadingCalls.getLast? = some false
          ∧ (handleSendMessage env st).state.isLoading = false)
    ∧ ((jsTrim st.input).isEmpty = false → st.isLoading = false →
        (handleSendMessage env st).loadingCalls.head? = some true) := by
  refine ⟨?_, ?_, ?_⟩
  · intro h
    simp [handleSendMessage, h, idleResult]
  · unfold handleSendMessage
    split
    · exact Or.inl ⟨rfl, rfl⟩
    · right
      dsimp only
      split
      · exact ⟨rfl, rfl, rfl⟩
      · split
        · exact ⟨rfl, rfl, rfl⟩
        · split
          · exact ⟨rfl, rfl, rfl⟩
          · split
            · exact ⟨rfl, rfl, rfl⟩
            · refine ⟨rfl, rfl, ?_⟩
              simp only [completeStream]
              split <;> rfl
  · intro h1 h2
    unfold handleSendMessage
    simp only [h1, h2, Bool.or_self, Bool.false_eq_true, if_false]
    split
    · rfl
    · split
      · rfl
      · split
        · rfl
        · split <;> rfl

/-- Witness for C18: a second send while the first is in flight, and a send
with the flag clear. -/
theorem single_send_in_flight_witness :
    ({ readyState with isLoading := true } : AppState).isLoading = true
    ∧ handleSendMessage (testEnv unreachable) { readyState with isLoading := true }
        = idleResult { readyState with isLoading := true }
    ∧ (handleSendMessage (testEnv unreachable) readyState).loadingCalls.head? = some true :=
  ⟨rfl,
    (single_send_in_flight (testEnv unreachable) { readyState with isLoading := true }).1 rfl,
    (single_send_in_flight (testEnv unreachable) readyState).2.2 (by decide) rfl⟩

/-! ### C16: no partial commit on failure -/

/-- C16: if `streamChat` rejects with message `m`, after any number of
events, `handleSendMessage` appends to the transcript exactly the user
message followed by one assistant message `Error: m` whose thinking text,
token count and duration are `null`; it adds no artifact, calls the adapter
once, and ends with the in-flight flag cleared.  The callback's setter calls
made before the failure stay made. -/
theorem stream_failure_no_partial_commit (env : SendEnv) (st : AppState) (client : Client)
    (m : List Char) (hready : SendReady st client)
    (hfail : (sendRun env st client).result = Except.error m) :
    (handleSendMessage env st).state.messages
        = st.messages ++ [sentMessage env st, errorMessage env m]
    ∧ ((errorMessage env m).role = "assistant".toList
      ∧ (errorMessage env m).content = "Error: ".toList ++ m
      ∧ (errorMessage env m).thinking = Json.null
      ∧ (errorMessage env m).thinkingTokens = Json.null
      ∧ (errorMessage env m).duration = Json.null)
    ∧ (handleSendMessage env st).state.artifacts = st.artifacts
    ∧ (handleSendMessage env st).state.currentArtifactId = st.currentArtifactId
    ∧ (handleSendMessage env st).state.isLoading = false
    ∧ (handleSendMessage env st).loadingCalls = [true, false]
    ∧ (handleSendMessage env st).adapterCalls = [sendCall env st client]
    ∧ (handleSendMessage env st).updates
        = (aggregate (sendRun env st client).events).updates := by
  rw [handleSendMessage_ready env st client hready, hfail]
  refine ⟨?_, ⟨rfl, rfl, rfl, rfl, rfl⟩, rfl, rfl, rfl, rfl, rfl, rfl⟩
  simp [failSend, stateBeforeStream, addMessage, sentMessage, errorMessage]

theorem readyState_ready : SendReady readyState ollamaClient :=
  ⟨by decide, rfl, by decide, by decide, fun h => absurd h (by decide), rfl⟩

/-- Witness for C16: the stream delivers the event `A` and then breaks. -/
theorem stream_failure_no_partial_commit_witness :
    (sendRun (testEnv breaking) readyState ollamaClient).events
        = [chunkCall (Json.str "A".toList) false]
    ∧ (sendRun (testEnv breaking) readyState ollamaClient).result
        = Except.error "network error".toList
    ∧ (handleSendMessage (testEnv breaking) readyState).state.messages
        = readyState.messages
          ++ [sentMessage (testEnv breaking) readyState,
              errorMessage (testEnv breaking) "network error".toList] :=
  ⟨by rfl, by rfl,
    (stream_failure_no_partial_commit (testEnv breaking) readyState ollamaClient
      "network error".toList readyState_ready (by rfl)).1⟩

/-! ### C17: a failed search does not stop the send -/

theorem adapterCalls_of_no_context (env : SendEnv) (st : AppState) (client : Client)
    (hready : SendReady st client) (hctx : (searchStep env st).2 = []) :
    (handleSendMessage env st).adapterCalls = [plainCall st client] := by
  rw [handleSendMessage_ready env st client hready]
  have hc : sendCall env st client = plainCall st client := by
    simp [sendCall, plainCall, hctx, userTurn, plainTurn]
  split <;> simp [hc]

theorem searchRequests_eq (env : SendEnv) (st : AppState) (client : Client)
    (hready : SendReady st client) :
    (handleSendMessage env st).searchRequests = (searchStep env st).1 := by
  rw [handleSendMessage_ready env st client hready]
  split <;> rfl

/-- C17: a failed search is not fatal.  On a send that reaches the adapter:
if the search is enabled with a credential and the search call rejects, or
resolves with a value whose `results` cannot be mapped, the adapter is called
exactly once and the last turn it receives is `{role: 'user', content: <the
user message>}` with nothing appended; the same holds when the search is
disabled or its credential is not set, and then no search request is made. -/
theorem search_failure_non_fatal (env : SendEnv) (st : AppState) (client : Client)
    (hready : SendReady st client) :
    (∀ m : List Char, st.isSearchEnabled = true → st.apiKeys.tavily ≠ [] →
      (TavilyClient.search env.fetch (some (Json.str st.apiKeys.tavily)) st.input).result
        = Except.error m →
      (handleSendMessage env st).adapterCalls = [plainCall st client]
      ∧ (handleSendMessage env st).searchRequests
          = (TavilyClient.search env.fetch (some (Json.str st.apiKeys.tavily))
              st.input).requests)
    ∧ (∀ v : Json, st.isSearchEnabled = true → st.apiKeys.tavily ≠ [] →
      (TavilyClient.search env.fetch (some (Json.str st.apiKeys.tavily)) st.input).result
        = Except.ok v →
      searchContextOf env.stringify v = none →
      (handleSendMessage env st).adapterCalls = [plainCall st client])
    ∧ ((st.isSearchEnabled = false ∨ st.apiKeys.tavily = []) →
      (handleSendMessage env st).adapterCalls = [plainCall st client]
      ∧ (handleSendMessage env st).searchRequests = [])
    ∧ (plainCall st client).messages.getLast? = some (plainTurn st.input)
    ∧ (plainCall st client).messages.dropLast = st.messages.map ChatMessage.toTurn := by
  refine ⟨?_, ?_, ?_, by simp [plainCall], by simp [plainCall]⟩
  · intro m hen hkey hres
    have hs : searchStep env st
        = ((TavilyClient.search env.fetch (some (Json.str st.apiKeys.tavily))
            st.input).requests, []) := by
      have ht : truthy (some (Json.str st.apiKeys.tavily)) = true := by
        cases hk : st.apiKeys.tavily with
        | nil => exact absurd hk hkey
        | cons c cs => rfl
      simp only [searchStep, hen, ht, Bool.and_self, if_true, hres]
    refine ⟨adapterCalls_of_no_context env st client hready (by rw [hs]), ?_⟩
    rw [searchRequests_eq env st client hready, hs]
  · intro v hen hkey hres hctx
    have hs : (searchStep env st).2 = [] := by
      have ht : truthy (some (Json.str st.apiKeys.tavily)) = true := by
        cases hk : st.apiKeys.tavily with
        | nil => exact absurd hk hkey
        | cons c cs => rfl
      simp only [searchStep, hen, ht, Bool.and_self, if_true, hres, hctx]
    exact adapterCalls_of_no_context env st client hready hs
  · intro hoff
    have hs : searchStep env st = ([], []) := by
      rcases hoff with h | h
      · simp [searchStep, h]
      · simp [searchStep, h, truthy, Json.truthy]
    refine ⟨adapterCalls_of_no_context env st client hready (by rw [hs]), ?_⟩
    rw [searchRequests_eq env st client hready, hs]

/-- Witness for C17: the search is enabled with a key and the transport is
down; the adapter is still called, with the plain user turn. -/
theorem search_failure_non_fatal_witness :
    readyState.isSearchEnabled = true
    ∧ readyState.apiKeys.tavily ≠ []
    ∧ (TavilyClient.search (testEnv unreachable).fetch (some (Json.str readyState.apiKeys.tavily))
        readyState.input).result = Except.error "Failed to fetch".toList
    ∧ (handleSendMessage (testEnv unreachable) readyState).adapterCalls
        = [plainCall readyState ollamaClient]
    ∧ (handleSendMessage (testEnv unreachable) readyState).searchRequests.length = 1 :=
  ⟨rfl, by decide, by rfl,
    ((search_failure_non_fatal (testEnv unreachable) readyState ollamaClient
      readyState_ready).1 "Failed to fetch".toList rfl (by decide) (by rfl)).1,
    by rfl⟩

/-! ### C12: the stored reasoning-token count -/

theorem getLast_filter_truthy (xs : List Json) (v : Json)
    (h : (xs.filter Json.truthy).getLast? = some v) : v.truthy = true := by
  have hm : v ∈ xs.filter Json.truthy := List.mem_of_getLast?_eq_some h
  exact (List.mem_filter.1 hm).2

theorem captured_null_or_truthy (es : List ChunkEvent) :
    (aggregate es).thinkingTokens = Json.null ∨ (aggregate es).thinkingTokens.truthy = true := by
  rw [aggregate_thinkingTokens, lastTruthyCount, truthyCounts]
  cases h : ((es.filterMap ChunkEvent.thinkingTokens).filter Json.truthy).getLast? with
  | none => exact Or.inl rfl
  | some v => exact Or.inr (getLast_filter_truthy _ v h)

theorem utf16Units_ne_nil (c : Char) : utf16Units c ≠ [] := by
  unfold utf16Units
  split <;> simp

theorem jsLength_ne_zero (s : List Char) (h : s ≠ []) : jsLength s ≠ 0 := by
  cases s with
  | nil => exact absurd rfl h
  | cons c cs =>
    intro h0
    have hnil : utf16Units c ++ toUtf16 cs = [] := List.length_eq_zero.1 h0
    exact utf16Units_ne_nil c (List.append_eq_nil.1 hnil).1

theorem completeStream_last (env : SendEnv) (st1 : AppState) (agg : StreamState) :
    ∃ (idNow timestampNow : Nat) (content : List Char) (duration : Json),
      (completeStream env st1 agg).messages.getLast?
        = some (newMessage idNow timestampNow "assistant".toList content
            (messageMetadataOf agg duration)) := by
  simp only [completeStream]
  split
  · exact ⟨_, _, _, _, List.getLast?_concat _⟩
  · exact ⟨_, _, _, _, List.getLast?_concat _⟩

/-- C12: when the completed stream produced non-empty reasoning text, the
assistant message stored last carries that text, and its reasoning-token
count is the captured count if one was captured and the length of the
reasoning text, `fullThinking.length` in UTF-16 code units, otherwise; it is
never `null` and never 0. -/
theorem reasoning_token_fallback (env : SendEnv) (st : AppState) (client : Client)
    (hready : SendReady st client)
    (hok : (sendRun env st client).result = Except.ok ())
    (hthink : (sendRun env st client).reasoningText ≠ []) :
    ∃ msg : ChatMessage,
      (handleSendMessage env st).state.messages.getLast? = some msg
      ∧ msg.role = "assistant".toList
      ∧ msg.thinking = Json.str (sendRun env st client).reasoningText
      ∧ ((sendRun env st client).capturedTokens ≠ Json.null →
          msg.thinkingTokens = (sendRun env st client).capturedTokens)
      ∧ ((sendRun env st client).capturedTokens = Json.null →
          msg.thinkingTokens = Json.num (jsLength (sendRun env st client).reasoningText))
      ∧ msg.thinkingTokens ≠ Json.null
      ∧ msg.thinkingTokens ≠ Json.num 0 := by
  rw [handleSendMessage_ready env st client hready, hok]
  dsimp only
  obtain ⟨idNow, timestampNow, content, duration, hlast⟩ :=
    completeStream_last env (stateBeforeStream env st) (aggregate (sendRun env st client).events)
  have hth : (aggregate (sendRun env st client).events).fullThinking ≠ [] := hthink
  have hlen : jsLength (aggregate (sendRun env st client).events).fullThinking ≠ 0 :=
    jsLength_ne_zero _ hth
  have hne : ((aggregate (sendRun env st client).events).fullThinking.isEmpty) = false := by
    cases h : (aggregate (sendRun env st client).events).fullThinking with
    | nil => exact absurd h hth
    | cons c cs => rfl
  refine ⟨_, hlast, rfl, ?_, ?_, ?_, ?_, ?_⟩
  · simp [newMessage, messageMetadataOf, hth, orNull, Json.truthy, hne, Run.reasoningText]
  · intro hcap
    have ht : (aggregate (sendRun env st client).events).thinkingTokens.truthy = true := by
      rcases captured_null_or_truthy (sendRun env st client).events with h | h
      · exact absurd h hcap
      · exact h
    simp [newMessage, messageMetadataOf, hth, orNull, ht, Run.capturedTokens]
  · intro hcap
    have hcap1 : (aggregate (sendRun env st client).events).thinkingTokens = Json.null := hcap
    have hnz : (jsLength (aggregate (sendRun env st client).events).fullThinking : Int) ≠ 0 := by
      exact_mod_cast hlen
    simp [newMessage, messageMetadataOf, hth, orNull, hcap1, Json.truthy, hnz,
      Run.reasoningText]
  · rcases captured_null_or_truthy (sendRun env st client).events with h | h
    · have hnz : (jsLength (aggregate (sendRun env st client).events).fullThinking : Int)
          ≠ 0 := by
        exact_mod_cast hlen
      simp [newMessage, messageMetadataOf, hth, orNull, h, Json.truthy, hnz]
    · simp only [newMessage, messageMetadataOf, hth, orNull, h, ne_eq, not_false_eq_true,
        if_true]
      intro hnull
      rw [hnull] at h
      simp [Json.truthy] at h
  · rcases captured_null_or_truthy (sendRun env st client).events with h | h
    · have hnz : (jsLength (aggregate (sendRun env st client).events).fullThinking : Int)
          ≠ 0 := by
        exact_mod_cast hlen
      simp [newMessage, messageMetadataOf, hth, orNull, h, Json.truthy, hnz]
    · simp only [newMessage, messageMetadataOf, hth, orNull, h, ne_eq, not_false_eq_true,
        if_true]
      intro hzero
      rw [hzero] at h
      simp [Json.truthy] at h

theorem openaiState_ready : SendReady openaiState openaiClient :=
  ⟨by decide, rfl, by decide, by decide, fun _ => by rfl, rfl⟩

/-- Witness for C12: a stream that delivers the reasoning text `hmm` and no
count; the stored count is the length 3.  For the reasoning text U+1F600, one
character of two code units, the stored count is 2. -/
theorem reasoning_token_fallback_witness :
    (sendRun (testEnv thinkingOnly) openaiState openaiClient).result = Except.ok ()
    ∧ (sendRun (testEnv thinkingOnly) openaiState openaiClient).reasoningText = "hmm".toList
    ∧ (sendRun (testEnv thinkingOnly) openaiState openaiClient).capturedTokens = Json.null
    ∧ jsLength (sendRun (testEnv thinkingOnly) openaiState openaiClient).reasoningText = 3
    ∧ (sendRun (testEnv thinkingEmoji) openaiState openaiClient).reasoningText
        = [Char.ofNat 0x1F600]
    ∧ jsLength (sendRun (testEnv thinkingEmoji) openaiState openaiClient).reasoningText = 2
    ∧ ((handleSendMessage (testEnv thinkingEmoji) openaiState).state.messages.getLast?).map
        ChatMessage.thinkingTokens = some (Json.num 2)
    ∧ ∃ msg : ChatMessage,
      (handleSendMessage (testEnv thinkingOnly) openaiState).state.messages.getLast? = some msg
      ∧ msg.role = "assistant".toList
      ∧ msg.thinking
          = Json.str (sendRun (testEnv thinkingOnly) openaiState openaiClient).reasoningText
      ∧ ((sendRun (testEnv thinkingOnly) openaiState openaiClient).capturedTokens ≠ Json.null →
          msg.thinkingTokens
            = (sendRun (testEnv thinkingOnly) openaiState openaiClient).capturedTokens)
      ∧ ((sendRun (testEnv thinkingOnly) openaiState openaiClient).capturedTokens = Json.null →
          msg.thinkingTokens
            = Json.num (jsLength (sendRun (testEnv thinkingOnly) openaiState
                openaiClient).reasoningText))
      ∧ msg.thinkingTokens ≠ Json.null
      ∧ msg.thinkingTokens ≠ Json.num 0 :=
  ⟨by rfl, by decide, by rfl, by decide, by decide, by decide, by rfl,
    reasoning_token_fallback (testEnv thinkingOnly) openaiState openaiClient openaiState_ready
      (by rfl) (by decide)⟩

/-! ### C21: replacing the content of an artifact -/

/-- C21: `updateArtifactContent(id, content)` yields an artifact list of the
same length in which the artifact at every position keeps its id, type,
language, title and createdAt; an artifact with the given id has its content
replaced, an artifact with another id is unchanged; when no artifact has the
id the list is unchanged. -/
theorem updateArtifactContent_frame (id content : List Char) (artifacts : List Artifact) :
    (updateArtifactContent id content artifacts).length = artifacts.length
    ∧ (∀ (i : Nat) (a : Artifact), artifacts[i]? = some a →
        ∃ b : Artifact, (updateArtifactContent id content artifacts)[i]? = some b
          ∧ b.id = a.id ∧ b.type = a.type ∧ b.language = a.language ∧ b.title = a.title
          ∧ b.createdAt = a.createdAt
          ∧ (a.id = id → b.content = content)
          ∧ (a.id ≠ id → b = a))
    ∧ ((∀ a ∈ artifacts, a.id ≠ id) → updateArtifactContent id content artifacts = artifacts) := by
  refine ⟨by simp [updateArtifactContent], ?_, ?_⟩
  · intro i a ha
    refine ⟨if a.id = id then { a with content := content } else a, ?_, ?_⟩
    · simp [updateArtifactContent, List.getElem?_map, ha]
    · by_cases h : a.id = id
      · simp [h]
      · simp [h]
  · intro h
    unfold updateArtifactContent
    conv_rhs => rw [← List.map_id artifacts]
    apply List.map_congr_left
    intro a ha
    simp [h a ha]

/-- Witness for C21: the content of the artifacts with the id `7` is replaced
in a list of three; the first artifact is looked up, and an id that matches
nothing leaves the list as it is. -/
theorem updateArtifactContent_frame_witness :
    threeArtifacts[0]? = some
        { type := "html".toList, language := "html".toList, content := "A".toList,
          title := "HTML Preview".toList, id := "7".toList, createdAt := 7 }
    ∧ (updateArtifactContent "7".toList "new".toList threeArtifacts).map Artifact.content
        = ["new".toList, "B".toList, "new".toList]
    ∧ (∀ a ∈ threeArtifacts, a.id ≠ "9".toList)
    ∧ updateArtifactContent "9".toList "new".toList threeArtifacts = threeArtifacts
    ∧ ∃ b : Artifact, (updateArtifactContent "7".toList "new".toList threeArtifacts)[0]? = some b
          ∧ b.id = "7".toList ∧ b.type = "html".toList ∧ b.language = "html".toList
          ∧ b.title = "HTML Preview".toList ∧ b.createdAt = 7
          ∧ ("7".toList = "7".toList → b.content = "new".toList)
          ∧ ("7".toList ≠ "7".toList → b =
              { type := "html".toList, language := "html".toList, content := "A".toList,
                title := "HTML Preview".toList, id := "7".toList, createdAt := 7 }) :=
  ⟨rfl, by decide, by decide,
    (updateArtifactContent_frame "9".toList "new".toList threeArtifacts).2.2 (by decide),
    (updateArtifactContent_frame "7".toList "new".toList threeArtifacts).2.1 0 _ rfl⟩

/-! ### C22: the identity of an artifact -/

/-- C22 (as stated, refuted): two `addArtifact` calls that read the same
clock value give both artifacts the id `17`, so the ids of the list are not
pairwise distinct.  `getArtifact("17")` returns the newer artifact only; the
placeholder tokens of the two artifacts are the same text, and
`updateArtifactContent("17", ...)` replaces the content of both. -/
theorem artifact_ids_collide :
    (addArtifacts readyState sameMillisecond).artifacts.map Artifact.id
        = ["17".toList, "17".toList]
    ∧ ¬ ((addArtifacts readyState sameMillisecond).artifacts.map Artifact.id).Nodup
    ∧ (addArtifacts readyState sameMillisecond).artifacts.map Artifact.content
        = ["B".toList, "A".toList]
    ∧ (getArtifact (addArtifacts readyState sameMillisecond).artifacts "17".toList).map
        Artifact.content = some "B".toList
    ∧ placeholder (newArtifactId 17) (htmlArtifact "A".toList)
        = placeholder (newArtifactId 17) (htmlArtifact "B".toList)
    ∧ (updateArtifactContent "17".toList "new".toList
          (addArtifacts readyState sameMillisecond).artifacts).map Artifact.content
        = ["new".toList, "new".toList] := by
  exact ⟨by decide, by decide, by decide, by decide, by decide, by decide⟩

theorem digitChar_value (k : Nat) (h : k < 10) : (Nat.digitChar k).toNat - 48 = k := by
  interval_cases k <;> rfl

theorem toDigitsCore_value (fuel : Nat) :
    ∀ (n : Nat) (ds : List Char), n < fuel →
      (Nat.toDigitsCore 10 fuel n ds).foldl (fun acc c => 10 * acc + (c.toNat - 48)) 0
        = ds.foldl (fun acc c => 10 * acc + (c.toNat - 48)) n := by
  induction fuel with
  | zero => intro n ds h; omega
  | succ f ih =>
    intro n ds h
    unfold Nat.toDigitsCore
    dsimp only
    have hd : (Nat.digitChar (n % 10)).toNat - 48 = n % 10 :=
      digitChar_value _ (Nat.mod_lt _ (by decide))
    split
    · next h0 =>
      simp only [List.foldl_cons, hd]
      have : n % 10 = n := by omega
      simp [this]
    · next h0 =>
      rw [ih (n / 10) _ (by omega)]
      simp only [List.foldl_cons, hd]
      have : 10 * (n / 10) + n % 10 = n := Nat.div_add_mod n 10
      rw [this]

theorem digitsValue_natDigits (n : Nat) : digitsValue (natDigits n) = n := by
  unfold digitsValue natDigits Nat.repr Nat.toDigits
  simpa using toDigitsCore_value (n + 1) n [] (Nat.lt_succ_self n)

theorem natDigits_injective : Function.Injective natDigits := by
  intro a b h
  rw [← digitsValue_natDigits a, ← digitsValue_natDigits b, h]

theorem addArtifacts_artifacts (calls : List ArtifactCall) :
    ∀ st : AppState, (addArtifacts st calls).artifacts
      = (calls.reverse.map (fun c => newArtifact c.idNow c.createdNow c.data))
          ++ st.artifacts := by
  induction calls with
  | nil => intro st; rfl
  | cons c cs ih =>
    intro st
    have h := ih (addArtifact st c.idNow c.createdNow c.data)
    simp only [addArtifacts, List.foldl_cons] at h ⊢
    rw [h]
    simp [addArtifact]

theorem getArtifact_of_nodup (l : List Artifact) (h : (l.map Artifact.id).Nodup)
    (a : Artifact) (ha : a ∈ l) : getArtifact l a.id = some a := by
  induction l with
  | nil => simp at ha
  | cons b t ih =>
    rw [List.map_cons, List.nodup_cons] at h
    rcases List.mem_cons.1 ha with hab | hat
    · subst hab
      simp [getArtifact]
    · have hne : b.id ≠ a.id := by
        intro e
        apply h.1
        rw [e]
        exact List.mem_map_of_mem _ hat
      have hstep : getArtifact (b :: t) a.id = getArtifact t a.id := by
        simp [getArtifact, List.find?, hne]
      rw [hstep]
      exact ih h.2 hat

/-- C22 (amended): the id of an artifact is the decimal string of the clock
reading its `addArtifact` call takes.  For every sequence of `addArtifact`
calls whose readings are pairwise distinct, made on a list whose ids are
pairwise distinct and are none of the new ones, the ids of the resulting list
are pairwise distinct, and `getArtifact(id)` with the id of an artifact of the
list returns that artifact. -/
theorem artifact_ids_distinct (st : AppState) (calls : List ArtifactCall)
    (hclock : (calls.map ArtifactCall.idNow).Nodup)
    (hst : (st.artifacts.map Artifact.id).Nodup)
    (hfresh : ∀ c ∈ calls, newArtifactId c.idNow ∉ st.artifacts.map Artifact.id) :
    (addArtifacts st calls).artifacts.map Artifact.id
        = (calls.reverse.map (fun c => newArtifactId c.idNow)) ++ st.artifacts.map Artifact.id
    ∧ ((addArtifacts st calls).artifacts.map Artifact.id).Nodup
    ∧ (∀ a ∈ (addArtifacts st calls).artifacts,
        getArtifact (addArtifacts st calls).artifacts a.id = some a) := by
  have hids : (addArtifacts st calls).artifacts.map Artifact.id
      = (calls.reverse.map (fun c => newArtifactId c.idNow))
          ++ st.artifacts.map Artifact.id := by
    rw [addArtifacts_artifacts]
    simp [newArtifact, Function.comp_def]
  have hnodup : ((addArtifacts st calls).artifacts.map Artifact.id).Nodup := by
    rw [hids, List.nodup_append]
    refine ⟨?_, hst, ?_⟩
    · have hmap : calls.reverse.map (fun c => newArtifactId c.idNow)
          = ((calls.map ArtifactCall.idNow).reverse).map natDigits := by
        simp [newArtifactId, Function.comp_def]
      rw [hmap]
      exact (List.nodup_reverse.2 hclock).map natDigits_injective
    · intro x hx hx2
      rw [List.mem_map] at hx
      obtain ⟨c, hc, rfl⟩ := hx
      exact hfresh c (List.mem_reverse.1 hc) hx2
  exact ⟨hids, hnodup, fun a ha => getArtifact_of_nodup _ hnodup a ha⟩

/-- Witness for C22: two calls reading the clock values 17 and 18 on an empty
list. -/
theorem artifact_ids_distinct_witness :
    ((addArtifacts readyState
        [{ idNow := 17, createdNow := 17, data := htmlArtifact "A".toList },
         { idNow := 18, createdNow := 18, data := htmlArtifact "B".toList }]).artifacts.map
        Artifact.id).Nodup
    ∧ (addArtifacts readyState
        [{ idNow := 17, createdNow := 17, data := htmlArtifact "A".toList },
         { idNow := 18, createdNow := 18, data := htmlArtifact "B".toList }]).artifacts.map
        Artifact.id = ["18".toList, "17".toList] :=
  ⟨(artifact_ids_distinct readyState
      [{ idNow := 17, createdNow := 17, data := htmlArtifact "A".toList },
       { idNow := 18, createdNow := 18, data := htmlArtifact "B".toList }]
      (by decide) (by decide) (by decide)).2.1,
    by decide⟩

/-! ### C23: the request body of the OpenAI-compatible and Ollama adapters -/

theorem openai_fetches (parse : List Char → Option Json) (fetch : Request → FetchResult)
    (apiKey : JsVal) (hk : truthy apiKey = true) (messages : List Message)
    (modelId : Option (List Char)) :
    (OpenAIClient.streamChat parse fetch apiKey messages modelId).fetches.map Request.body
      = [chatBody (modelId.getD "gpt-4o".toList) messages] := by
  unfold OpenAIClient.streamChat
  simp only [hk, Bool.not_true, Bool.false_eq_true, if_false]
  split
  · rfl
  · split <;> rfl

theorem groq_fetches (parse : List Char → Option Json) (fetch : Request → FetchResult)
    (apiKey : JsVal) (hk : truthy apiKey = true) (messages : List Message)
    (modelId : Option (List Char)) :
    (GroqClient.streamChat parse fetch apiKey messages modelId).fetches.map Request.body
      = [chatBody (modelId.getD "llama-3.3-70b-versatile".toList) messages] := by
  unfold GroqClient.streamChat
  simp only [hk, Bool.not_true, Bool.false_eq_true, if_false]
  split
  · rfl
  · split <;> rfl

theorem ollama_fetches (parse : List Char → Option Json) (fetch : Request → FetchResult)
    (messages : List Message) (modelId : Option (List Char)) :
    (OllamaClient.streamChat parse fetch messages modelId).fetches.map Request.body
      = [chatBody (modelId.getD "llama2".toList) messages] := by
  unfold OllamaClient.streamChat
  dsimp only
  split
  · rfl
  · split <;> rfl

theorem lmstudio_fetches (parse : List Char → Option Json) (fetch : Request → FetchResult)
    (messages : List Message) (modelId : Option (List Char)) :
    (LMStudioClient.streamChat parse fetch messages modelId).fetches.map Request.body
      = [chatBody
          (match modelId with
            | some m => if m.isEmpty then "local-model".toList else m
            | none => "local-model".toList) messages] := by
  unfold LMStudioClient.streamChat
  dsimp only
  split
  · rfl
  · split <;> rfl

theorem chatBody_eq (model : List Char) (messages : List Message) :
    chatBody model messages
      = streamBody model (messages.map (fun m => turnEntry m.role m.content)) := rfl

/-- C23: the OpenAI, Groq, Ollama and LM Studio adapters (the first two given
a credential) make one request whose body is `{model, messages, stream:
true}`.  `messages` has the length of the conversation and its i-th entry is
the object `{role, content}` of the i-th turn, which has no other property,
whatever else the turn carries; `model` is the given modelId, LM Studio
sending `local-model` when the modelId is absent or empty. -/
theorem request_body_role_content (parse : List Char → Option Json)
    (fetch : Request → FetchResult) (apiKey : JsVal) (hk : truthy apiKey = true)
    (messages : List Message) :
    ∃ entries : List Json,
      entries.length = messages.length
      ∧ (∀ (i : Nat) (m : Message), messages[i]? = some m →
          entries[i]? = some (turnEntry m.role m.content))
      ∧ (∀ role content key : List Char, key ≠ "role".toList → key ≠ "content".toList →
          (turnEntry role content).member key = none)
      ∧ (∀ modelId : List Char,
          (OpenAIClient.streamChat parse fetch apiKey messages (some modelId)).fetches.map
              Request.body = [streamBody modelId entries]
          ∧ (GroqClient.streamChat parse fetch apiKey messages (some modelId)).fetches.map
              Request.body = [streamBody modelId entries]
          ∧ (OllamaClient.streamChat parse fetch messages (some modelId)).fetches.map
              Request.body = [streamBody modelId entries]
          ∧ (modelId ≠ [] →
              (LMStudioClient.streamChat parse fetch messages (some modelId)).fetches.map
                Request.body = [streamBody modelId entries]))
      ∧ (LMStudioClient.streamChat parse fetch messages none).fetches.map Request.body
          = [streamBody "local-model".toList entries]
      ∧ (LMStudioClient.streamChat parse fetch messages (some [])).fetches.map Request.body
          = [streamBody "local-model".toList entries] := by
  refine ⟨messages.map (fun m => turnEntry m.role m.content), by simp, ?_, ?_, ?_, ?_, ?_⟩
  · intro i m hm
    simp [List.getElem?_map, hm]
  · intro role content key h1 h2
    have e1 : ¬ "role".toList = key := fun e => h1 e.symm
    have e2 : ¬ "content".toList = key := fun e => h2 e.symm
    simp only [turnEntry, Json.member, Json.lookup, e1, e2, if_false]
  · intro modelId
    refine ⟨?_, ?_, ?_, ?_⟩
    · rw [openai_fetches parse fetch apiKey hk, chatBody_eq]
      rfl
    · rw [groq_fetches parse fetch apiKey hk, chatBody_eq]
      rfl
    · rw [ollama_fetches, chatBody_eq]
      rfl
    · intro hne
      rw [lmstudio_fetches, chatBody_eq]
      cases modelId with
      | nil => exact absurd rfl hne
      | cons c cs => rfl
  · rw [lmstudio_fetches, chatBody_eq]
  · rw [lmstudio_fetches, chatBody_eq]
    rfl

/-- Witness for C23: the conversation of three turns, whose second turn
carries an `id`, sent with the modelId `m1`. -/
theorem request_body_role_content_witness :
    truthy someKey = true
    ∧ (OllamaClient.streamChat JSON.parse unreachable threeTurns
        (some "m1".toList)).fetches.map Request.body
      = [streamBody "m1".toList
          [turnEntry "user".toList "hi".toList, turnEntry "assistant".toList "hello".toList,
           turnEntry "system".toList "be brief".toList]]
    ∧ ∃ entries : List Json,
      entries.length = threeTurns.length
      ∧ (∀ (i : Nat) (m : Message), threeTurns[i]? = some m →
          entries[i]? = some (turnEntry m.role m.content))
      ∧ (∀ role content key : List Char, key ≠ "role".toList → key ≠ "content".toList →
          (turnEntry role content).member key = none)
      ∧ (∀ modelId : List Char,
          (OpenAIClient.streamChat JSON.parse unreachable someKey threeTurns
              (some modelId)).fetches.map Request.body = [streamBody modelId entries]
          ∧ (GroqClient.streamChat JSON.parse unreachable someKey threeTurns
              (some modelId)).fetches.map Request.body = [streamBody modelId entries]
          ∧ (OllamaClient.streamChat JSON.parse unreachable threeTurns
              (some modelId)).fetches.map Request.body = [streamBody modelId entries]
          ∧ (modelId ≠ [] →
              (LMStudioClient.streamChat JSON.parse unreachable threeTurns
                (some modelId)).fetches.map Request.body = [streamBody modelId entries]))
      ∧ (LMStudioClient.streamChat JSON.parse unreachable threeTurns none).fetches.map
          Request.body = [streamBody "local-model".toList entries]
      ∧ (LMStudioClient.streamChat JSON.parse unreachable threeTurns (some [])).fetches.map
          Request.body = [streamBody "local-model".toList entries] :=
  ⟨by decide, by rfl,
    request_body_role_content JSON.parse unreachable someKey (by decide) threeTurns⟩

/-! ### C24: the factory -/

/-- C24: `LLMFactory.getClient` maps each of the identifiers `openai`, `groq`,
`gemini`, `ollama` and `lmstudio` to the client of that provider, the remote
clients holding the given credential and the local clients holding `null`;
for every other value it throws `Unknown provider: ` followed by the value as
a string. -/
theorem factory_maps_identity (apiKey : JsVal) :
    LLMFactory.getClient (some (Json.str "openai".toList)) apiKey
        = Except.ok { provider := Provider.openai, apiKey := apiKey }
    ∧ LLMFactory.getClient (some (Json.str "groq".toList)) apiKey
        = Except.ok { provider := Provider.groq, apiKey := apiKey }
    ∧ LLMFactory.getClient (some (Json.str "gemini".toList)) apiKey
        = Except.ok { provider := Provider.gemini, apiKey := apiKey }
    ∧ LLMFactory.getClient (some (Json.str "ollama".toList)) apiKey
        = Except.ok { provider := Provider.ollama, apiKey := some Json.null }
    ∧ LLMFactory.getClient (some (Json.str "lmstudio".toList)) apiKey
        = Except.ok { provider := Provider.lmstudio, apiKey := some Json.null }
    ∧ (∀ p : Provider, LLMFactory.getClient (some (Json.str p.identifier)) apiKey
        = Except.ok { provider := p, apiKey := p.heldKey apiKey })
    ∧ (∀ provider : JsVal, (∀ p : Provider, provider ≠ some (Json.str p.identifier)) →
        LLMFactory.getClient provider apiKey
          = Except.error ("Unknown provider: ".toList ++ jsValToString provider)) := by
  refine ⟨rfl, rfl, rfl, rfl, rfl, fun p => by cases p <;> rfl, ?_⟩
  intro provider h
  cases provider with
  | none => rfl
  | some v =>
    cases v with
    | str name =>
      have h1 : name ≠ "openai".toList := fun e => h Provider.openai (by rw [e]; rfl)
      have h2 : name ≠ "groq".toList := fun e => h Provider.groq (by rw [e]; rfl)
      have h3 : name ≠ "gemini".toList := fun e => h Provider.gemini (by rw [e]; rfl)
      have h4 : name ≠ "ollama".toList := fun e => h Provider.ollama (by rw [e]; rfl)
      have h5 : name ≠ "lmstudio".toList := fun e => h Provider.lmstudio (by rw [e]; rfl)
      simp only [LLMFactory.getClient, h1, h2, h3, h4, h5, if_false, jsValToString,
        Json.toJsString]
    | _ => rfl

/-- Witness for C24: the identifier `claude` is none of the five, and the
factory throws `Unknown provider: claude`; so it does for `undefined` and for
the capitalised `OpenAI`. -/
theorem factory_maps_identity_witness :
    (∀ p : Provider, some (Json.str "claude".toList) ≠ some (Json.str p.identifier))
    ∧ LLMFactory.getClient (some (Json.str "claude".toList)) someKey
        = Except.error "Unknown provider: claude".toList
    ∧ LLMFactory.getClient none someKey = Except.error "Unknown provider: undefined".toList
    ∧ LLMFactory.getClient (some (Json.str "OpenAI".toList)) someKey
        = Except.error "Unknown provider: OpenAI".toList :=
  ⟨fun p e => by cases p <;> simp [Provider.identifier] at e,
    (factory_maps_identity someKey).2.2.2.2.2.2 (some (Json.str "claude".toList))
      (fun p e => by cases p <;> simp [Provider.identifier] at e),
    (factory_maps_identity someKey).2.2.2.2.2.2 none (fun p e => by cases e),
    (factory_maps_identity someKey).2.2.2.2.2.2 (some (Json.str "OpenAI".toList))
      (fun p e => by cases p <;> simp [Provider.identifier] at e)⟩

/-! ### C25: a frame carrying both reasoning and content -/

theorem openaiLine_both (parse : List Char → Option Json) (line : List Char)
    (hr : (deltaValue parse "reasoning".toList line).truthy = true) :
    ∃ usage : List ChunkEvent,
      openaiLine parse line
        = chunkCall (deltaValue parse "reasoning".toList line) true :: usage
      ∧ ∀ e ∈ usage, IsUsageCall e := by
  unfold deltaValue frameChoice at hr
  unfold openaiLine deltaValue frameChoice
  by_cases hc : (startsWith dataPrefix line && line != doneLine) = true
  · simp only [hc, if_true] at hr ⊢
    cases hp : parse (line.drop 6) with
    | none =>
      rw [hp] at hr
      simp [Json.truthy] at hr
    | some data =>
      rw [hp] at hr
      dsimp only at hr ⊢
      cases hf : firstChoice data with
      | none =>
        rw [hf] at hr
        simp [Json.truthy] at hr
      | some choice =>
        rw [hf] at hr
        dsimp only at hr ⊢
        simp only [hr, if_true, List.singleton_append]
        refine ⟨_, rfl, ?_⟩
        intro e he
        split at he
        · split at he
          · next hv =>
            simp only [List.mem_singleton] at he
            exact ⟨_, hv, he⟩
          · simp at he
        · simp at he
  · simp only [hc] at hr
    simp [Json.truthy] at hr

theorem openai_wholeLines_answer (parse : List Char → Option Json) (apiKey : JsVal)
    (hk : truthy apiKey = true) (messages : List Message) (modelId : Option (List Char))
    (lines : List (List Char)) (h : ∀ l ∈ lines, noNewline l) :
    (OpenAIClient.streamChat parse (serve [wholeLines lines]) apiKey messages modelId).answerText
      = contentsWithoutReasoningOf parse lines := by
  have hg : ∀ g ∈ [lines], ∀ l ∈ g, noNewline l := by
    intro g hg l hl
    rw [List.mem_singleton] at hg
    subst hg
    exact h l hl
  have hd := decodeChunks_wholeLines (openaiLine parse) (openaiLine_nil parse) [lines] hg
  simp only [List.map_cons, List.map_nil, List.flatten_cons, List.flatten_nil,
    List.append_nil] at hd
  rw [Run.answerText, (openai_serve parse _ apiKey hk messages modelId).1,
    aggregate_fullResponse, hd]
  exact (openai_texts parse _).1

/-- C25: in the OpenAI adapter a well-formed frame whose delta carries a
non-empty reasoning value and a non-empty content value produces exactly one
text call, the reasoning value flagged `isThinking`, followed only by the
usage call if the frame carries a count; no call forwards the content, so the
frame adds nothing to the answer text: a stream of whole lines holding the
frame has the answer text of the stream without it.  The line handler of the
Groq and LM Studio adapters forwards the content of the same frame. -/
theorem reasoning_frame_drops_content (parse : List Char → Option Json) (frame : List Char)
    (hr : (deltaValue parse "reasoning".toList frame).truthy = true)
    (hc : (deltaValue parse "content".toList frame).truthy = true) :
    (∃ usage : List ChunkEvent,
      openaiLine parse frame
        = chunkCall (deltaValue parse "reasoning".toList frame) true :: usage
      ∧ ∀ e ∈ usage, IsUsageCall e)
    ∧ (openaiLine parse frame).filter (fun e => !e.isThinking && e.chunk.truthy) = []
    ∧ textOf false (openaiLine parse frame) = []
    ∧ contentLine parse frame = [chunkCall (deltaValue parse "content".toList frame) false]
    ∧ (∀ (apiKey : JsVal) (messages : List Message) (modelId : Option (List Char))
        (before after : List (List Char)), truthy apiKey = true → noNewline frame →
        (∀ l ∈ before, noNewline l) → (∀ l ∈ after, noNewline l) →
        (OpenAIClient.streamChat parse (serve [wholeLines (before ++ frame :: after)]) apiKey
            messages modelId).answerText
          = (OpenAIClient.streamChat parse (serve [wholeLines (before ++ after)]) apiKey
              messages modelId).answerText) := by
  obtain ⟨usage, hu, hall⟩ := openaiLine_both parse frame hr
  refine ⟨⟨usage, hu, hall⟩, ?_, ?_, ?_, ?_⟩
  · rw [hu]
    rw [List.filter_eq_nil_iff]
    intro e he
    rcases List.mem_cons.1 he with h1 | h1
    · subst h1
      simp [chunkCall, ChunkEvent.isThinking]
    · obtain ⟨v, _, hv⟩ := hall e h1
      subst hv
      simp [usageCall, Json.truthy]
  · rw [openaiLine_text_false, hr]
    rfl
  · rw [contentLine_eq, hc]
    rfl
  · intro apiKey messages modelId before after hk hn hb ha
    have hall1 : ∀ l ∈ before ++ frame :: after, noNewline l := by
      intro l hl
      rcases List.mem_append.1 hl with h1 | h1
      · exact hb l h1
      · rcases List.mem_cons.1 h1 with h2 | h2
        · rw [h2]; exact hn
        · exact ha l h2
    have hall2 : ∀ l ∈ before ++ after, noNewline l := by
      intro l hl
      rcases List.mem_append.1 hl with h1 | h1
      · exact hb l h1
      · exact ha l h1
    rw [openai_wholeLines_answer parse apiKey hk messages modelId _ hall1,
      openai_wholeLines_answer parse apiKey hk messages modelId _ hall2]
    simp only [contentsWithoutReasoningOf, List.map_append, List.map_cons, hr, if_true,
      List.flatten_append, List.flatten_cons, List.nil_append]

/-- Witness for C25: the frame
`data: {"choices":[{"delta":{"reasoning":"R","content":"A"}}]}` yields the one
call `onChunk("R", { isThinking: true })`, and the answer text of the stream
holding it is empty. -/
theorem reasoning_frame_drops_content_witness :
    deltaValue JSON.parse "reasoning".toList bothFrame = Json.str "R".toList
    ∧ deltaValue JSON.parse "content".toList bothFrame = Json.str "A".toList
    ∧ (OpenAIClient.streamChat JSON.parse (serve [wholeLines [bothFrame]]) someKey
        hiConversation none).events = [chunkCall (Json.str "R".toList) true]
    ∧ textOf false (openaiLine JSON.parse bothFrame) = []
    ∧ (OpenAIClient.streamChat JSON.parse
          (serve [wholeLines ([validLine Provider.openai 'x'] ++ bothFrame
            :: [validLine Provider.openai 'y'])]) someKey hiConversation none).answerText
        = (OpenAIClient.streamChat JSON.parse
            (serve [wholeLines ([validLine Provider.openai 'x']
              ++ [validLine Provider.openai 'y'])]) someKey hiConversation none).answerText
    ∧ (OpenAIClient.streamChat JSON.parse
          (serve [wholeLines ([validLine Provider.openai 'x']
            ++ [validLine Provider.openai 'y'])]) someKey hiConversation none).answerText
        = "xy".toList :=
  ⟨by rfl, by rfl, by rfl,
    (reasoning_frame_drops_content JSON.parse bothFrame (by rfl) (by rfl)).2.2.1,
    (reasoning_frame_drops_content JSON.parse bothFrame (by rfl) (by rfl)).2.2.2.2 someKey
      hiConversation none [validLine Provider.openai 'x'] [validLine Provider.openai 'y']
      (by decide) (by decide) (by decide) (by decide),
    by decide⟩

/-! ### C26: re-chunking the stream of a bufferless adapter -/

/-- C26: the output of the OpenAI, Groq, LM Studio and Ollama adapters is not
invariant under re-chunking.  For each of them there is a well-formed frame
with the content `A` and a split point inside it such that the frame delivered
whole, followed by a newline, yields the one call `onChunk("A", { isThinking:
false })`, while the same text delivered as two chunks cut at the split point
yields no call. -/
theorem rechunking_loses_frame :
    (∃ (frame : List Char) (k : Nat), k < frame.length ∧ noNewline frame
      ∧ deltaValue JSON.parse "content".toList frame = Json.str "A".toList
      ∧ (OpenAIClient.streamChat JSON.parse (serve [frame ++ ['\n']]) someKey hiConversation
          none).events = [chunkCall (Json.str "A".toList) false]
      ∧ (OpenAIClient.streamChat JSON.parse (serve [frame.take k, frame.drop k ++ ['\n']])
          someKey hiConversation none).events = [])
    ∧ (∃ (frame : List Char) (k : Nat), k < frame.length ∧ noNewline frame
      ∧ deltaValue JSON.parse "content".toList frame = Json.str "A".toList
      ∧ (GroqClient.streamChat JSON.parse (serve [frame ++ ['\n']]) someKey hiConversation
          none).events = [chunkCall (Json.str "A".toList) false]
      ∧ (GroqClient.streamChat JSON.parse (serve [frame.take k, frame.drop k ++ ['\n']])
          someKey hiConversation none).events = [])
    ∧ (∃ (frame : List Char) (k : Nat), k < frame.length ∧ noNewline frame
      ∧ deltaValue JSON.parse "content".toList frame = Json.str "A".toList
      ∧ (LMStudioClient.streamChat JSON.parse (serve [frame ++ ['\n']]) hiConversation
          none).events = [chunkCall (Json.str "A".toList) false]
      ∧ (LMStudioClient.streamChat JSON.parse (serve [frame.take k, frame.drop k ++ ['\n']])
          hiConversation none).events = [])
    ∧ (∃ (frame : List Char) (k : Nat), k < frame.length ∧ noNewline frame
      ∧ JSON.parse frame = some (Json.obj [("message".toList,
          Json.obj [("content".toList, Json.str "A".toList)])])
      ∧ (OllamaClient.streamChat JSON.parse (serve [frame ++ ['\n']]) hiConversation
          none).events = [chunkCall (Json.str "A".toList) false]
      ∧ (OllamaClient.streamChat JSON.parse (serve [frame.take k, frame.drop k ++ ['\n']])
          hiConversation none).events = []) :=
  ⟨⟨validLine Provider.openai 'A', 12, by decide, by decide, by rfl, by rfl, by rfl⟩,
    ⟨validLine Provider.groq 'A', 12, by decide, by decide, by rfl, by rfl, by rfl⟩,
    ⟨validLine Provider.lmstudio 'A', 12, by decide, by decide, by rfl, by rfl, by rfl⟩,
    ⟨validLine Provider.ollama 'A', 16, by decide, by decide, by rfl, by rfl, by rfl⟩⟩

/-! ### C27: a stream without reasoning text -/

/-- C27: when the completed stream produced no reasoning text, the assistant
message stored last has `thinking`, `thinkingTokens` and `duration` all
`null`, whatever reasoning-token count the callback captured. -/
theorem empty_reasoning_stores_null (env : SendEnv) (st : AppState) (client : Client)
    (hready : SendReady st client)
    (hok : (sendRun env st client).result = Except.ok ())
    (hempty : (sendRun env st client).reasoningText = []) :
    ∃ msg : ChatMessage,
      (handleSendMessage env st).state.messages.getLast? = some msg
      ∧ msg.role = "assistant".toList
      ∧ msg.thinking = Json.null
      ∧ msg.thinkingTokens = Json.null
      ∧ msg.duration = Json.null := by
  rw [handleSendMessage_ready env st client hready, hok]
  dsimp only
  obtain ⟨idNow, timestampNow, content, duration, hlast⟩ :=
    completeStream_last env (stateBeforeStream env st) (aggregate (sendRun env st client).events)
  have hth : (aggregate (sendRun env st client).events).fullThinking = [] := hempty
  refine ⟨_, hlast, rfl, ?_, ?_, ?_⟩ <;>
    simp [newMessage, messageMetadataOf, hth, MessageMetadata.empty, orNull]

/-- Witness for C27: the stream delivers the count 7 and the answer `A` but
no reasoning text; the count is captured by the callback and the stored
message carries `null`. -/
theorem empty_reasoning_stores_null_witness :
    (sendRun (testEnv countThenAnswer) openaiState openaiClient).result = Except.ok ()
    ∧ (sendRun (testEnv countThenAnswer) openaiState openaiClient).reasoningText = []
    ∧ (sendRun (testEnv countThenAnswer) openaiState openaiClient).capturedTokens = Json.num 7
    ∧ (sendRun (testEnv countThenAnswer) openaiState openaiClient).answerText = "A".toList
    ∧ ∃ msg : ChatMessage,
      (handleSendMessage (testEnv countThenAnswer) openaiState).state.messages.getLast?
        = some msg
      ∧ msg.role = "assistant".toList
      ∧ msg.thinking = Json.null
      ∧ msg.thinkingTokens = Json.null
      ∧ msg.duration = Json.null :=
  ⟨by rfl, by decide, by rfl, by decide,
    empty_reasoning_stores_null (testEnv countThenAnswer) openaiState openaiClient
      openaiState_ready (by rfl) (by decide)⟩

/-! ### C28: clearing the cache under a name without an entry -/

theorem contains_of_not_mem (l : List (List Char)) (a : List Char) (h : a ∉ l) :
    l.contains a = false := by
  simpa using h

theorem clearCache_none (c : ModelCache) : ModelService.clearCache none c = c.clearAll := rfl

/-- C28: `clearCache(provider)` with a name that is no property of the cache
object (neither `groq`, `ollama`, `lmstudio` or another own property, nor a
name every object inherits) takes the clear-all branch: the result is the one
of `clearCache()`, in which the entry of every provider is `{models: null,
timestamp: null}`.  This is so for `openai` and `gemini` on every cache whose
own properties besides the three entries, if any, go by inherited names (the
only ones `clearCache` ever creates). -/
theorem clearCache_unknown_name_clears_all (provider : JsVal) (c : ModelCache)
    (hown : ∀ k : Discoverable, jsValToString provider ≠ k.key)
    (hextra : jsValToString provider ∉ c.extra.map Prod.fst)
    (hproto : jsValToString provider ∉ objectPrototypeNames) :
    ModelService.clearCache provider c = ModelService.clearCache none c
    ∧ (∀ k : Discoverable, (ModelService.clearCache provider c).entry k = CacheEntry.empty)
    ∧ (∀ p ∈ (ModelService.clearCache provider c).extra, p.2 = CacheEntry.empty)
    ∧ ((∀ n ∈ c.extra.map Prod.fst, n ∈ objectPrototypeNames) →
        ModelService.clearCache (some (Json.str "openai".toList)) c
            = ModelService.clearCache none c
        ∧ ModelService.clearCache (some (Json.str "gemini".toList)) c
            = ModelService.clearCache none c) := by
  have h1 : jsValToString provider ≠ "groq".toList := hown Discoverable.groq
  have h2 : jsValToString provider ≠ "ollama".toList := hown Discoverable.ollama
  have h3 : jsValToString provider ≠ "lmstudio".toList := hown Discoverable.lmstudio
  have h4 : (c.extra.map Prod.fst).contains (jsValToString provider) = false :=
    contains_of_not_mem _ _ hextra
  have h5 : objectPrototypeNames.contains (jsValToString provider) = false :=
    contains_of_not_mem _ _ hproto
  have h6 : jsValToString provider ≠ "__proto__".toList := by
    intro e
    apply hproto
    rw [e]
    decide
  have hall : ModelService.clearCache provider c = c.clearAll := by
    unfold ModelService.clearCache
    split
    · simp only [h1, h2, h3, h4, h5, h6, if_false, Bool.false_eq_true]
    · rfl
  rw [hall, clearCache_none]
  refine ⟨rfl, fun k => by cases k <;> rfl, ?_, ?_⟩
  · intro p hp
    simp only [ModelCache.clearAll, List.mem_map] at hp
    obtain ⟨q, _, hq⟩ := hp
    rw [← hq]
  · intro hinv
    have ho : (c.extra.map Prod.fst).contains "openai".toList = false :=
      contains_of_not_mem _ _ (fun hm => absurd (hinv _ hm) (by decide))
    have hg : (c.extra.map Prod.fst).contains "gemini".toList = false :=
      contains_of_not_mem _ _ (fun hm => absurd (hinv _ hm) (by decide))
    have ho1 : (c.extra.map Prod.fst).contains
        (jsValToString (some (Json.str "openai".toList))) = false := ho
    have hg1 : (c.extra.map Prod.fst).contains
        (jsValToString (some (Json.str "gemini".toList))) = false := hg
    constructor
    · unfold ModelService.clearCache
      simp only [ho1]
      rfl
    · unfold ModelService.clearCache
      simp only [hg1]
      rfl

/-- Witness for C28: on a cache whose three entries are filled,
`clearCache("openai")` empties all three, as `clearCache()` does. -/
theorem clearCache_unknown_name_clears_all_witness :
    (∀ k : Discoverable, jsValToString (some (Json.str "openai".toList)) ≠ k.key)
    ∧ jsValToString (some (Json.str "openai".toList)) ∉ filledCache.extra.map Prod.fst
    ∧ jsValToString (some (Json.str "openai".toList)) ∉ objectPrototypeNames
    ∧ ModelService.clearCache (some (Json.str "openai".toList)) filledCache
        = ModelService.clearCache none filledCache
    ∧ (ModelService.clearCache (some (Json.str "openai".toList)) filledCache).groq
        = CacheEntry.empty
    ∧ filledCache.groq.models.isSome = true :=
  ⟨fun k => by cases k <;> decide, by decide, by decide,
    (clearCache_unknown_name_clears_all (some (Json.str "openai".toList)) filledCache
      (fun k => by cases k <;> decide) (by decide) (by decide)).1,
    (clearCache_unknown_name_clears_all (some (Json.str "openai".toList)) filledCache
      (fun k => by cases k <;> decide) (by decide) (by decide)).2.1 Discoverable.groq,
    rfl⟩

theorem clearCache_inherited_name (c : ModelCache)
    (hextra : "constructor".toList ∉ c.extra.map Prod.fst) :
    ModelService.clearCache (some (Json.str "constructor".toList)) c
      = { c with extra := setExtra "constructor".toList CacheEntry.empty c.extra } := by
  have h4 : (c.extra.map Prod.fst).contains "constructor".toList = false :=
    contains_of_not_mem _ _ hextra
  have h4b : (c.extra.map Prod.fst).contains (jsValToString (some (Json.str "constructor".toList)))
      = false := h4
  unfold ModelService.clearCache
  simp only [h4b]
  rfl

/-! ### C29: a failed discovery call -/

theorem buildModels_no_list (k : Discoverable) (data : Json)
    (h : hasModelList k data = false) : buildModels k data = none := by
  cases k <;> cases data <;>
    simp only [hasModelList, Discoverable.listProperty, Json.member, buildModels, dot,
      mapModels] at h ⊢
  all_goals
    rename_i kvs
    generalize Json.lookup _ kvs = v at h ⊢
    cases v with
    | none => rfl
    | some w => cases w <;> first | rfl | simp at h

theorem discover_failure (k : Discoverable) (get : ModelsRequest → FetchResult)
    (nowCheck nowStore : Int) (apiKey : JsVal) (cache : ModelCache)
    (hmiss : cacheHit (cache.entry k) nowCheck = none)
    (hfail : (∃ m, get (discoveryRequest k apiKey) = FetchResult.networkError m)
      ∨ ∃ r, get (discoveryRequest k apiKey) = FetchResult.response r
          ∧ (r.ok = false ∨ (∃ m, r.json = Except.error m)
            ∨ ∃ data, r.json = Except.ok data ∧ buildModels k data = none)) :
    discover k get nowCheck nowStore apiKey cache
      = { result := [], cache := cache, requests := [discoveryRequest k apiKey] } := by
  rcases hfail with ⟨m, hm⟩ | ⟨r, hr, hcase⟩
  · simp [discover, hmiss, hm]
  · rcases hcase with hok | ⟨m, hm⟩ | ⟨data, hd, hb⟩
    · simp [discover, hmiss, hr, hok]
    · cases hok : r.ok <;> simp [discover, hmiss, hr, hok, hm]
    · cases hok : r.ok <;> simp [discover, hmiss, hr, hok, hd, hb]

/-- C29: a discovery call that misses the cache and whose request fails, is
answered with a non-OK status, or is answered with a body that is not JSON or
on which mapping the model list throws (as it does on every body whose `data`
/ `models` property is not an array), returns the empty list and leaves the
cache as it was; it made one request unless it is the Groq call without a
credential.  `fetchGroqModels` with a falsy credential returns the empty
list, makes no request and leaves the cache as it was, whatever the cache
holds.  The model returns on every branch: no exception leaves the call. -/
theorem discovery_failure_returns_empty (k : Discoverable) (get : ModelsRequest → FetchResult)
    (nowCheck nowStore : Int) (apiKey : JsVal) (cache : ModelCache)
    (hmiss : cacheHit (cache.entry k) nowCheck = none)
    (hfail : (∃ m, get (discoveryRequest k apiKey) = FetchResult.networkError m)
      ∨ ∃ r, get (discoveryRequest k apiKey) = FetchResult.response r
          ∧ (r.ok = false ∨ (∃ m, r.json = Except.error m)
            ∨ ∃ data, r.json = Except.ok data ∧ buildModels k data = none)) :
    (ModelService.fetchModels k get nowCheck nowStore apiKey cache).result = []
    ∧ (ModelService.fetchModels k get nowCheck nowStore apiKey cache).cache = cache
    ∧ ((k = Discoverable.groq → truthy apiKey = true) →
        (ModelService.fetchModels k get nowCheck nowStore apiKey cache).requests
          = [discoveryRequest k apiKey])
    ∧ (∀ data : Json, hasModelList k data = false → buildModels k data = none)
    ∧ (∀ (get1 : ModelsRequest → FetchResult) (t t1 : Int) (key : JsVal) (c : ModelCache),
        truthy key = false →
        ModelService.fetchGroqModels get1 t t1 key c
          = { result := [], cache := c, requests := [] }) := by
  have hreq : discoveryRequest k (k.credential apiKey) = discoveryRequest k apiKey :=
    discoveryRequest_key k apiKey
  have hfull : (k = Discoverable.groq → truthy apiKey = true) →
      ModelService.fetchModels k get nowCheck nowStore apiKey cache
        = { result := [], cache := cache, requests := [discoveryRequest k apiKey] } := by
    intro hk
    rw [fetchModels_eq_discover k get nowCheck nowStore apiKey hk cache, ← hreq]
    apply discover_failure _ _ _ _ _ _ hmiss
    rw [hreq]
    exact hfail
  have hkey : ∀ (get1 : ModelsRequest → FetchResult) (t t1 : Int) (key : JsVal)
      (c : ModelCache), truthy key = false →
      ModelService.fetchGroqModels get1 t t1 key c
        = { result := [], cache := c, requests := [] } := by
    intro get1 t t1 key c hk0
    simp [ModelService.fetchGroqModels, hk0]
  have hboth : (ModelService.fetchModels k get nowCheck nowStore apiKey cache).result = []
      ∧ (ModelService.fetchModels k get nowCheck nowStore apiKey cache).cache = cache := by
    by_cases hk : k = Discoverable.groq → truthy apiKey = true
    · rw [hfull hk]
      exact ⟨rfl, rfl⟩
    · have hg : k = Discoverable.groq := by
        by_contra hne
        exact hk (fun e => absurd e hne)
      have hf : truthy apiKey = false := by
        cases ht : truthy apiKey with
        | false => rfl
        | true => exact absurd (fun _ => ht) hk
      subst hg
      have e : ModelService.fetchModels Discoverable.groq get nowCheck nowStore apiKey cache
          = { result := [], cache := cache, requests := [] } :=
        hkey get nowCheck nowStore apiKey cache hf
      rw [e]
      exact ⟨rfl, rfl⟩
  exact ⟨hboth.1, hboth.2, fun hk => by rw [hfull hk], buildModels_no_list k, hkey⟩

/-- Witness for C29: the Ollama call with the transport down, the Groq call
on an expired entry answered with a non-OK status, the LM Studio call
answered with the body `{"error":"down"}`, and the Groq call without a
credential on a cache whose Groq entry is fresh. -/
theorem discovery_failure_returns_empty_witness :
    cacheHit (ModelCache.init.entry Discoverable.ollama) 900 = none
    ∧ (ModelService.fetchModels Discoverable.ollama offline 900 1000 none
        ModelCache.init).result = []
    ∧ (ModelService.fetchModels Discoverable.groq refuseModels 900000 900001 someKey
        filledCache).cache = filledCache
    ∧ (ModelService.fetchModels Discoverable.groq refuseModels 900000 900001 someKey
        filledCache).requests = [discoveryRequest Discoverable.groq someKey]
    ∧ cacheHit (filledCache.entry Discoverable.groq) 900000 = none
    ∧ hasModelList Discoverable.lmstudio errorBody = false
    ∧ (ModelService.fetchModels Discoverable.lmstudio (serveModels errorBody) 900 1000 none
          ModelCache.init).result = []
    ∧ cacheHit (groqCached.entry Discoverable.groq) 11 = some []
    ∧ ModelService.fetchGroqModels offline 11 12 (some (Json.str [])) groqCached
        = { result := [], cache := groqCached, requests := [] } :=
  ⟨by rfl,
    (discovery_failure_returns_empty Discoverable.ollama offline 900 1000 none ModelCache.init
      (by rfl) (Or.inl ⟨_, rfl⟩)).1,
    (discovery_failure_returns_empty Discoverable.groq refuseModels 900000 900001 someKey
      filledCache (by rfl) (Or.inr ⟨_, rfl, Or.inl rfl⟩)).2.1,
    (discovery_failure_returns_empty Discoverable.groq refuseModels 900000 900001 someKey
      filledCache (by rfl) (Or.inr ⟨_, rfl, Or.inl rfl⟩)).2.2.1 (fun _ => by decide),
    by rfl, by rfl,
    (discovery_failure_returns_empty Discoverable.lmstudio (serveModels errorBody) 900 1000 none
      ModelCache.init (by rfl)
      (Or.inr ⟨_, rfl, Or.inr (Or.inr ⟨errorBody, rfl, by rfl⟩)⟩)).1,
    by rfl,
    (discovery_failure_returns_empty Discoverable.ollama offline 900 1000 none ModelCache.init
      (by rfl) (Or.inl ⟨_, rfl⟩)).2.2.2.2 offline 11 12 (some (Json.str [])) groqCached
      (by rfl)⟩

/-! ### C30: deleting a chat -/

/-- C30: `deleteChat` never leaves the chat list empty.  When a chat with
another id exists, the resulting list is the input list without the chats of
the given id: a sublist of the input, in the input order, holding exactly the
chats with another id.  Otherwise the result is one fresh chat titled
`New Chat` with no messages and no artifacts. -/
theorem deleteChat_never_empty (idNow createdNow : Nat) (chatId : List Char)
    (h : ChatHistory) :
    (deleteChat idNow createdNow chatId h).chats ≠ []
    ∧ ((∃ c ∈ h.chats, c.id ≠ chatId) →
        (deleteChat idNow createdNow chatId h).chats
            = h.chats.filter (fun c => c.id != chatId)
        ∧ (deleteChat idNow createdNow chatId h).chats.Sublist h.chats
        ∧ (∀ c : Chat, c ∈ (deleteChat idNow createdNow chatId h).chats
            ↔ c ∈ h.chats ∧ c.id ≠ chatId))
    ∧ ((∀ c ∈ h.chats, c.id = chatId) →
        ∃ c : Chat, (deleteChat idNow createdNow chatId h).chats = [c]
          ∧ c.title = "New Chat".toList ∧ c.messages = [] ∧ c.artifacts = []
          ∧ c.id = natDigits idNow ∧ c.createdAt = createdNow) := by
  refine ⟨?_, ?_, ?_⟩
  · unfold deleteChat
    dsimp only
    split
    · next hpos =>
      intro he
      rw [he] at hpos
      simp at hpos
    · simp
  · rintro ⟨c, hc, hne⟩
    have hmem : c ∈ h.chats.filter (fun c => c.id != chatId) := by
      simp [List.mem_filter, hc, hne]
    have hpos : (h.chats.filter (fun c => c.id != chatId)).length > 0 :=
      List.length_pos_of_mem hmem
    have heq : (deleteChat idNow createdNow chatId h).chats
        = h.chats.filter (fun c => c.id != chatId) := by
      simp only [deleteChat, hpos, if_true]
    rw [heq]
    refine ⟨rfl, List.filter_sublist _, ?_⟩
    intro d
    simp [List.mem_filter]
  · intro hall
    have hnil : h.chats.filter (fun c => c.id != chatId) = [] := by
      rw [List.filter_eq_nil_iff]
      intro c hc
      simp [hall c hc]
    refine ⟨freshChat idNow createdNow, ?_, rfl, rfl, rfl, rfl, rfl⟩
    simp [deleteChat, hnil]

/-- Witness for C30: deleting the id `1` from the chats `1, 2, 1` leaves the
chat `2`; deleting the id `2` from what is left gives one fresh chat. -/
theorem deleteChat_never_empty_witness :
    (∃ c ∈ threeChats.chats, c.id ≠ "1".toList)
    ∧ (deleteChat 50 51 "1".toList threeChats).chats
        = threeChats.chats.filter (fun c => c.id != "1".toList)
    ∧ (deleteChat 50 51 "1".toList threeChats).chats.map Chat.title = ["b".toList]
    ∧ (∀ c ∈ (deleteChat 50 51 "1".toList threeChats).chats, c.id = "2".toList)
    ∧ ∃ c : Chat,
        (deleteChat 60 61 "2".toList (deleteChat 50 51 "1".toList threeChats)).chats = [c]
          ∧ c.title = "New Chat".toList ∧ c.messages = [] ∧ c.artifacts = []
          ∧ c.id = natDigits 60 ∧ c.createdAt = 61 :=
  ⟨⟨chatOf "2".toList "b".toList, by simp [threeChats], by decide⟩,
    ((deleteChat_never_empty 50 51 "1".toList threeChats).2.1
      ⟨chatOf "2".toList "b".toList, by simp [threeChats], by decide⟩).1,
    by decide, by decide,
    (deleteChat_never_empty 60 61 "2".toList (deleteChat 50 51 "1".toList threeChats)).2.2
      (by decide)⟩

end OpenClaude
